import Mathlib

/-!
# Button matrix driver (buttons_matrix.c)

A shallow embedding of the nRF Desktop button matrix driver
(samples/nrf_desktop/src/hw_interface/buttons_matrix.c) and theorems about it.

The driver talks to three external collaborators: the pin controller, the
delayed work queue and the event bus.  They are modelled as follows.

* The pin controller is a record `Gpio` holding, per pin, the callback-enable
  bit, the last accepted configuration and the last accepted output level,
  plus the ordered log of every call made.  Return codes and sampled levels
  come from an environment `Env`, indexed by the number of calls made so far,
  so any pattern of failures and any pattern of key presses can be described.
* The delayed work item is the field `pending`: `some d` when the scan has been
  submitted with delay `d` and has not run yet.
* The event bus is the list `published` of everything submitted, oldest first.

The spin lock is not modelled: every entry point of the driver runs as one
atomic step.  Assertions are compiled out (release build) and have no effect.
-/

namespace ButtonsMatrix

/-! ## Data model -/

/-- The driver state (enum state in the source). -/
inductive State where
  | STATE_IDLE
  | STATE_ACTIVE
  | STATE_SCANNING
  | STATE_SUSPENDING
  deriving DecidableEq, Repr

/-- Module status values announced with module_set_state. -/
inductive ModuleState where
  | MODULE_STATE_READY
  | MODULE_STATE_STANDBY
  | MODULE_STATE_ERROR
  deriving DecidableEq, Repr

/-- Events the driver submits to the event bus. -/
inductive Event where
  | button_event (key_id : Nat) (pressed : Bool)
  | wake_up_event
  | module_state_event (s : ModuleState)
  deriving DecidableEq, Repr

/-- Events delivered to the driver by the event bus.  The module state event
carries whether it is the READY status of the main module (check_state). -/
inductive Incoming where
  | module_state_event (main_ready : Bool)
  | wake_up_event
  | power_down_event
  | other
  deriving DecidableEq, Repr

/-- Pin configuration flags.  The source combines them with bitwise or; the
numeric values live in the platform header, so a configuration is kept as the
list of the flags that were or-ed together. -/
inductive GpioFlag where
  | GPIO_DIR_OUT
  | GPIO_DIR_IN
  | GPIO_PUD_PULL_DOWN
  | GPIO_INT
  | GPIO_INT_ACTIVE_HIGH
  | GPIO_INT_EDGE
  | GPIO_INT_LEVEL
  deriving DecidableEq, Repr

/-- One call made to the pin controller. -/
inductive GpioCall where
  | pin_write (pin : Nat) (val : Nat)
  | pin_read (pin : Nat)
  | pin_configure (pin : Nat) (flags : List GpioFlag)
  | pin_enable_callback (pin : Nat)
  | pin_disable_callback (pin : Nat)
  | add_callback (pin_mask : Nat)
  deriving DecidableEq, Repr

/-- The environment of a run: what the platform answers.
* fault n is the return code of the n-th call to the pin controller
  (0 is success);
* level n p is the level seen when the n-th call reads pin p;
* binding tells whether device_get_binding finds the device;
* scan_interval is CONFIG_DESKTOP_BUTTONS_MATRIX_SCAN_INTERVAL. -/
structure Env where
  fault : Nat → Int
  level : Nat → Nat → Bool
  binding : Bool
  scan_interval : Nat

/-- The simulated pin controller. -/
structure Gpio where
  cb : Nat → Bool
  cfg : Nat → Option (List GpioFlag)
  out : Nat → Nat
  log : List GpioCall

/-- History record taken where matrix_scan_fn validates its state: the driver
state and whether any row pin callback was enabled at that moment. -/
structure ScanEntry where
  st : State
  armed : Bool
  deriving DecidableEq, Repr

/-- All mutable state: the statics of the driver, the pin controller, the
delayed work item and the event bus. -/
structure World where
  state : State
  old_state : List Nat
  initialized : Bool
  gpio_dev : Bool
  gpio : Gpio
  pending : Option Nat
  published : List Event
  scan_entries : List ScanEntry

/-! ## Constants -/

/-- Errno value (platform header); only its being positive and different from
the other two matters. -/
def EFAULT : Int := 14

/-- Errno value (platform header). -/
def EBUSY : Int := 16

/-- Errno value (platform header). -/
def EALREADY : Int := 120

def col_pin : List Nat := [2, 21, 20, 19]

def row_pin : List Nat := [29, 31, 22, 24]

/-! ## Platform calls -/

/-- Model of gpio_pin_write: logged; on success the output level is latched. -/
def gpio_pin_write (env : Env) (g : Gpio) (pin val : Nat) : Int × Gpio :=
  let rc := env.fault g.log.length
  let g1 := { g with log := g.log ++ [GpioCall.pin_write pin val] }
  if rc = 0 then (0, { g1 with out := fun p => if p = pin then val else g.out p })
  else (rc, g1)

/-- Model of gpio_pin_read: logged; the value read is 0 or 1 (the level
contract of the pin controller, read(pin) → 0|1). -/
def gpio_pin_read (env : Env) (g : Gpio) (pin : Nat) : Int × Nat × Gpio :=
  let rc := env.fault g.log.length
  let val := if env.level g.log.length pin then 1 else 0
  let g1 := { g with log := g.log ++ [GpioCall.pin_read pin] }
  if rc = 0 then (0, val, g1) else (rc, 0, g1)

/-- Model of gpio_pin_configure: logged; on success the flags are stored. -/
def gpio_pin_configure (env : Env) (g : Gpio) (pin : Nat) (flags : List GpioFlag) :
    Int × Gpio :=
  let rc := env.fault g.log.length
  let g1 := { g with log := g.log ++ [GpioCall.pin_configure pin flags] }
  if rc = 0 then (0, { g1 with cfg := fun p => if p = pin then some flags else g.cfg p })
  else (rc, g1)

/-- Model of gpio_pin_enable_callback. -/
def gpio_pin_enable_callback (env : Env) (g : Gpio) (pin : Nat) : Int × Gpio :=
  let rc := env.fault g.log.length
  let g1 := { g with log := g.log ++ [GpioCall.pin_enable_callback pin] }
  if rc = 0 then (0, { g1 with cb := fun p => if p = pin then true else g.cb p })
  else (rc, g1)

/-- Model of gpio_pin_disable_callback. -/
def gpio_pin_disable_callback (env : Env) (g : Gpio) (pin : Nat) : Int × Gpio :=
  let rc := env.fault g.log.length
  let g1 := { g with log := g.log ++ [GpioCall.pin_disable_callback pin] }
  if rc = 0 then (0, { g1 with cb := fun p => if p = pin then false else g.cb p })
  else (rc, g1)

/-- Model of gpio_add_callback (the callback is button_pressed). -/
def gpio_add_callback (env : Env) (g : Gpio) (pin_mask : Nat) : Int × Gpio :=
  let rc := env.fault g.log.length
  (rc, { g with log := g.log ++ [GpioCall.add_callback pin_mask] })

/-- EVENT_SUBMIT: the bus keeps submission order. -/
def EVENT_SUBMIT (e : Event) (w : World) : World :=
  { w with published := w.published ++ [e] }

/-- Status publication of this module. -/
def module_set_state (s : ModuleState) (w : World) : World :=
  EVENT_SUBMIT (Event.module_state_event s) w

/-- Submitting the delayed work item (the only instance is matrix_scan). -/
def k_delayed_work_submit (delay : Nat) (w : World) : World :=
  { w with pending := some delay }

/-! ## The driver -/

/-- Loop body of set_cols over the remaining column indices. -/
def set_cols_loop (env : Env) (mask : Nat) : List Nat → Gpio → Int × Gpio
  | [], g => (0, g)
  | i :: rest, g =>
    let val := if mask &&& (1 <<< i) ≠ 0 then 1 else 0
    let r := gpio_pin_write env g (col_pin.getD i 0) val
    if r.1 ≠ 0 then (-EFAULT, r.2) else set_cols_loop env mask rest r.2

def set_cols (env : Env) (mask : Nat) (g : Gpio) : Int × Gpio :=
  set_cols_loop env mask (List.range col_pin.length) g

/-- Loop body of get_rows; the accumulator is the word pointed to by mask.
With val at most 1 and i below 4 the u32 arithmetic cannot overflow. -/
def get_rows_loop (env : Env) : List Nat → Gpio → Nat → Int × Nat × Gpio
  | [], g, mask => (0, mask, g)
  | i :: rest, g, mask =>
    let r := gpio_pin_read env g (row_pin.getD i 0)
    if r.1 ≠ 0 then (-EFAULT, mask, r.2.2)
    else get_rows_loop env rest r.2.2 (mask ||| (r.2.1 <<< i))

/-- The source bounds this loop by ARRAY_SIZE(col_pin). -/
def get_rows (env : Env) (g : Gpio) (mask : Nat) : Int × Nat × Gpio :=
  get_rows_loop env (List.range col_pin.length) g mask

/-- Loop of set_trig_mode: stops at the first error. -/
def set_trig_mode_loop (env : Env) (flags : List GpioFlag) : List Nat → Gpio → Int × Gpio
  | [], g => (0, g)
  | i :: rest, g =>
    let r := gpio_pin_configure env g (row_pin.getD i 0) flags
    if r.1 ≠ 0 then r else set_trig_mode_loop env flags rest r.2

def set_trig_mode (env : Env) (trig_mode : GpioFlag) (g : Gpio) : Int × Gpio :=
  let flags := [GpioFlag.GPIO_PUD_PULL_DOWN, GpioFlag.GPIO_DIR_IN, GpioFlag.GPIO_INT,
    GpioFlag.GPIO_INT_ACTIVE_HIGH] ++ [trig_mode]
  set_trig_mode_loop env flags (List.range row_pin.length) g

/-- Loop of callback_ctrl: stops at the first error. -/
def callback_ctrl_loop (env : Env) (enable : Bool) : List Nat → Gpio → Int × Gpio
  | [], g => (0, g)
  | i :: rest, g =>
    let r := if enable then gpio_pin_enable_callback env g (row_pin.getD i 0)
      else gpio_pin_disable_callback env g (row_pin.getD i 0)
    if r.1 ≠ 0 then r else callback_ctrl_loop env enable rest r.2

def callback_ctrl (env : Env) (enable : Bool) (g : Gpio) : Int × Gpio :=
  callback_ctrl_loop env enable (List.range row_pin.length) g

def suspend_nolock (env : Env) (w : World) : Int × World :=
  match w.state with
  | State.STATE_SCANNING => (-EBUSY, { w with state := State.STATE_SUSPENDING })
  | State.STATE_SUSPENDING => (-EBUSY, w)
  | State.STATE_ACTIVE =>
    let w1 := { w with state := State.STATE_IDLE }
    let r := set_trig_mode env GpioFlag.GPIO_INT_LEVEL w1.gpio
    if r.1 = 0 then
      let r2 := callback_ctrl env true r.2
      (r2.1, { w1 with gpio := r2.2 })
    else (r.1, { w1 with gpio := r.2 })
  | State.STATE_IDLE => (-EALREADY, w)

def suspend (env : Env) (w : World) : Int × World :=
  suspend_nolock env w

/-- Sampling loop of matrix_scan_fn over the remaining column indices; cur is
the local array cur_state.  Returns the error code, the array and the device. -/
def sample_loop (env : Env) : List Nat → Gpio → List Nat → Int × List Nat × Gpio
  | [], g, cur => (0, cur, g)
  | i :: rest, g, cur =>
    let r := set_cols env (1 <<< i) g
    if r.1 = 0 then
      let r2 := get_rows env r.2 (cur.getD i 0)
      if r2.1 ≠ 0 then (r2.1, cur.set i r2.2.1, r2.2.2)
      else sample_loop env rest r2.2.2 (cur.set i r2.2.1)
    else (r.1, cur, r.2)

/-- The whole sampling phase, starting from cur_state = {0}. -/
def sample (env : Env) (g : Gpio) : Int × List Nat × Gpio :=
  sample_loop env (List.range col_pin.length) g (List.replicate col_pin.length 0)

/-- Inner loop (over rows j) of the change detection of matrix_scan_fn for
column i.  The pair carries the world and the local any_pressed.  key_id is a
16 bit field of the button event. -/
def diff_row (cur : List Nat) (i : Nat) : List Nat → World × Bool → World × Bool
  | [], s => s
  | j :: rest, s =>
    let is_pressed := decide (cur.getD i 0 &&& (1 <<< j) ≠ 0)
    let was_pressed := decide (s.1.old_state.getD i 0 &&& (1 <<< j) ≠ 0)
    let w1 :=
      if is_pressed ≠ was_pressed then
        EVENT_SUBMIT (Event.button_event (((i <<< 8) ||| (j &&& 0xFF)) % 65536) is_pressed) s.1
      else s.1
    diff_row cur i rest (w1, s.2 || is_pressed)

/-- Outer loop (over columns i) of the change detection. -/
def diff_loop (cur : List Nat) : List Nat → World × Bool → World × Bool
  | [], s => s
  | i :: rest, s => diff_loop cur rest (diff_row cur i (List.range row_pin.length) s)

/-- The settle step of matrix_scan_fn once the columns are back to neutral and
no key is pressed (the switch on state under the lock).  Returns err. -/
def settle_idle (env : Env) (w : World) : Int × World :=
  match w.state with
  | State.STATE_SCANNING =>
    let r := callback_ctrl env true w.gpio
    (r.1, { w with state := State.STATE_ACTIVE, gpio := r.2 })
  | State.STATE_SUSPENDING =>
    let r := suspend_nolock env { w with state := State.STATE_ACTIVE }
    if r.1 = 0 then (r.1, module_set_state ModuleState.MODULE_STATE_STANDBY r.2)
    else r
  | _ => (0, w)

/-- The tail of matrix_scan_fn after old_state has been overwritten: drive the
columns to their neutral level, then reschedule or settle. -/
def scan_finish (env : Env) (w2 : World) (any_pressed : Bool) : World :=
  if any_pressed then
    let c := set_cols env 0x00 w2.gpio
    if c.1 ≠ 0 then
      module_set_state ModuleState.MODULE_STATE_ERROR { w2 with gpio := c.2 }
    else
      k_delayed_work_submit env.scan_interval { w2 with gpio := c.2 }
  else
    let c := set_cols env 0xFF w2.gpio
    if c.1 ≠ 0 then
      module_set_state ModuleState.MODULE_STATE_ERROR { w2 with gpio := c.2 }
    else
      let r := settle_idle env { w2 with gpio := c.2 }
      if r.1 ≠ 0 then module_set_state ModuleState.MODULE_STATE_ERROR r.2
      else r.2

def matrix_scan_fn (env : Env) (w0 : World) : World :=
  let w := { w0 with scan_entries :=
    w0.scan_entries ++ [ScanEntry.mk w0.state (row_pin.any w0.gpio.cb)] }
  let s := sample env w.gpio
  if s.1 ≠ 0 then
    module_set_state ModuleState.MODULE_STATE_ERROR { w with gpio := s.2.2 }
  else
    let cur_state := s.2.1
    let d := diff_loop cur_state (List.range col_pin.length) ({ w with gpio := s.2.2 }, false)
    scan_finish env { d.1 with old_state := cur_state } d.2

def resume (env : Env) (w : World) : World :=
  if w.state ≠ State.STATE_IDLE then w
  else
    let r := callback_ctrl env false w.gpio
    if r.1 ≠ 0 then
      module_set_state ModuleState.MODULE_STATE_ERROR { w with gpio := r.2 }
    else
      let r2 := set_trig_mode env GpioFlag.GPIO_INT_EDGE r.2
      if r2.1 ≠ 0 then
        module_set_state ModuleState.MODULE_STATE_ERROR { w with gpio := r2.2 }
      else
        module_set_state ModuleState.MODULE_STATE_READY
          (matrix_scan_fn env { w with gpio := r2.2, state := State.STATE_SCANNING })

/-- First loop of button_pressed: errors are logged and ignored. -/
def button_pressed_loop (env : Env) : List Nat → Gpio → Gpio
  | [], g => g
  | i :: rest, g =>
    button_pressed_loop env rest (gpio_pin_disable_callback env g (row_pin.getD i 0)).2

def button_pressed (env : Env) (w : World) : World :=
  let w1 := { w with gpio := button_pressed_loop env (List.range row_pin.length) w.gpio }
  match w1.state with
  | State.STATE_IDLE => EVENT_SUBMIT Event.wake_up_event w1
  | State.STATE_ACTIVE => k_delayed_work_submit 0 { w1 with state := State.STATE_SCANNING }
  | _ => w1

/-- Column configuration loop of init_fn. -/
def init_cols_loop (env : Env) : List Nat → Gpio → Int × Gpio
  | [], g => (0, g)
  | i :: rest, g =>
    let r := gpio_pin_configure env g (col_pin.getD i 0) [GpioFlag.GPIO_DIR_OUT]
    if r.1 ≠ 0 then r else init_cols_loop env rest r.2

/-- Row loop of init_fn: disable each callback and collect pin_mask. -/
def init_rows_loop (env : Env) : List Nat → Gpio → Nat → Int × Nat × Gpio
  | [], g, pin_mask => (0, pin_mask, g)
  | i :: rest, g, pin_mask =>
    let r := gpio_pin_disable_callback env g (row_pin.getD i 0)
    if r.1 ≠ 0 then (r.1, pin_mask, r.2)
    else init_rows_loop env rest r.2 (pin_mask ||| (1 <<< (row_pin.getD i 0)))

def init_fn (env : Env) (w0 : World) : World :=
  let w := { w0 with gpio_dev := env.binding }
  if env.binding = false then w
  else
    let c := init_cols_loop env (List.range col_pin.length) w.gpio
    if c.1 ≠ 0 then
      module_set_state ModuleState.MODULE_STATE_ERROR { w with gpio := c.2 }
    else
      let t := set_trig_mode env GpioFlag.GPIO_INT_EDGE c.2
      if t.1 ≠ 0 then
        module_set_state ModuleState.MODULE_STATE_ERROR { w with gpio := t.2 }
      else
        let d := init_rows_loop env (List.range row_pin.length) t.2 0
        if d.1 ≠ 0 then
          module_set_state ModuleState.MODULE_STATE_ERROR { w with gpio := d.2.2 }
        else
          let a := gpio_add_callback env d.2.2 d.2.1
          if a.1 ≠ 0 then
            module_set_state ModuleState.MODULE_STATE_ERROR { w with gpio := a.2 }
          else
            matrix_scan_fn env
              { module_set_state ModuleState.MODULE_STATE_READY { w with gpio := a.2 } with
                state := State.STATE_SCANNING }

/-- The bus listener.  The Bool is the return value of the handler. -/
def event_handler (env : Env) (w : World) : Incoming → Bool × World
  | Incoming.module_state_event main_ready =>
    if main_ready then
      (false, init_fn env { w with initialized := true, pending := none })
    else (false, w)
  | Incoming.wake_up_event => (false, resume env w)
  | Incoming.power_down_event =>
    let r := suspend env w
    if r.1 = 0 then (false, module_set_state ModuleState.MODULE_STATE_STANDBY r.2)
    else if r.1 = -EALREADY then (false, r.2)
    else if r.1 = -EBUSY then (true, r.2)
    else (true, module_set_state ModuleState.MODULE_STATE_ERROR r.2)
  | Incoming.other => (false, w)

/-! ## Runs of the driver -/

/-- The pin controller after reset. -/
def Gpio.reset : Gpio :=
  { cb := fun _ => false, cfg := fun _ => none, out := fun _ => 0, log := [] }

/-- The world at power-on: zero-initialised statics, nothing submitted. -/
def boot : World :=
  { state := State.STATE_IDLE, old_state := [0, 0, 0, 0], initialized := false,
    gpio_dev := false, gpio := Gpio.reset, pending := none, published := [],
    scan_entries := [] }

/-- The world after the one-shot initialisation. -/
def init_world (env : Env) : World :=
  (event_handler env boot (Incoming.module_state_event true)).2

/-- What can happen to an initialised driver. -/
inductive Input where
  | row_irq
  | scan_work
  | power_down
  | wake_up
  deriving DecidableEq, Repr

/-- One driver step.  A row interrupt needs an enabled row callback; the worker
runs the scan only when it is pending, and takes it off the queue first. -/
def step (env : Env) (w : World) : Input → Option World
  | Input.row_irq => if row_pin.any w.gpio.cb then some (button_pressed env w) else none
  | Input.scan_work =>
    match w.pending with
    | some _ => some (matrix_scan_fn env { w with pending := none })
    | none => none
  | Input.power_down => some (event_handler env w Incoming.power_down_event).2
  | Input.wake_up => some (event_handler env w Incoming.wake_up_event).2

def run (env : Env) : World → List Input → Option World
  | w, [] => some w
  | w, i :: rest =>
    match step env w i with
    | some w1 => run env w1 rest
    | none => none

/-- Every pin controller call succeeds and the device is found. -/
def AllOk (env : Env) : Prop := env.binding = true ∧ ∀ n, env.fault n = 0

/-- Worlds reachable from a successful initialisation. -/
def Reachable (env : Env) (w : World) : Prop :=
  ∃ inputs, run env (init_world env) inputs = some w

/-- The matrix_scan_fn applied n times in a row. -/
def scans (env : Env) (w : World) : Nat → World
  | 0 => w
  | n + 1 => matrix_scan_fn env (scans env w n)

/-! ## Observations and specification-side definitions -/

/-- The button events among a list of publications, as (key_id, pressed). -/
def buttonEvents : List Event → List (Nat × Bool)
  | [] => []
  | Event.button_event k p :: rest => (k, p) :: buttonEvents rest
  | _ :: rest => buttonEvents rest

/-- Bit (c, r) of a snapshot. -/
def snapBit (snap : List Nat) (c r : Nat) : Bool :=
  (snap.getD c 0).testBit r

/-- The events the specification asks of one scan: column-major, row-minor,
one per position whose bit changed, carrying (c<<8)|r and the current bit. -/
def spec_scan_events (prev cur : List Nat) : List (Nat × Bool) :=
  (List.range 4).flatMap fun c =>
    (List.range 4).filterMap fun r =>
      if snapBit cur c r ≠ snapBit prev c r then some ((c <<< 8) ||| r, snapBit cur c r)
      else none

/-- Replaying one button event on a snapshot: set bit (key_id>>8, key_id&0xFF)
on pressed, clear it on released. -/
def replay_event (snap : List Nat) (e : Nat × Bool) : List Nat :=
  let c := e.1 >>> 8
  let r := e.1 &&& 0xFF
  let word := snap.getD c 0
  snap.set c (if e.2 then word ||| (1 <<< r) else word ^^^ (word &&& (1 <<< r)))

/-- Replaying a list of button events, oldest first. -/
def replay (snap : List Nat) (evs : List (Nat × Bool)) : List Nat :=
  evs.foldl replay_event snap

/-- The publications a step added: everything after the first n entries. -/
def published_since (n : Nat) (w : World) : List Event :=
  w.published.drop n

/-- An environment in which everything succeeds and every read sees low. -/
def env_quiet : Env :=
  { fault := fun _ => 0, level := fun _ _ => false, binding := true, scan_interval := 10 }

/-- An environment in which everything succeeds and exactly the read made by
call number n sees a high level (from reset, call 5 is the read of row 1 while
column 0 is driven). -/
def env_key (n : Nat) : Env :=
  { fault := fun _ => 0, level := fun k _ => decide (k = n), binding := true,
    scan_interval := 10 }

/-- An environment in which only call number n fails, with return code e, and
every read sees low. -/
def env_fault (n : Nat) (e : Int) : Env :=
  { fault := fun k => if k = n then e else 0, level := fun _ _ => false, binding := true,
    scan_interval := 10 }

/-- The events the inner change-detection loop submits for column i over the
row indices js, read off the source loop body. -/
def row_events (cur old : List Nat) (i : Nat) (js : List Nat) : List Event :=
  js.filterMap fun j =>
    if decide (cur.getD i 0 &&& (1 <<< j) ≠ 0) ≠ decide (old.getD i 0 &&& (1 <<< j) ≠ 0) then
      some (Event.button_event (((i <<< 8) ||| (j &&& 0xFF)) % 65536)
        (decide (cur.getD i 0 &&& (1 <<< j) ≠ 0)))
    else none

/-- The events the whole change-detection loop submits over columns cs. -/
def diff_events (cur old : List Nat) (cs : List Nat) : List Event :=
  cs.flatMap fun i => row_events cur old i (List.range row_pin.length)

/-- Whether some sampled bit among columns cs, rows 0..3, is set. -/
def any_set (cur : List Nat) (cs : List Nat) : Bool :=
  cs.any fun i => (List.range row_pin.length).any fun j =>
    decide (cur.getD i 0 &&& (1 <<< j) ≠ 0)

/-- The button events that concern key k. -/
def key_events (k : Nat) (evs : List (Nat × Bool)) : List (Nat × Bool) :=
  evs.filter fun e => decide (e.1 = k)

/-- The effect of replaying one event on the word of its column. -/
def replay_word (x : Nat) (e : Nat × Bool) : Nat :=
  if e.2 then x ||| (1 <<< (e.1 &&& 0xFF)) else x ^^^ (x &&& (1 <<< (e.1 &&& 0xFF)))

/-- The events the specification asks for column c when its word goes from p
to q. -/
def col_events (c p q : Nat) : List (Nat × Bool) :=
  (List.range 4).filterMap fun r =>
    if q.testBit r ≠ p.testBit r then some ((c <<< 8) ||| r, q.testBit r) else none

/-- A well-formed 4x4 snapshot: four words, only bits 0..3 used. -/
def WellFormed (snap : List Nat) : Prop :=
  snap.length = 4 ∧ ∀ x ∈ snap, x < 16

/-- The stored snapshot is well formed and is what the published button
events add up to, starting from all released. -/
def SnapshotInv (w : World) : Prop :=
  WellFormed w.old_state ∧ replay [0, 0, 0, 0] (buttonEvents w.published) = w.old_state

/-- Every row pin callback is enabled. -/
def rows_armed (w : World) : Prop := ∀ p ∈ row_pin, w.gpio.cb p = true

/-- Every row pin callback is disabled. -/
def rows_disarmed (w : World) : Prop := ∀ p ∈ row_pin, w.gpio.cb p = false

/-- The configuration set_trig_mode gives a row pin. -/
def row_flags (trig_mode : GpioFlag) : List GpioFlag :=
  [GpioFlag.GPIO_PUD_PULL_DOWN, GpioFlag.GPIO_DIR_IN, GpioFlag.GPIO_INT,
    GpioFlag.GPIO_INT_ACTIVE_HIGH, trig_mode]

/-- Every recorded entry of matrix_scan_fn found the row callbacks disabled and
the state Scanning or Suspending. -/
def EntriesOk (w : World) : Prop :=
  ∀ e ∈ w.scan_entries, e.armed = false ∧
    (e.st = State.STATE_SCANNING ∨ e.st = State.STATE_SUSPENDING)

/-- The invariant of the driver between steps, when every pin controller call
succeeds. -/
def DriverInv (w : World) : Prop :=
  EntriesOk w ∧
  (w.state = State.STATE_ACTIVE → rows_armed w ∧ w.pending = none) ∧
  (w.state = State.STATE_IDLE → w.pending = none ∧
    ((rows_armed w ∧ w.published.getLast? ≠ some Event.wake_up_event) ∨
     (rows_disarmed w ∧ w.published.getLast? = some Event.wake_up_event))) ∧
  (w.state = State.STATE_SCANNING ∨ w.state = State.STATE_SUSPENDING →
    rows_disarmed w ∧ w.pending ≠ none)

/-- The world in the middle of a scan whose sampling succeeded: entry recorded,
columns sampled, change events submitted and old_state overwritten. -/
def scan_commit (env : Env) (w : World) : World :=
  { w with
    scan_entries := w.scan_entries ++ [ScanEntry.mk w.state (row_pin.any w.gpio.cb)]
    gpio := (sample env w.gpio).2.2
    published := w.published ++
      diff_events (sample env w.gpio).2.1 w.old_state (List.range col_pin.length)
    old_state := (sample env w.gpio).2.1 }

/-- The world an initialised driver is in after the given inputs (the reset
world if some input was not possible). -/
def world_after (env : Env) (inputs : List Input) : World :=
  (run env (init_world env) inputs).getD boot

/-- The key identifier the scan stores in a button event for column i, row j
(the expression in the change-detection loop, truncated to the 16 bit field). -/
def key_id (i j : Nat) : Nat :=
  ((i <<< 8) ||| (j &&& 0xFF)) % 65536

/-- An environment in which only call number n fails, with return code e, and
exactly the read made by call number k sees a high level. -/
def env_fault_key (n : Nat) (e : Int) (k : Nat) : Env :=
  { fault := fun i => if i = n then e else 0, level := fun i _ => decide (i = k),
    binding := true, scan_interval := 10 }

/-- An environment in which the device binding is not found. -/
def env_unbound : Env :=
  { fault := fun _ => 0, level := fun _ _ => false, binding := false, scan_interval := 10 }

/-- The world in which resume, called in Idle with its pin controller calls
succeeding, invokes the scan: callbacks disabled, edge mode set, state
Scanning. -/
def resume_pre (env : Env) (w : World) : World :=
  { w with
    gpio := (set_trig_mode env GpioFlag.GPIO_INT_EDGE (callback_ctrl env false w.gpio).2).2
    state := State.STATE_SCANNING }

/-- The world init_fn hands to the first scan when the device is found and
every configuration call succeeds: columns configured as outputs, rows
configured edge-triggered with their callbacks disabled, the shared callback
registered, READY published and the state set to Scanning. -/
def init_pre (env : Env) : World :=
  { boot with
    initialized := true
    gpio_dev := true
    gpio := (gpio_add_callback env
      (init_rows_loop env (List.range row_pin.length)
        (set_trig_mode env GpioFlag.GPIO_INT_EDGE
          (init_cols_loop env (List.range col_pin.length) boot.gpio).2).2 0).2.2
      (init_rows_loop env (List.range row_pin.length)
        (set_trig_mode env GpioFlag.GPIO_INT_EDGE
          (init_cols_loop env (List.range col_pin.length) boot.gpio).2).2 0).2.1).2
    published := [Event.module_state_event ModuleState.MODULE_STATE_READY]
    state := State.STATE_SCANNING }

/-- The calls number a up to b (excluded) to the pin controller all succeed. -/
def CallsOk (env : Env) (a b : Nat) : Prop :=
  ∀ n, a ≤ n → n < b → env.fault n = 0

/-- A driver that scans but can no longer be woken: Scanning or Suspending,
every row callback disabled and no scan pending. -/
def Wedged (w : World) : Prop :=
  (w.state = State.STATE_SCANNING ∨ w.state = State.STATE_SUSPENDING) ∧
  rows_disarmed w ∧ w.pending = none

/-- A list of publications in which ERROR occurs exactly once and no button
event comes after it. -/
def ErrorOnce (evs : List Event) : Prop :=
  ∃ pre post,
    evs = pre ++ Event.module_state_event ModuleState.MODULE_STATE_ERROR :: post ∧
    pre.count (Event.module_state_event ModuleState.MODULE_STATE_ERROR) = 0 ∧
    post.count (Event.module_state_event ModuleState.MODULE_STATE_ERROR) = 0 ∧
    buttonEvents post = []

/-- One of the calls number a up to b (excluded) to the pin controller fails. -/
def CallFailed (env : Env) (a b : Nat) : Prop :=
  ∃ n, a ≤ n ∧ n < b ∧ env.fault n ≠ 0

/-- What one driver operation taking w to w2 may do: the call log only grows,
the bus only grows, and either the new publications contain ERROR exactly once
with no button event after it, or they contain no ERROR and every call the
operation made succeeded. -/
def OpOutcome (env : Env) (w w2 : World) : Prop :=
  w.gpio.log.length ≤ w2.gpio.log.length ∧
  ∃ new, w2.published = w.published ++ new ∧
    (ErrorOnce new ∨
      (new.count (Event.module_state_event ModuleState.MODULE_STATE_ERROR) = 0 ∧
        CallsOk env w.gpio.log.length w2.gpio.log.length))

/-- An environment in which every call from number n on fails with return code
e, and every read sees low. -/
def env_fault_from (n : Nat) (e : Int) : Env :=
  { fault := fun i => if n ≤ i then e else 0, level := fun _ _ => false, binding := true,
    scan_interval := 10 }

/-- The calls set_cols makes when every write succeeds: one write per column
pin, in the order of col_pin, with the bit of mask at the column index. -/
def col_writes (mask : Nat) : List GpioCall :=
  (List.range col_pin.length).map fun k =>
    GpioCall.pin_write (col_pin.getD k 0) (if mask &&& (1 <<< k) ≠ 0 then 1 else 0)

/-- The calls get_rows makes when every read succeeds. -/
def row_reads : List GpioCall :=
  (List.range col_pin.length).map fun k => GpioCall.pin_read (row_pin.getD k 0)

/-- History observation along a run that starts in world w: whether a row
interrupt has been taken in Idle since the state last became Idle.  The flag b
is the value at w; a step that ends outside Idle, or that enters Idle from
another state, clears it, and a row interrupt taken in Idle sets it. -/
def irq_since_idle (env : Env) : World → Bool → List Input → Bool
  | _, b, [] => b
  | w, b, i :: rest =>
    match step env w i with
    | some w1 =>
      irq_since_idle env w1
        (decide (w.state = State.STATE_IDLE) && decide (w1.state = State.STATE_IDLE) &&
          (b || decide (i = Input.row_irq))) rest
    | none => b

/-! ## Basic facts -/

theorem land_one_shiftLeft_ne_zero (x j : Nat) :
    decide (x &&& (1 <<< j) ≠ 0) = x.testBit j := by
  rw [Nat.one_shiftLeft, Nat.and_two_pow]
  cases h : x.testBit j <;> simp

theorem buttonEvents_append (a b : List Event) :
    buttonEvents (a ++ b) = buttonEvents a ++ buttonEvents b := by
  induction a with
  | nil => rfl
  | cons e rest ih =>
    cases e <;> simp [buttonEvents, ih]

theorem diff_row_eq (cur : List Nat) (i : Nat) (js : List Nat) (s : World × Bool) :
    diff_row cur i js s =
      ({ s.1 with published := s.1.published ++ row_events cur s.1.old_state i js },
        s.2 || js.any fun j => decide (cur.getD i 0 &&& (1 <<< j) ≠ 0)) := by
  induction js generalizing s with
  | nil => simp [diff_row, row_events]
  | cons j rest ih =>
    rw [diff_row, ih]
    by_cases h : decide (cur.getD i 0 &&& (1 <<< j) ≠ 0)
        ≠ decide (s.1.old_state.getD i 0 &&& (1 <<< j) ≠ 0)
    · simp only [row_events, List.filterMap_cons, List.any_cons, if_pos h, EVENT_SUBMIT,
        List.append_assoc, List.singleton_append, Bool.or_assoc]
    · simp only [row_events, List.filterMap_cons, List.any_cons, if_neg h, Bool.or_assoc]

theorem diff_loop_eq (cur : List Nat) (cs : List Nat) (s : World × Bool) :
    diff_loop cur cs s =
      ({ s.1 with published := s.1.published ++ diff_events cur s.1.old_state cs },
        s.2 || any_set cur cs) := by
  induction cs generalizing s with
  | nil => simp [diff_loop, diff_events, any_set]
  | cons i rest ih =>
    rw [diff_loop, ih, diff_row_eq]
    simp [diff_events, any_set, List.flatMap_cons, List.append_assoc, Bool.or_assoc]

theorem suspend_nolock_frame (env : Env) (w : World) :
    (suspend_nolock env w).2.published = w.published ∧
    (suspend_nolock env w).2.old_state = w.old_state ∧
    (suspend_nolock env w).2.pending = w.pending ∧
    (suspend_nolock env w).2.scan_entries = w.scan_entries := by
  unfold suspend_nolock
  cases w.state <;> simp
  split <;> simp

/-- What the settle step may add to the bus: nothing or one STANDBY. -/
theorem settle_idle_published (env : Env) (w : World) :
    ((settle_idle env w).2.published = w.published ∨
      ((settle_idle env w).1 = 0 ∧ (settle_idle env w).2.published =
        w.published ++ [Event.module_state_event ModuleState.MODULE_STATE_STANDBY])) ∧
    (settle_idle env w).2.old_state = w.old_state := by
  unfold settle_idle
  cases h : w.state
  · simp
  · simp
  · simp
  · simp only []
    have hf := suspend_nolock_frame env { w with state := State.STATE_ACTIVE }
    split
    · rename_i h0
      simp [module_set_state, EVENT_SUBMIT, hf.1, hf.2.1, h0]
    · simp [hf.1, hf.2.1]

theorem scan_finish_published (env : Env) (w : World) (b : Bool) :
    (scan_finish env w b).old_state = w.old_state ∧
    ∃ tail, (scan_finish env w b).published = w.published ++ tail ∧
      (tail = [] ∨ tail = [Event.module_state_event ModuleState.MODULE_STATE_STANDBY] ∨
        tail = [Event.module_state_event ModuleState.MODULE_STATE_ERROR]) := by
  unfold scan_finish
  dsimp only
  split
  · split
    · exact ⟨rfl, _, rfl, Or.inr (Or.inr rfl)⟩
    · exact ⟨rfl, [], by simp [k_delayed_work_submit], Or.inl rfl⟩
  · split
    · exact ⟨rfl, _, rfl, Or.inr (Or.inr rfl)⟩
    · have hs := settle_idle_published env { w with gpio := (set_cols env 0xFF w.gpio).2 }
      split
      · rename_i hne
        refine ⟨by simp [module_set_state, EVENT_SUBMIT, hs.2], ?_⟩
        rcases hs.1 with h1 | ⟨h0, _⟩
        · exact ⟨_, by simp [module_set_state, EVENT_SUBMIT, h1], Or.inr (Or.inr rfl)⟩
        · exact absurd h0 hne
      · refine ⟨by simp [hs.2], ?_⟩
        rcases hs.1 with h1 | ⟨_, h1⟩
        · exact ⟨[], by simp [h1], Or.inl rfl⟩
        · exact ⟨_, by rw [h1], Or.inr (Or.inl rfl)⟩

/-- Shape of the publications of one scan whose sampling succeeded: the change
events, then at most one status. -/
theorem matrix_scan_fn_ok (env : Env) (w : World) (h : (sample env w.gpio).1 = 0) :
    (matrix_scan_fn env w).old_state = (sample env w.gpio).2.1 ∧
    ∃ tail, (matrix_scan_fn env w).published =
        w.published ++ diff_events (sample env w.gpio).2.1 w.old_state (List.range col_pin.length)
          ++ tail ∧
      (tail = [] ∨ tail = [Event.module_state_event ModuleState.MODULE_STATE_STANDBY] ∨
        tail = [Event.module_state_event ModuleState.MODULE_STATE_ERROR]) := by
  unfold matrix_scan_fn
  simp only [h, ne_eq, not_true_eq_false, if_false, diff_loop_eq, Bool.false_or]
  exact scan_finish_published env _ _

/-- A scan whose sampling failed publishes ERROR and keeps old_state. -/
theorem matrix_scan_fn_fail (env : Env) (w : World) (h : (sample env w.gpio).1 ≠ 0) :
    (matrix_scan_fn env w).old_state = w.old_state ∧
    (matrix_scan_fn env w).published =
      w.published ++ [Event.module_state_event ModuleState.MODULE_STATE_ERROR] := by
  unfold matrix_scan_fn
  simp [h, module_set_state, EVENT_SUBMIT]

theorem buttonEvents_row_events (cur old : List Nat) (i : Nat) (js : List Nat) :
    buttonEvents (row_events cur old i js) =
      js.filterMap fun j =>
        if snapBit cur i j ≠ snapBit old i j then
          some (((i <<< 8) ||| (j &&& 0xFF)) % 65536, snapBit cur i j)
        else none := by
  induction js with
  | nil => rfl
  | cons j rest ih =>
    simp only [row_events, List.filterMap_cons, land_one_shiftLeft_ne_zero, snapBit] at ih ⊢
    by_cases h : (cur.getD i 0).testBit j ≠ (old.getD i 0).testBit j
    · simp only [if_pos h, buttonEvents, ih]
    · simp only [if_neg h, ih]

theorem buttonEvents_flatMap (f : Nat → List Event) (cs : List Nat) :
    buttonEvents (cs.flatMap f) = cs.flatMap fun c => buttonEvents (f c) := by
  induction cs with
  | nil => rfl
  | cons c rest ih => simp only [List.flatMap_cons, buttonEvents_append, ih]

theorem key_id_small : ∀ i < 4, ∀ j < 4, ((i <<< 8) ||| (j &&& 0xFF)) % 65536 = (i <<< 8) ||| j := by
  decide

/-- The change events of the source loops are the events the specification
lists. -/
theorem diff_events_spec (cur old : List Nat) :
    buttonEvents (diff_events cur old (List.range col_pin.length)) = spec_scan_events old cur := by
  unfold diff_events spec_scan_events
  rw [buttonEvents_flatMap]
  show (List.range 4).flatMap _ = _
  apply List.flatMap_congr
  intro c hc
  rw [buttonEvents_row_events]
  show (List.range 4).filterMap _ = _
  apply List.filterMap_congr
  intro r hr
  rw [key_id_small c (List.mem_range.mp hc) r (List.mem_range.mp hr)]

theorem buttonEvents_tail (tail : List Event)
    (h : tail = [] ∨ tail = [Event.module_state_event ModuleState.MODULE_STATE_STANDBY] ∨
      tail = [Event.module_state_event ModuleState.MODULE_STATE_ERROR]) :
    buttonEvents tail = [] := by
  rcases h with h | h | h <;> subst h <;> rfl

/-- The button events one scan adds to the bus, for any scan whose sampling
succeeded. -/
theorem scan_button_events (env : Env) (w : World) (h : (sample env w.gpio).1 = 0) :
    (matrix_scan_fn env w).published.take w.published.length = w.published ∧
    buttonEvents (published_since w.published.length (matrix_scan_fn env w)) =
      spec_scan_events w.old_state (sample env w.gpio).2.1 := by
  obtain ⟨_, tail, hp, ht⟩ := matrix_scan_fn_ok env w h
  unfold published_since
  rw [hp, List.append_assoc]
  constructor
  · simp
  · simp [buttonEvents_append, diff_events_spec, buttonEvents_tail tail ht]

/-! ## Events of one key -/

theorem filterMap_single {α : Type} (g : Nat → Option α) (r : Nat) :
    ∀ l : List Nat, l.Nodup → r ∈ l → (∀ x ∈ l, x ≠ r → g x = none) →
      l.filterMap g = (g r).toList
  | [], _, hr, _ => by cases hr
  | a :: t, hn, hr, h => by
    have hn2 := List.nodup_cons.mp hn
    by_cases har : a = r
    · subst har
      have ht : t.filterMap g = [] := by
        rw [List.filterMap_eq_nil_iff]
        intro x hx
        exact h x (List.mem_cons_of_mem _ hx) (fun hxa => hn2.1 (hxa ▸ hx))
      rw [List.filterMap_cons, ht]
      cases g a <;> rfl
    · have hrt : r ∈ t := by
        rcases List.mem_cons.mp hr with h1 | h1
        · exact absurd h1.symm har
        · exact h1
      rw [List.filterMap_cons, h a (List.mem_cons_self _ _) har]
      exact filterMap_single g r t hn2.2 hrt (fun x hx => h x (List.mem_cons_of_mem _ hx))

theorem flatMap_single {α : Type} (g : Nat → List α) (c : Nat) :
    ∀ l : List Nat, l.Nodup → c ∈ l → (∀ x ∈ l, x ≠ c → g x = []) → l.flatMap g = g c
  | [], _, hc, _ => by cases hc
  | a :: t, hn, hc, h => by
    have hn2 := List.nodup_cons.mp hn
    by_cases hac : a = c
    · subst hac
      have ht : t.flatMap g = [] := by
        rw [List.flatMap_eq_nil_iff]
        intro x hx
        exact h x (List.mem_cons_of_mem _ hx) (fun hxa => hn2.1 (hxa ▸ hx))
      rw [List.flatMap_cons, ht, List.append_nil]
    · have hct : c ∈ t := by
        rcases List.mem_cons.mp hc with h1 | h1
        · exact absurd h1.symm hac
        · exact h1
      rw [List.flatMap_cons, h a (List.mem_cons_self _ _) hac, List.nil_append]
      exact flatMap_single g c t hn2.2 hct (fun x hx => h x (List.mem_cons_of_mem _ hx))

theorem key_id_decode : ∀ c < 4, ∀ r < 4,
    ((c <<< 8) ||| r) >>> 8 = c ∧ ((c <<< 8) ||| r) &&& 0xFF = r := by
  decide

theorem key_id_inj (c : Nat) (hc : c < 4) (r : Nat) (hr : r < 4) (c2 : Nat) (hc2 : c2 < 4)
    (r2 : Nat) (hr2 : r2 < 4) (h : (c2 <<< 8) ||| r2 = (c <<< 8) ||| r) : c2 = c ∧ r2 = r := by
  have h1 := key_id_decode c hc r hr
  have h2 := key_id_decode c2 hc2 r2 hr2
  rw [h] at h2
  exact ⟨h2.1.symm.trans h1.1, h2.2.symm.trans h1.2⟩

/-- Among the events of one scan, key (c, r) has one event when its bit
changed and none otherwise. -/
theorem key_events_spec (prev cur : List Nat) (c r : Nat) (hc : c < 4) (hr : r < 4) :
    key_events ((c <<< 8) ||| r) (spec_scan_events prev cur) =
      if snapBit cur c r ≠ snapBit prev c r then [((c <<< 8) ||| r, snapBit cur c r)] else [] := by
  unfold key_events spec_scan_events
  rw [List.filter_flatMap, flatMap_single _ c (List.range 4) (List.nodup_range 4)
    (List.mem_range.mpr hc), List.filter_filterMap,
    filterMap_single _ r (List.range 4) (List.nodup_range 4) (List.mem_range.mpr hr)]
  · by_cases h : snapBit cur c r ≠ snapBit prev c r
    · simp [if_pos h, Option.filter]
    · simp [if_neg h, Option.filter]
  · intro x hx hxr
    by_cases h : snapBit cur c x ≠ snapBit prev c x
    · have hk : ¬ ((c <<< 8) ||| x = (c <<< 8) ||| r) := fun hk =>
        hxr (key_id_inj c hc r hr c hc x (List.mem_range.mp hx) hk).2
      simp [if_pos h, Option.filter, hk]
    · simp [if_neg h, Option.filter]
  · intro x hx hxc
    rw [List.filter_filterMap, List.filterMap_eq_nil_iff]
    intro y hy
    by_cases h : snapBit cur x y ≠ snapBit prev x y
    · have hk : ¬ ((x <<< 8) ||| y = (c <<< 8) ||| r) := fun hk =>
        hxc (key_id_inj c hc r hr x (List.mem_range.mp hx) y (List.mem_range.mp hy) hk).1
      simp [if_pos h, Option.filter, hk]
    · simp [if_neg h, Option.filter]

theorem spec_scan_events_self (snap : List Nat) : spec_scan_events snap snap = [] := by
  simp [spec_scan_events]

/-! ## Sequences of scans -/

theorem published_since_of_append (w : World) (l x : List Event) (h : w.published = l ++ x) :
    published_since l.length w = x := by
  simp [published_since, h]

theorem scan_published_split (env : Env) (w : World) :
    (matrix_scan_fn env w).published =
      w.published ++ published_since w.published.length (matrix_scan_fn env w) := by
  by_cases h : (sample env w.gpio).1 = 0
  · obtain ⟨_, tail, hp, _⟩ := matrix_scan_fn_ok env w h
    rw [List.append_assoc] at hp
    rw [published_since_of_append _ _ _ hp, hp]
  · have hp := (matrix_scan_fn_fail env w h).2
    rw [published_since_of_append _ _ _ hp, hp]

theorem scans_published_split (env : Env) (w : World) (n : Nat) :
    (scans env w n).published =
      w.published ++ published_since w.published.length (scans env w n) := by
  induction n with
  | zero => simp [scans, published_since]
  | succ n ih =>
    have h1 := scan_published_split env (scans env w n)
    have h2 : (scans env w (n + 1)).published = w.published ++
        (published_since w.published.length (scans env w n) ++
          published_since (scans env w n).published.length (scans env w (n + 1))) := by
      rw [← List.append_assoc, ← ih]
      exact h1
    rw [published_since_of_append _ _ _ h2, h2]

theorem scans_since_succ (env : Env) (w : World) (n : Nat) :
    published_since w.published.length (scans env w (n + 1)) =
      published_since w.published.length (scans env w n) ++
        published_since (scans env w n).published.length (scans env w (n + 1)) := by
  have h1 : (scans env w (n + 1)).published =
      (scans env w n).published ++
        published_since (scans env w n).published.length (scans env w (n + 1)) :=
    scan_published_split env (scans env w n)
  rw [scans_published_split env w n, List.append_assoc] at h1
  have h3 := published_since_of_append _ _ _ h1
  rw [h3]
  congr 1
  rw [← scans_published_split env w n]

theorem scans_add (env : Env) (w : World) (p q : Nat) :
    scans env w (p + q) = scans env (scans env w p) q := by
  induction q with
  | zero => rfl
  | succ q ih =>
    show matrix_scan_fn env (scans env w (p + q)) = matrix_scan_fn env (scans env (scans env w p) q)
    rw [ih]

theorem key_events_append (k : Nat) (a b : List (Nat × Bool)) :
    key_events k (a ++ b) = key_events k a ++ key_events k b := by
  simp [key_events]

/-- A run of n scans that all sample the same level b for key (c, r): the key
gets one event if b differs from the stored bit, at most. -/
theorem key_events_uniform (env : Env) (w : World) (c r : Nat) (hc : c < 4) (hr : r < 4)
    (b : Bool) (n : Nat)
    (h : ∀ k < n, (sample env (scans env w k).gpio).1 = 0 ∧
      snapBit (sample env (scans env w k).gpio).2.1 c r = b) :
    key_events ((c <<< 8) ||| r)
        (buttonEvents (published_since w.published.length (scans env w n))) =
      (if 0 < n ∧ b ≠ snapBit w.old_state c r then [((c <<< 8) ||| r, b)] else []) ∧
    (0 < n → snapBit (scans env w n).old_state c r = b) := by
  induction n with
  | zero => simp [scans, published_since, buttonEvents, key_events]
  | succ n ih =>
    have ihn := ih (fun k hk => h k (Nat.lt_succ_of_lt hk))
    have hn := h n (Nat.lt_succ_self n)
    have hscan := scan_button_events env (scans env w n) hn.1
    have hold := (matrix_scan_fn_ok env (scans env w n) hn.1).1
    refine ⟨?_, fun _ => ?_⟩
    · rw [scans_since_succ, buttonEvents_append, key_events_append, ihn.1]
      show _ ++ key_events _ (buttonEvents (published_since _ (matrix_scan_fn env (scans env w n)))) = _
      rw [hscan.2, key_events_spec _ _ c r hc hr, hn.2]
      rcases Nat.eq_zero_or_pos n with h0 | hpos
      · subst h0
        simp [scans]
      · have hb := ihn.2 hpos
        simp [hb, hpos]
    · show snapBit (matrix_scan_fn env (scans env w n)).old_state c r = b
      rw [hold, hn.2]

/-! ## Replaying events on a snapshot -/

theorem col_events_fold : ∀ c < 4, ∀ p < 16, ∀ q < 16,
    (col_events c p q).foldl replay_word p = q := by
  decide

theorem col_events_column (c p q : Nat) (hc : c < 4) :
    ∀ e ∈ col_events c p q, e.1 >>> 8 = c := by
  intro e he
  unfold col_events at he
  rw [List.mem_filterMap] at he
  obtain ⟨r, hr, hre⟩ := he
  split at hre
  · cases hre
    exact (key_id_decode c hc r (List.mem_range.mp hr)).1
  · cases hre

theorem replay_column (c : Nat) (hc : c < 4) (evs : List (Nat × Bool)) :
    ∀ a0 a1 a2 a3 : Nat, (∀ e ∈ evs, e.1 >>> 8 = c) →
      replay [a0, a1, a2, a3] evs =
        [a0, a1, a2, a3].set c (evs.foldl replay_word ([a0, a1, a2, a3].getD c 0)) := by
  induction evs with
  | nil =>
    intro a0 a1 a2 a3 _
    interval_cases c <;> rfl
  | cons e t ih =>
    intro a0 a1 a2 a3 h
    have he : e.1 >>> 8 = c := h e (List.mem_cons_self _ _)
    have ht : ∀ x ∈ t, x.1 >>> 8 = c := fun x hx => h x (List.mem_cons_of_mem _ hx)
    have hstep : replay [a0, a1, a2, a3] (e :: t) =
        replay ([a0, a1, a2, a3].set c (replay_word ([a0, a1, a2, a3].getD c 0) e)) t := by
      simp only [replay, List.foldl_cons, replay_event, he, replay_word]
    rw [hstep]
    interval_cases c
    · exact ih _ _ _ _ ht
    · exact ih _ _ _ _ ht
    · exact ih _ _ _ _ ht
    · exact ih _ _ _ _ ht

theorem spec_scan_events_cols (p0 p1 p2 p3 q0 q1 q2 q3 : Nat) :
    spec_scan_events [p0, p1, p2, p3] [q0, q1, q2, q3] =
      col_events 0 p0 q0 ++ (col_events 1 p1 q1 ++ (col_events 2 p2 q2 ++ col_events 3 p3 q3)) := by
  have h4 : List.range 4 = [0, 1, 2, 3] := rfl
  unfold spec_scan_events
  rw [h4]
  simp only [List.flatMap_cons, List.flatMap_nil, List.append_nil]
  rfl

theorem wellFormed_cases (snap : List Nat) (h : WellFormed snap) :
    ∃ a0 a1 a2 a3, snap = [a0, a1, a2, a3] ∧ a0 < 16 ∧ a1 < 16 ∧ a2 < 16 ∧ a3 < 16 := by
  obtain ⟨hl, hb⟩ := h
  match snap, hl, hb with
  | [a0, a1, a2, a3], _, hb =>
    exact ⟨a0, a1, a2, a3, rfl, hb a0 (by simp), hb a1 (by simp), hb a2 (by simp),
      hb a3 (by simp)⟩

/-- Replaying the events of one scan on the previous snapshot gives the
sampled one. -/
theorem replay_spec_scan_events (prev cur : List Nat) (hp : WellFormed prev)
    (hq : WellFormed cur) : replay prev (spec_scan_events prev cur) = cur := by
  obtain ⟨p0, p1, p2, p3, rfl, hp0, hp1, hp2, hp3⟩ := wellFormed_cases prev hp
  obtain ⟨q0, q1, q2, q3, rfl, hq0, hq1, hq2, hq3⟩ := wellFormed_cases cur hq
  rw [spec_scan_events_cols]
  simp only [replay, List.foldl_append]
  have e0 := replay_column 0 (by decide) (col_events 0 p0 q0) p0 p1 p2 p3
    (col_events_column 0 p0 q0 (by decide))
  have e1 := replay_column 1 (by decide) (col_events 1 p1 q1) q0 p1 p2 p3
    (col_events_column 1 p1 q1 (by decide))
  have e2 := replay_column 2 (by decide) (col_events 2 p2 q2) q0 q1 p2 p3
    (col_events_column 2 p2 q2 (by decide))
  have e3 := replay_column 3 (by decide) (col_events 3 p3 q3) q0 q1 q2 p3
    (col_events_column 3 p3 q3 (by decide))
  simp only [replay] at e0 e1 e2 e3
  rw [e0]
  simp only [List.getD_cons_zero, List.set_cons_zero,
    col_events_fold 0 (by decide) p0 hp0 q0 hq0]
  rw [e1]
  simp only [List.getD_cons_succ, List.getD_cons_zero, List.set_cons_succ, List.set_cons_zero,
    col_events_fold 1 (by decide) p1 hp1 q1 hq1]
  rw [e2]
  simp only [List.getD_cons_succ, List.getD_cons_zero, List.set_cons_succ, List.set_cons_zero,
    col_events_fold 2 (by decide) p2 hp2 q2 hq2]
  rw [e3]
  simp only [List.getD_cons_succ, List.getD_cons_zero, List.set_cons_succ, List.set_cons_zero,
    col_events_fold 3 (by decide) p3 hp3 q3 hq3]

/-! ## The stored snapshot follows the published events -/

theorem gpio_pin_read_val_le (env : Env) (g : Gpio) (pin : Nat) :
    (gpio_pin_read env g pin).2.1 ≤ 1 := by
  unfold gpio_pin_read
  dsimp only
  split
  · show (if env.level g.log.length pin = true then 1 else 0) ≤ 1
    split <;> simp
  · simp

theorem get_rows_loop_lt (env : Env) (is : List Nat) :
    ∀ (g : Gpio) (mask : Nat), mask < 16 → (∀ i ∈ is, i < 4) →
      (get_rows_loop env is g mask).2.1 < 16 := by
  induction is with
  | nil => intro g mask hm _; exact hm
  | cons i rest ih =>
    intro g mask hm hi
    unfold get_rows_loop
    dsimp only
    split
    · exact hm
    · apply ih
      · have hv := gpio_pin_read_val_le env g (row_pin.getD i 0)
        have hi4 : i < 4 := hi i (List.mem_cons_self _ _)
        have hs : (gpio_pin_read env g (row_pin.getD i 0)).2.1 <<< i < 2 ^ 4 := by
          rw [Nat.shiftLeft_eq]
          interval_cases i <;> omega
        exact Nat.or_lt_two_pow (n := 4) hm hs
      · exact fun x hx => hi x (List.mem_cons_of_mem _ hx)

theorem wellFormed_set (snap : List Nat) (i m : Nat) (h : WellFormed snap) (hm : m < 16) :
    WellFormed (snap.set i m) := by
  refine ⟨by rw [List.length_set]; exact h.1, fun x hx => ?_⟩
  rcases List.mem_or_eq_of_mem_set hx with h1 | h1
  · exact h.2 x h1
  · rw [h1]; exact hm

theorem wellFormed_getD (snap : List Nat) (i : Nat) (h : WellFormed snap) :
    snap.getD i 0 < 16 := by
  rw [List.getD_eq_getElem?_getD]
  cases hi : snap[i]? with
  | none => simp
  | some x =>
    have hx : x ∈ snap := List.getElem?_mem hi
    simpa using h.2 x hx

theorem sample_loop_wellFormed (env : Env) (is : List Nat) :
    ∀ (g : Gpio) (cur : List Nat), WellFormed cur → (∀ i ∈ is, i < 4) →
      WellFormed (sample_loop env is g cur).2.1 := by
  induction is with
  | nil => intro g cur hc _; exact hc
  | cons i rest ih =>
    intro g cur hc hi
    have hm : (get_rows env (set_cols env (1 <<< i) g).2 (cur.getD i 0)).2.1 < 16 :=
      get_rows_loop_lt env _ _ _ (wellFormed_getD cur i hc)
        (fun x hx => List.mem_range.mp hx)
    unfold sample_loop
    dsimp only
    split
    · split
      · exact wellFormed_set cur i _ hc hm
      · exact ih _ _ (wellFormed_set cur i _ hc hm)
          (fun x hx => hi x (List.mem_cons_of_mem _ hx))
    · exact hc

theorem sample_wellFormed (env : Env) (g : Gpio) : WellFormed (sample env g).2.1 := by
  unfold sample
  apply sample_loop_wellFormed
  · exact ⟨rfl, by decide⟩
  · exact fun x hx => List.mem_range.mp hx

theorem snapshotInv_of_same (w w2 : World) (ho : w2.old_state = w.old_state)
    (hp : buttonEvents w2.published = buttonEvents w.published) (h : SnapshotInv w) :
    SnapshotInv w2 := by
  unfold SnapshotInv at *
  rw [ho, hp]
  exact h

theorem snapshotInv_module_set_state (s : ModuleState) (w : World) (h : SnapshotInv w) :
    SnapshotInv (module_set_state s w) :=
  snapshotInv_of_same w _ rfl (by simp [module_set_state, EVENT_SUBMIT, buttonEvents_append,
    buttonEvents]) h

theorem matrix_scan_fn_snapshotInv (env : Env) (w : World) (h : SnapshotInv w) :
    SnapshotInv (matrix_scan_fn env w) := by
  by_cases hs : (sample env w.gpio).1 = 0
  · obtain ⟨ho, tail, hp, ht⟩ := matrix_scan_fn_ok env w hs
    have hwf := sample_wellFormed env w.gpio
    refine ⟨by rw [ho]; exact hwf, ?_⟩
    rw [ho, hp, buttonEvents_append, buttonEvents_append, diff_events_spec,
      buttonEvents_tail tail ht, List.append_nil]
    unfold replay
    rw [List.foldl_append]
    have h2 := h.2
    unfold replay at h2
    rw [h2]
    exact replay_spec_scan_events _ _ h.1 hwf
  · obtain ⟨ho, hp⟩ := matrix_scan_fn_fail env w hs
    exact snapshotInv_of_same w _ ho (by rw [hp]; simp [buttonEvents_append, buttonEvents]) h

theorem resume_snapshotInv (env : Env) (w : World) (h : SnapshotInv w) :
    SnapshotInv (resume env w) := by
  unfold resume
  dsimp only
  split
  · exact h
  · split
    · exact snapshotInv_module_set_state _ _ h
    · split
      · exact snapshotInv_module_set_state _ _ h
      · exact snapshotInv_module_set_state _ _ (matrix_scan_fn_snapshotInv env _ h)

theorem button_pressed_snapshotInv (env : Env) (w : World) (h : SnapshotInv w) :
    SnapshotInv (button_pressed env w) := by
  unfold button_pressed
  dsimp only
  split
  · exact snapshotInv_of_same w _ rfl
      (by simp [EVENT_SUBMIT, buttonEvents_append, buttonEvents]) h
  · exact h
  · exact h

theorem power_down_snapshotInv (env : Env) (w : World) (h : SnapshotInv w) :
    SnapshotInv (event_handler env w Incoming.power_down_event).2 := by
  have hf := suspend_nolock_frame env w
  have hs : SnapshotInv (suspend env w).2 :=
    snapshotInv_of_same w _ hf.2.1 (by rw [suspend, hf.1]) h
  unfold event_handler
  dsimp only
  split
  · exact snapshotInv_module_set_state _ _ hs
  · split
    · exact hs
    · split
      · exact hs
      · exact snapshotInv_module_set_state _ _ hs

theorem init_fn_snapshotInv (env : Env) (w : World) (h : SnapshotInv w) :
    SnapshotInv (init_fn env w) := by
  unfold init_fn
  dsimp only
  split
  · exact h
  · split
    · exact snapshotInv_module_set_state _ _ h
    · split
      · exact snapshotInv_module_set_state _ _ h
      · split
        · exact snapshotInv_module_set_state _ _ h
        · split
          · exact snapshotInv_module_set_state _ _ h
          · apply matrix_scan_fn_snapshotInv
            exact snapshotInv_of_same w _ rfl
              (by simp [module_set_state, EVENT_SUBMIT, buttonEvents_append, buttonEvents]) h

theorem init_world_snapshotInv (env : Env) : SnapshotInv (init_world env) := by
  unfold init_world event_handler
  apply init_fn_snapshotInv
  exact ⟨⟨rfl, by decide⟩, rfl⟩

theorem step_snapshotInv (env : Env) (w w2 : World) (i : Input) (hs : step env w i = some w2)
    (h : SnapshotInv w) : SnapshotInv w2 := by
  cases i with
  | row_irq =>
    simp only [step] at hs
    split at hs
    · cases hs; exact button_pressed_snapshotInv env w h
    · cases hs
  | scan_work =>
    simp only [step] at hs
    split at hs
    · cases hs; exact matrix_scan_fn_snapshotInv env _ h
    · cases hs
  | power_down =>
    simp only [step] at hs
    cases hs; exact power_down_snapshotInv env w h
  | wake_up =>
    simp only [step] at hs
    cases hs; exact resume_snapshotInv env w h

theorem run_snapshotInv (env : Env) (inputs : List Input) :
    ∀ w w2, run env w inputs = some w2 → SnapshotInv w → SnapshotInv w2 := by
  induction inputs with
  | nil => intro w w2 hr h; cases hr; exact h
  | cons i rest ih =>
    intro w w2 hr h
    unfold run at hr
    split at hr
    · rename_i w1 hs
      exact ih w1 w2 hr (step_snapshotInv env w w1 i hs h)
    · cases hr

/-! ## The pin controller layer when every call succeeds -/

theorem range_four : List.range 4 = [0, 1, 2, 3] := rfl

theorem set_cols_loop_ok (env : Env) (hok : ∀ n, env.fault n = 0) (mask : Nat) (is : List Nat) :
    ∀ g : Gpio, (set_cols_loop env mask is g).1 = 0 ∧
      (set_cols_loop env mask is g).2.cb = g.cb ∧
      (set_cols_loop env mask is g).2.cfg = g.cfg := by
  induction is with
  | nil => intro g; exact ⟨rfl, rfl, rfl⟩
  | cons i rest ih =>
    intro g
    simp only [set_cols_loop, gpio_pin_write, hok, if_true, ne_eq, not_true_eq_false, if_false]
    exact ih _

theorem set_cols_ok (env : Env) (hok : ∀ n, env.fault n = 0) (mask : Nat) (g : Gpio) :
    (set_cols env mask g).1 = 0 ∧ (set_cols env mask g).2.cb = g.cb ∧
      (set_cols env mask g).2.cfg = g.cfg :=
  set_cols_loop_ok env hok mask _ g

theorem get_rows_loop_ok (env : Env) (hok : ∀ n, env.fault n = 0) (is : List Nat) :
    ∀ (g : Gpio) (mask : Nat), (get_rows_loop env is g mask).1 = 0 ∧
      (get_rows_loop env is g mask).2.2.cb = g.cb ∧
      (get_rows_loop env is g mask).2.2.cfg = g.cfg := by
  induction is with
  | nil => intro g mask; exact ⟨rfl, rfl, rfl⟩
  | cons i rest ih =>
    intro g mask
    simp only [get_rows_loop, gpio_pin_read, hok, if_true, ne_eq, not_true_eq_false, if_false]
    exact ih _ _

theorem sample_loop_ok (env : Env) (hok : ∀ n, env.fault n = 0) (is : List Nat) :
    ∀ (g : Gpio) (cur : List Nat), (sample_loop env is g cur).1 = 0 ∧
      (sample_loop env is g cur).2.2.cb = g.cb ∧
      (sample_loop env is g cur).2.2.cfg = g.cfg := by
  induction is with
  | nil => intro g cur; exact ⟨rfl, rfl, rfl⟩
  | cons i rest ih =>
    intro g cur
    have hs := set_cols_ok env hok (1 <<< i) g
    have hg := get_rows_loop_ok env hok (List.range col_pin.length)
      (set_cols env (1 <<< i) g).2 (cur.getD i 0)
    have hi := ih (get_rows env (set_cols env (1 <<< i) g).2 (cur.getD i 0)).2.2
      (cur.set i (get_rows env (set_cols env (1 <<< i) g).2 (cur.getD i 0)).2.1)
    simp only [sample_loop, hs.1, if_true]
    simp only [get_rows, hg.1, ne_eq, not_true_eq_false, if_false]
    simp only [get_rows] at hi
    exact ⟨hi.1, by rw [hi.2.1, hg.2.1, hs.2.1], by rw [hi.2.2, hg.2.2, hs.2.2]⟩

theorem sample_ok (env : Env) (hok : ∀ n, env.fault n = 0) (g : Gpio) :
    (sample env g).1 = 0 ∧ (sample env g).2.2.cb = g.cb ∧ (sample env g).2.2.cfg = g.cfg :=
  sample_loop_ok env hok _ g _

/-- With every call succeeding callback_ctrl sets the callback bit of the four
row pins, in the order of row_pin, and nothing else. -/
theorem callback_ctrl_ok (env : Env) (hok : ∀ n, env.fault n = 0) (enable : Bool) (g : Gpio) :
    (callback_ctrl env enable g).1 = 0 ∧
    (∀ p ∈ row_pin, (callback_ctrl env enable g).2.cb p = enable) ∧
    (callback_ctrl env enable g).2.cfg = g.cfg ∧
    (callback_ctrl env enable g).2.out = g.out ∧
    (callback_ctrl env enable g).2.log = g.log ++ row_pin.map fun p =>
      if enable then GpioCall.pin_enable_callback p else GpioCall.pin_disable_callback p := by
  have hr : List.range row_pin.length = [0, 1, 2, 3] := rfl
  unfold callback_ctrl
  rw [hr]
  cases enable <;>
    simp [callback_ctrl_loop, gpio_pin_enable_callback, gpio_pin_disable_callback, hok, row_pin]

/-- With every call succeeding set_trig_mode stores the flags on the four row
pins, in the order of row_pin, and nothing else. -/
theorem set_trig_mode_ok (env : Env) (hok : ∀ n, env.fault n = 0) (trig_mode : GpioFlag)
    (g : Gpio) :
    (set_trig_mode env trig_mode g).1 = 0 ∧
    (set_trig_mode env trig_mode g).2.cb = g.cb ∧
    (∀ p ∈ row_pin, (set_trig_mode env trig_mode g).2.cfg p =
      some [GpioFlag.GPIO_PUD_PULL_DOWN, GpioFlag.GPIO_DIR_IN, GpioFlag.GPIO_INT,
        GpioFlag.GPIO_INT_ACTIVE_HIGH, trig_mode]) ∧
    (set_trig_mode env trig_mode g).2.out = g.out ∧
    (set_trig_mode env trig_mode g).2.log = g.log ++ row_pin.map fun p =>
      GpioCall.pin_configure p [GpioFlag.GPIO_PUD_PULL_DOWN, GpioFlag.GPIO_DIR_IN,
        GpioFlag.GPIO_INT, GpioFlag.GPIO_INT_ACTIVE_HIGH, trig_mode] := by
  have hr : List.range row_pin.length = [0, 1, 2, 3] := rfl
  unfold set_trig_mode
  rw [hr]
  simp [set_trig_mode_loop, gpio_pin_configure, hok, row_pin]

theorem button_pressed_loop_ok (env : Env) (hok : ∀ n, env.fault n = 0) (g : Gpio) :
    (∀ p ∈ row_pin, (button_pressed_loop env (List.range row_pin.length) g).cb p = false) ∧
    (button_pressed_loop env (List.range row_pin.length) g).cfg = g.cfg := by
  have hr : List.range row_pin.length = [0, 1, 2, 3] := rfl
  rw [hr]
  simp [button_pressed_loop, gpio_pin_disable_callback, hok, row_pin]

/-! ## The driver when every call succeeds -/

theorem matrix_scan_fn_eq (env : Env) (w : World) (h : (sample env w.gpio).1 = 0) :
    matrix_scan_fn env w =
      scan_finish env (scan_commit env w)
        (any_set (sample env w.gpio).2.1 (List.range col_pin.length)) := by
  unfold matrix_scan_fn scan_commit
  simp only [h, ne_eq, not_true_eq_false, if_false, diff_loop_eq, Bool.false_or]

theorem scan_finish_pressed (env : Env) (hok : ∀ n, env.fault n = 0) (w : World) :
    scan_finish env w true =
      { w with gpio := (set_cols env 0x00 w.gpio).2, pending := some env.scan_interval } := by
  unfold scan_finish
  simp [(set_cols_ok env hok 0 w.gpio).1, k_delayed_work_submit]

theorem scan_finish_scanning (env : Env) (hok : ∀ n, env.fault n = 0) (w : World)
    (hs : w.state = State.STATE_SCANNING) :
    scan_finish env w false =
      { w with
        gpio := (callback_ctrl env true (set_cols env 0xFF w.gpio).2).2
        state := State.STATE_ACTIVE } := by
  unfold scan_finish
  simp [(set_cols_ok env hok 255 w.gpio).1, settle_idle, hs,
    (callback_ctrl_ok env hok true (set_cols env 255 w.gpio).2).1]

theorem scan_finish_suspending (env : Env) (hok : ∀ n, env.fault n = 0) (w : World)
    (hs : w.state = State.STATE_SUSPENDING) :
    scan_finish env w false =
      { w with
        gpio := (callback_ctrl env true
          (set_trig_mode env GpioFlag.GPIO_INT_LEVEL (set_cols env 0xFF w.gpio).2).2).2
        state := State.STATE_IDLE
        published := w.published ++ [Event.module_state_event ModuleState.MODULE_STATE_STANDBY] }
      := by
  unfold scan_finish
  simp [(set_cols_ok env hok 255 w.gpio).1, settle_idle, hs, suspend_nolock,
    (set_trig_mode_ok env hok GpioFlag.GPIO_INT_LEVEL (set_cols env 255 w.gpio).2).1,
    (callback_ctrl_ok env hok true
      (set_trig_mode env GpioFlag.GPIO_INT_LEVEL (set_cols env 255 w.gpio).2).2).1,
    module_set_state, EVENT_SUBMIT]

theorem any_cb_false_of_disarmed (w : World) (h : rows_disarmed w) :
    row_pin.any w.gpio.cb = false := by
  rw [List.any_eq_false]
  intro p hp
  simp [h p hp]

theorem disarmed_of_any_cb_false (w : World) (h : row_pin.any w.gpio.cb = false) :
    rows_disarmed w := by
  rw [List.any_eq_false] at h
  intro p hp
  simpa using h p hp

theorem not_armed_and_disarmed (w : World) (ha : rows_armed w) (hd : rows_disarmed w) : False := by
  have h1 := ha 29 (by decide)
  have h2 := hd 29 (by decide)
  rw [h1] at h2
  cases h2

theorem entriesOk_append (w : World) (e : ScanEntry) (he : EntriesOk w) (ha : e.armed = false)
    (hs : e.st = State.STATE_SCANNING ∨ e.st = State.STATE_SUSPENDING) :
    ∀ x ∈ w.scan_entries ++ [e], x.armed = false ∧
      (x.st = State.STATE_SCANNING ∨ x.st = State.STATE_SUSPENDING) := by
  intro x hx
  rcases List.mem_append.mp hx with h | h
  · exact he x h
  · rw [List.mem_singleton] at h
    subst h
    exact ⟨ha, hs⟩

/-- One scan entered in Scanning or Suspending with the row callbacks disabled
and nothing pending re-establishes the invariant. -/
theorem matrix_scan_fn_inv (env : Env) (hok : ∀ n, env.fault n = 0) (w : World)
    (hst : w.state = State.STATE_SCANNING ∨ w.state = State.STATE_SUSPENDING)
    (hd : rows_disarmed w) (hp : w.pending = none) (he : EntriesOk w) :
    DriverInv (matrix_scan_fn env w) ∧
    ((matrix_scan_fn env w).state = State.STATE_IDLE → rows_armed (matrix_scan_fn env w)) := by
  have hsm := sample_ok env hok w.gpio
  have hent := entriesOk_append w (ScanEntry.mk w.state (row_pin.any w.gpio.cb)) he
    (any_cb_false_of_disarmed w hd) hst
  rw [matrix_scan_fn_eq env w hsm.1]
  cases hany : any_set (sample env w.gpio).2.1 (List.range col_pin.length)
  · rcases hst with hs | hs
    · rw [scan_finish_scanning env hok (scan_commit env w) hs]
      have hcb := (callback_ctrl_ok env hok true
        (set_cols env 0xFF (sample env w.gpio).2.2).2).2.1
      refine ⟨⟨hent, ?_, ?_, ?_⟩, ?_⟩
      · exact fun _ => ⟨hcb, hp⟩
      · intro h; cases h
      · intro h; rcases h with h | h <;> cases h
      · intro h; cases h
    · rw [scan_finish_suspending env hok (scan_commit env w) hs]
      have hcb := (callback_ctrl_ok env hok true (set_trig_mode env GpioFlag.GPIO_INT_LEVEL
        (set_cols env 0xFF (sample env w.gpio).2.2).2).2).2.1
      refine ⟨⟨hent, ?_, ?_, ?_⟩, ?_⟩
      · intro h; cases h
      · intro _
        refine ⟨hp, Or.inl ⟨hcb, ?_⟩⟩
        simp [scan_commit]
      · intro h; rcases h with h | h <;> cases h
      · exact fun _ => hcb
  · rw [scan_finish_pressed env hok]
    have hcb : ∀ p ∈ row_pin, (set_cols env 0x00 (sample env w.gpio).2.2).2.cb p = false := by
      intro p hpin
      rw [(set_cols_ok env hok 0 _).2.1, hsm.2.1]
      exact hd p hpin
    have hne : ∀ st : State, w.state = st →
        st ≠ State.STATE_ACTIVE ∧ st ≠ State.STATE_IDLE := by
      intro st h
      subst h
      rcases hst with hs | hs <;> rw [hs] <;> exact ⟨by decide, by decide⟩
    refine ⟨⟨hent, ?_, ?_, ?_⟩, ?_⟩
    · intro h; exact absurd h (hne _ rfl).1
    · intro h; exact absurd h (hne _ rfl).2
    · intro _
      exact ⟨hcb, by simp⟩
    · intro h; exact absurd h (hne _ rfl).2

theorem suspend_idle (env : Env) (w : World) (hs : w.state = State.STATE_IDLE) :
    suspend env w = (-EALREADY, w) := by
  simp [suspend, suspend_nolock, hs]

theorem suspend_scanning (env : Env) (w : World) (hs : w.state = State.STATE_SCANNING) :
    suspend env w = (-EBUSY, { w with state := State.STATE_SUSPENDING }) := by
  simp [suspend, suspend_nolock, hs]

theorem suspend_suspending (env : Env) (w : World) (hs : w.state = State.STATE_SUSPENDING) :
    suspend env w = (-EBUSY, w) := by
  simp [suspend, suspend_nolock, hs]

theorem suspend_active (env : Env) (hok : ∀ n, env.fault n = 0) (w : World)
    (hs : w.state = State.STATE_ACTIVE) :
    suspend env w =
      (0, { w with
        state := State.STATE_IDLE
        gpio := (callback_ctrl env true
          (set_trig_mode env GpioFlag.GPIO_INT_LEVEL w.gpio).2).2 }) := by
  simp [suspend, suspend_nolock, hs,
    (set_trig_mode_ok env hok GpioFlag.GPIO_INT_LEVEL w.gpio).1,
    (callback_ctrl_ok env hok true (set_trig_mode env GpioFlag.GPIO_INT_LEVEL w.gpio).2).1]

theorem button_pressed_inv (env : Env) (hok : ∀ n, env.fault n = 0) (w : World)
    (h : DriverInv w) (ha : row_pin.any w.gpio.cb = true) : DriverInv (button_pressed env w) := by
  obtain ⟨he, hact, hidle, hscan⟩ := h
  have hcb := (button_pressed_loop_ok env hok w.gpio).1
  have hnd : ¬ rows_disarmed w := fun hd => by
    rw [any_cb_false_of_disarmed w hd] at ha
    cases ha
  unfold button_pressed
  dsimp only
  cases hs : w.state
  · refine ⟨he, ?_, ?_, ?_⟩
    · intro h; cases h
    · intro _
      refine ⟨(hidle hs).1, Or.inr ⟨hcb, ?_⟩⟩
      simp [EVENT_SUBMIT]
    · intro h; rcases h with h | h <;> cases h
  · refine ⟨he, ?_, ?_, ?_⟩
    · intro h; cases h
    · intro h; cases h
    · intro _
      exact ⟨hcb, by simp [k_delayed_work_submit]⟩
  · exact absurd (hscan (Or.inl hs)).1 hnd
  · exact absurd (hscan (Or.inr hs)).1 hnd

theorem power_down_inv (env : Env) (hok : ∀ n, env.fault n = 0) (w : World)
    (h : DriverInv w) : DriverInv (event_handler env w Incoming.power_down_event).2 := by
  obtain ⟨he, hact, hidle, hscan⟩ := h
  unfold event_handler
  dsimp only
  cases hs : w.state
  · rw [suspend_idle env w hs]
    simp only [EALREADY]
    refine ⟨he, ?_, ?_, ?_⟩
    · intro h; exact hact h
    · intro h; exact hidle h
    · intro h; exact hscan h
  · rw [suspend_active env hok w hs]
    have hcb := (callback_ctrl_ok env hok true
      (set_trig_mode env GpioFlag.GPIO_INT_LEVEL w.gpio).2).2.1
    refine ⟨he, ?_, ?_, ?_⟩
    · intro h; cases h
    · intro _
      refine ⟨(hact hs).2, Or.inl ⟨hcb, ?_⟩⟩
      simp [module_set_state, EVENT_SUBMIT]
    · intro h; rcases h with h | h <;> cases h
  · rw [suspend_scanning env w hs]
    simp only [EBUSY, EALREADY]
    refine ⟨he, ?_, ?_, ?_⟩
    · intro h; cases h
    · intro h; cases h
    · intro _
      exact hscan (Or.inl hs)
  · rw [suspend_suspending env w hs]
    simp only [EBUSY, EALREADY]
    refine ⟨he, ?_, ?_, ?_⟩
    · intro h; exact hact h
    · intro h; exact hidle h
    · intro h; exact hscan h

theorem driverInv_module_set_state (s : ModuleState) (w : World) (h : DriverInv w)
    (hi : w.state = State.STATE_IDLE → rows_armed w) : DriverInv (module_set_state s w) := by
  obtain ⟨he, hact, hidle, hscan⟩ := h
  refine ⟨he, hact, ?_, hscan⟩
  intro hs
  refine ⟨(hidle hs).1, Or.inl ⟨hi hs, ?_⟩⟩
  simp [module_set_state, EVENT_SUBMIT]

theorem resume_idle (env : Env) (hok : ∀ n, env.fault n = 0) (w : World)
    (hs : w.state = State.STATE_IDLE) :
    resume env w =
      module_set_state ModuleState.MODULE_STATE_READY
        (matrix_scan_fn env
          { w with
            gpio := (set_trig_mode env GpioFlag.GPIO_INT_EDGE
              (callback_ctrl env false w.gpio).2).2
            state := State.STATE_SCANNING }) := by
  simp [resume, hs, (callback_ctrl_ok env hok false w.gpio).1,
    (set_trig_mode_ok env hok GpioFlag.GPIO_INT_EDGE (callback_ctrl env false w.gpio).2).1]

theorem resume_not_idle (env : Env) (w : World) (hs : w.state ≠ State.STATE_IDLE) :
    resume env w = w := by
  simp [resume, hs]

theorem resume_inv (env : Env) (hok : ∀ n, env.fault n = 0) (w : World) (h : DriverInv w) :
    DriverInv (resume env w) := by
  by_cases hs : w.state = State.STATE_IDLE
  · rw [resume_idle env hok w hs]
    have hd : ∀ p ∈ row_pin, (set_trig_mode env GpioFlag.GPIO_INT_EDGE
        (callback_ctrl env false w.gpio).2).2.cb p = false := by
      intro p hp
      rw [(set_trig_mode_ok env hok GpioFlag.GPIO_INT_EDGE _).2.1]
      exact (callback_ctrl_ok env hok false w.gpio).2.1 p hp
    have hm := matrix_scan_fn_inv env hok
      { w with
        gpio := (set_trig_mode env GpioFlag.GPIO_INT_EDGE (callback_ctrl env false w.gpio).2).2
        state := State.STATE_SCANNING }
      (Or.inl rfl) hd (h.2.2.1 hs).1 h.1
    exact driverInv_module_set_state _ _ hm.1 hm.2
  · rw [resume_not_idle env w hs]
    exact h

theorem init_cols_loop_ok (env : Env) (hok : ∀ n, env.fault n = 0) (is : List Nat) :
    ∀ g : Gpio, (init_cols_loop env is g).1 = 0 := by
  induction is with
  | nil => intro g; rfl
  | cons i rest ih =>
    intro g
    simp only [init_cols_loop, gpio_pin_configure, hok, if_true, ne_eq, not_true_eq_false,
      if_false]
    exact ih _

theorem init_rows_loop_ok (env : Env) (hok : ∀ n, env.fault n = 0) (g : Gpio) (m : Nat) :
    (init_rows_loop env (List.range row_pin.length) g m).1 = 0 ∧
    ∀ p ∈ row_pin, (init_rows_loop env (List.range row_pin.length) g m).2.2.cb p = false := by
  have hr : List.range row_pin.length = [0, 1, 2, 3] := rfl
  rw [hr]
  simp [init_rows_loop, gpio_pin_disable_callback, hok, row_pin]

/-- The world handed to the first scan by a successful init_fn. -/
theorem init_world_eq (env : Env) (hok : AllOk env) :
    init_world env =
      matrix_scan_fn env
        { boot with
          initialized := true
          gpio_dev := true
          gpio := (gpio_add_callback env
            (init_rows_loop env (List.range row_pin.length)
              (set_trig_mode env GpioFlag.GPIO_INT_EDGE
                (init_cols_loop env (List.range col_pin.length) boot.gpio).2).2 0).2.2
            (init_rows_loop env (List.range row_pin.length)
              (set_trig_mode env GpioFlag.GPIO_INT_EDGE
                (init_cols_loop env (List.range col_pin.length) boot.gpio).2).2 0).2.1).2
          published := [Event.module_state_event ModuleState.MODULE_STATE_READY]
          state := State.STATE_SCANNING } := by
  obtain ⟨hb, hf⟩ := hok
  simp [init_world, event_handler, init_fn, hb, init_cols_loop_ok env hf,
    (set_trig_mode_ok env hf GpioFlag.GPIO_INT_EDGE _).1, (init_rows_loop_ok env hf _ 0).1,
    gpio_add_callback, hf, module_set_state, EVENT_SUBMIT, boot]

theorem init_world_inv (env : Env) (hok : AllOk env) : DriverInv (init_world env) := by
  rw [init_world_eq env hok]
  refine (matrix_scan_fn_inv env hok.2 _ (Or.inl rfl) ?_ rfl ?_).1
  · intro p hp
    exact (init_rows_loop_ok env hok.2 _ 0).2 p hp
  · intro e he
    cases he

theorem step_inv (env : Env) (hok : ∀ n, env.fault n = 0) (w w2 : World) (i : Input)
    (hs : step env w i = some w2) (h : DriverInv w) : DriverInv w2 := by
  cases i with
  | row_irq =>
    simp only [step] at hs
    split at hs
    · rename_i ha
      cases hs; exact button_pressed_inv env hok w h ha
    · cases hs
  | scan_work =>
    simp only [step] at hs
    split at hs
    · rename_i d hp
      cases hs
      have hst : w.state = State.STATE_SCANNING ∨ w.state = State.STATE_SUSPENDING := by
        cases hw : w.state
        · have := (h.2.2.1 hw).1
          rw [hp] at this
          cases this
        · have := (h.2.1 hw).2
          rw [hp] at this
          cases this
        · exact Or.inl rfl
        · exact Or.inr rfl
      exact (matrix_scan_fn_inv env hok { w with pending := none } hst (h.2.2.2 hst).1 rfl h.1).1
    · cases hs
  | power_down =>
    simp only [step] at hs
    cases hs; exact power_down_inv env hok w h
  | wake_up =>
    simp only [step] at hs
    cases hs; exact resume_inv env hok w h

theorem run_inv (env : Env) (hok : ∀ n, env.fault n = 0) (inputs : List Input) :
    ∀ w w2, run env w inputs = some w2 → DriverInv w → DriverInv w2 := by
  induction inputs with
  | nil => intro w w2 hr h; cases hr; exact h
  | cons i rest ih =>
    intro w w2 hr h
    unfold run at hr
    split at hr
    · rename_i w1 hs
      exact ih w1 w2 hr (step_inv env hok w w1 i hs h)
    · cases hr

theorem reachable_inv (env : Env) (hok : AllOk env) (w : World) (h : Reachable env w) :
    DriverInv w := by
  obtain ⟨inputs, hr⟩ := h
  exact run_inv env hok.2 inputs _ w hr (init_world_inv env hok)

theorem settle_idle_entries (env : Env) (w : World) :
    (settle_idle env w).2.scan_entries = w.scan_entries := by
  unfold settle_idle
  cases h : w.state
  · simp
  · simp
  · simp
  · simp only []
    have hf := suspend_nolock_frame env { w with state := State.STATE_ACTIVE }
    split
    · simp [module_set_state, EVENT_SUBMIT, hf.2.2.2]
    · simp [hf.2.2.2]

theorem scan_finish_entries (env : Env) (w : World) (b : Bool) :
    (scan_finish env w b).scan_entries = w.scan_entries := by
  unfold scan_finish
  dsimp only
  have hs := settle_idle_entries env { w with gpio := (set_cols env 0xFF w.gpio).2 }
  split
  · split <;> rfl
  · split
    · rfl
    · split
      · simp [module_set_state, EVENT_SUBMIT, hs]
      · simp [hs]

/-- Every call of matrix_scan_fn leaves one record of the state and of the row
callbacks it found on entry. -/
theorem matrix_scan_fn_entries (env : Env) (w : World) :
    (matrix_scan_fn env w).scan_entries =
      w.scan_entries ++ [ScanEntry.mk w.state (row_pin.any w.gpio.cb)] := by
  by_cases h : (sample env w.gpio).1 = 0
  · rw [matrix_scan_fn_eq env w h, scan_finish_entries]
    rfl
  · unfold matrix_scan_fn
    simp [h, module_set_state, EVENT_SUBMIT]

theorem any_set_iff (cur : List Nat) :
    any_set cur (List.range col_pin.length) = true ↔
      ∃ c, c < 4 ∧ ∃ r, r < 4 ∧ snapBit cur c r = true := by
  unfold any_set snapBit
  have hc : col_pin.length = 4 := rfl
  have hr : row_pin.length = 4 := rfl
  rw [hc, hr]
  simp only [List.any_eq_true, List.mem_range, land_one_shiftLeft_ne_zero]

theorem any_set_false_iff (cur : List Nat) :
    any_set cur (List.range col_pin.length) = false ↔
      ∀ c, c < 4 → ∀ r, r < 4 → snapBit cur c r = false := by
  constructor
  · intro h c hc r hr
    cases hb : snapBit cur c r
    · rfl
    · have := (any_set_iff cur).mpr ⟨c, hc, r, hr, hb⟩
      rw [h] at this
      cases this
  · intro h
    cases ha : any_set cur (List.range col_pin.length)
    · rfl
    · obtain ⟨c, hc, r, hr, hb⟩ := (any_set_iff cur).mp ha
      rw [h c hc r hr] at hb
      cases hb

theorem diff_events_buttons (cur old : List Nat) (cs : List Nat) :
    ∀ e ∈ diff_events cur old cs, ∃ k p, e = Event.button_event k p := by
  intro e he
  unfold diff_events at he
  rw [List.mem_flatMap] at he
  obtain ⟨c, _, hc⟩ := he
  unfold row_events at hc
  rw [List.mem_filterMap] at hc
  obtain ⟨r, _, hre⟩ := hc
  split at hre
  · cases hre
    exact ⟨_, _, rfl⟩
  · cases hre

theorem count_status_diff_events (cur old : List Nat) (cs : List Nat) (s : ModuleState) :
    (diff_events cur old cs).count (Event.module_state_event s) = 0 := by
  rw [List.count_eq_zero]
  intro hm
  obtain ⟨k, p, h⟩ := diff_events_buttons cur old cs _ hm
  cases h

/-- Outside the row pins set_trig_mode and callback_ctrl change nothing. -/
theorem row_calls_frame (env : Env) (hok : ∀ n, env.fault n = 0) (t : GpioFlag)
    (enable : Bool) (g : Gpio) (p : Nat) (hp : p ∉ row_pin) :
    (set_trig_mode env t g).2.cfg p = g.cfg p ∧
    (callback_ctrl env enable g).2.cb p = g.cb p := by
  have hr : List.range row_pin.length = [0, 1, 2, 3] := rfl
  simp only [row_pin, List.mem_cons, List.mem_singleton, List.not_mem_nil, or_false,
    not_or] at hp
  obtain ⟨h1, h2, h3, h4⟩ := hp
  unfold set_trig_mode callback_ctrl
  rw [hr]
  cases enable <;>
    simp [set_trig_mode_loop, callback_ctrl_loop, gpio_pin_configure, gpio_pin_enable_callback,
      gpio_pin_disable_callback, hok, row_pin, h1, h2, h3, h4]

/-- A scan run in Suspending publishes one STANDBY when it samples no key
pressed and none otherwise. -/
theorem scan_standby_count_suspending (env : Env) (hok : ∀ n, env.fault n = 0) (w : World)
    (hs : w.state = State.STATE_SUSPENDING) :
    (published_since w.published.length (matrix_scan_fn env w)).count
        (Event.module_state_event ModuleState.MODULE_STATE_STANDBY) =
      if any_set (sample env w.gpio).2.1 (List.range col_pin.length) then 0 else 1 := by
  rw [matrix_scan_fn_eq env w (sample_ok env hok w.gpio).1]
  cases hany : any_set (sample env w.gpio).2.1 (List.range col_pin.length)
  · rw [scan_finish_suspending env hok (scan_commit env w) hs]
    have hp : published_since w.published.length
        { scan_commit env w with
          gpio := (callback_ctrl env true (set_trig_mode env GpioFlag.GPIO_INT_LEVEL
            (set_cols env 0xFF (scan_commit env w).gpio).2).2).2
          state := State.STATE_IDLE
          published := (scan_commit env w).published ++
            [Event.module_state_event ModuleState.MODULE_STATE_STANDBY] } =
        diff_events (sample env w.gpio).2.1 w.old_state (List.range col_pin.length) ++
          [Event.module_state_event ModuleState.MODULE_STATE_STANDBY] :=
      published_since_of_append _ _ _ (by simp [scan_commit])
    rw [hp, List.count_append, count_status_diff_events]
    rfl
  · rw [scan_finish_pressed env hok]
    have hp : published_since w.published.length
        { scan_commit env w with
          gpio := (set_cols env 0x00 (scan_commit env w).gpio).2
          pending := some env.scan_interval } =
        diff_events (sample env w.gpio).2.1 w.old_state (List.range col_pin.length) :=
      published_since_of_append _ _ _ rfl
    rw [hp, count_status_diff_events]
    rfl

/-- A scan run in Scanning never publishes STANDBY. -/
theorem scan_standby_count_scanning (env : Env) (hok : ∀ n, env.fault n = 0) (w : World)
    (hs : w.state = State.STATE_SCANNING) :
    (published_since w.published.length (matrix_scan_fn env w)).count
        (Event.module_state_event ModuleState.MODULE_STATE_STANDBY) = 0 := by
  rw [matrix_scan_fn_eq env w (sample_ok env hok w.gpio).1]
  cases hany : any_set (sample env w.gpio).2.1 (List.range col_pin.length)
  · rw [scan_finish_scanning env hok (scan_commit env w) hs]
    have hp : published_since w.published.length
        { scan_commit env w with
          gpio := (callback_ctrl env true (set_cols env 0xFF (scan_commit env w).gpio).2).2
          state := State.STATE_ACTIVE } =
        diff_events (sample env w.gpio).2.1 w.old_state (List.range col_pin.length) :=
      published_since_of_append _ _ _ rfl
    rw [hp, count_status_diff_events]
  · rw [scan_finish_pressed env hok]
    have hp : published_since w.published.length
        { scan_commit env w with
          gpio := (set_cols env 0x00 (scan_commit env w).gpio).2
          pending := some env.scan_interval } =
        diff_events (sample env w.gpio).2.1 w.old_state (List.range col_pin.length) :=
      published_since_of_append _ _ _ rfl
    rw [hp, count_status_diff_events]

/-! ## Complete results of a scan when every call succeeds -/

theorem scan_ok_pressed (env : Env) (hok : ∀ n, env.fault n = 0) (w : World)
    (hany : any_set (sample env w.gpio).2.1 (List.range col_pin.length) = true) :
    matrix_scan_fn env w =
      { scan_commit env w with
        gpio := (set_cols env 0x00 (scan_commit env w).gpio).2
        pending := some env.scan_interval } := by
  rw [matrix_scan_fn_eq env w (sample_ok env hok w.gpio).1, hany, scan_finish_pressed env hok]

theorem scan_ok_scanning (env : Env) (hok : ∀ n, env.fault n = 0) (w : World)
    (hany : any_set (sample env w.gpio).2.1 (List.range col_pin.length) = false)
    (hs : w.state = State.STATE_SCANNING) :
    matrix_scan_fn env w =
      { scan_commit env w with
        gpio := (callback_ctrl env true (set_cols env 0xFF (scan_commit env w).gpio).2).2
        state := State.STATE_ACTIVE } := by
  rw [matrix_scan_fn_eq env w (sample_ok env hok w.gpio).1, hany,
    scan_finish_scanning env hok (scan_commit env w) hs]

theorem scan_ok_suspending (env : Env) (hok : ∀ n, env.fault n = 0) (w : World)
    (hany : any_set (sample env w.gpio).2.1 (List.range col_pin.length) = false)
    (hs : w.state = State.STATE_SUSPENDING) :
    matrix_scan_fn env w =
      { scan_commit env w with
        gpio := (callback_ctrl env true (set_trig_mode env GpioFlag.GPIO_INT_LEVEL
          (set_cols env 0xFF (scan_commit env w).gpio).2).2).2
        state := State.STATE_IDLE
        published := (scan_commit env w).published ++
          [Event.module_state_event ModuleState.MODULE_STATE_STANDBY] } := by
  rw [matrix_scan_fn_eq env w (sample_ok env hok w.gpio).1, hany,
    scan_finish_suspending env hok (scan_commit env w) hs]

/-- A scan run in Scanning with every call succeeding publishes its change
events and nothing else. -/
theorem scan_scanning_published (env : Env) (hok : ∀ n, env.fault n = 0) (w : World)
    (hs : w.state = State.STATE_SCANNING) :
    (matrix_scan_fn env w).published =
      w.published ++
        diff_events (sample env w.gpio).2.1 w.old_state (List.range col_pin.length) := by
  cases hany : any_set (sample env w.gpio).2.1 (List.range col_pin.length)
  · rw [scan_ok_scanning env hok w hany hs]
    rfl
  · rw [scan_ok_pressed env hok w hany]
    rfl

theorem resume_pre_facts (env : Env) (hok : ∀ n, env.fault n = 0) (w : World) :
    (resume_pre env w).gpio.log =
      w.gpio.log ++ row_pin.map GpioCall.pin_disable_callback ++
        row_pin.map (fun p => GpioCall.pin_configure p (row_flags GpioFlag.GPIO_INT_EDGE)) ∧
    rows_disarmed (resume_pre env w) ∧
    (∀ p ∈ row_pin, (resume_pre env w).gpio.cfg p = some (row_flags GpioFlag.GPIO_INT_EDGE)) := by
  have hc := callback_ctrl_ok env hok false w.gpio
  have ht := set_trig_mode_ok env hok GpioFlag.GPIO_INT_EDGE (callback_ctrl env false w.gpio).2
  refine ⟨?_, ?_, ?_⟩
  · show (set_trig_mode env GpioFlag.GPIO_INT_EDGE _).2.log = _
    rw [ht.2.2.2.2, hc.2.2.2.2]
    simp [row_flags]
  · intro p hp
    show (set_trig_mode env GpioFlag.GPIO_INT_EDGE _).2.cb p = _
    rw [ht.2.1]
    exact hc.2.1 p hp
  · intro p hp
    exact ht.2.2.1 p hp

/-! ## The interrupt handler -/

/-- Whatever the pin controller answers, the first loop of button_pressed makes
one disable call per row index and touches neither configuration nor outputs. -/
theorem button_pressed_loop_frame (env : Env) (is : List Nat) :
    ∀ g : Gpio,
      (button_pressed_loop env is g).log =
        g.log ++ is.map (fun i => GpioCall.pin_disable_callback (row_pin.getD i 0)) ∧
      (button_pressed_loop env is g).cfg = g.cfg ∧
      (button_pressed_loop env is g).out = g.out := by
  induction is with
  | nil => intro g; simp [button_pressed_loop]
  | cons i rest ih =>
    intro g
    have h := ih (gpio_pin_disable_callback env g (row_pin.getD i 0)).2
    have hl : (gpio_pin_disable_callback env g (row_pin.getD i 0)).2.log =
        g.log ++ [GpioCall.pin_disable_callback (row_pin.getD i 0)] ∧
        (gpio_pin_disable_callback env g (row_pin.getD i 0)).2.cfg = g.cfg ∧
        (gpio_pin_disable_callback env g (row_pin.getD i 0)).2.out = g.out := by
      unfold gpio_pin_disable_callback
      dsimp only
      split <;> exact ⟨rfl, rfl, rfl⟩
    simp only [button_pressed_loop]
    rw [h.1, h.2.1, h.2.2, hl.1, hl.2.1, hl.2.2]
    simp

theorem button_pressed_log (env : Env) (w : World) :
    (button_pressed env w).gpio.log = w.gpio.log ++ row_pin.map GpioCall.pin_disable_callback ∧
    (button_pressed env w).gpio.cfg = w.gpio.cfg ∧
    (button_pressed env w).gpio.out = w.gpio.out ∧
    (button_pressed env w).old_state = w.old_state ∧
    (button_pressed env w).scan_entries = w.scan_entries := by
  have h := button_pressed_loop_frame env (List.range row_pin.length) w.gpio
  have hm : (List.range row_pin.length).map
      (fun i => GpioCall.pin_disable_callback (row_pin.getD i 0)) =
      row_pin.map GpioCall.pin_disable_callback := rfl
  rw [hm] at h
  unfold button_pressed
  dsimp only
  cases w.state <;> exact ⟨h.1, h.2.1, h.2.2, rfl, rfl⟩

theorem button_pressed_idle (env : Env) (w : World) (hs : w.state = State.STATE_IDLE) :
    button_pressed env w =
      EVENT_SUBMIT Event.wake_up_event
        { w with gpio := button_pressed_loop env (List.range row_pin.length) w.gpio } := by
  simp [button_pressed, hs]

theorem button_pressed_active (env : Env) (w : World) (hs : w.state = State.STATE_ACTIVE) :
    button_pressed env w =
      k_delayed_work_submit 0
        { w with
          gpio := button_pressed_loop env (List.range row_pin.length) w.gpio
          state := State.STATE_SCANNING } := by
  simp [button_pressed, hs]

/-- In Idle with the row callbacks disabled and nothing pending, the only
input that changes anything is a wake-up. -/
theorem idle_disarmed_step (env : Env) (w w2 : World) (i : Input)
    (hs : w.state = State.STATE_IDLE) (hd : rows_disarmed w) (hp : w.pending = none)
    (hi : i ≠ Input.wake_up) (h : step env w i = some w2) : w2 = w := by
  cases i with
  | row_irq =>
    simp only [step, any_cb_false_of_disarmed w hd] at h
    cases h
  | scan_work =>
    simp only [step, hp] at h
    cases h
  | power_down =>
    simp only [step] at h
    unfold event_handler at h
    rw [suspend_idle env w hs] at h
    cases h
    rfl
  | wake_up => exact absurd rfl hi

theorem idle_disarmed_run (env : Env) (inputs : List Input) :
    ∀ w w2 : World, w.state = State.STATE_IDLE → rows_disarmed w → w.pending = none →
      Input.wake_up ∉ inputs → run env w inputs = some w2 → w2 = w := by
  induction inputs with
  | nil => intro w w2 _ _ _ _ h; cases h; rfl
  | cons i rest ih =>
    intro w w2 hs hd hp hni h
    unfold run at h
    split at h
    · rename_i w1 hst
      have hi : i ≠ Input.wake_up := fun e => hni (e ▸ List.mem_cons_self _ _)
      have h1 := idle_disarmed_step env w w1 i hs hd hp hi hst
      subst h1
      exact ih w1 w2 hs hd hp (fun hm => hni (List.mem_cons_of_mem _ hm)) h
    · cases h

/-! ## The key identifier -/

theorem key_id_eq (c r : Nat) (hc : c < 256) (hr : r < 256) :
    key_id c r = c * 256 + r ∧ (c <<< 8) ||| r = c * 256 + r := by
  have hand : r &&& 0xFF = r := by
    have h := Nat.and_pow_two_sub_one_eq_mod r 8
    have h2 : r &&& 255 = r % 256 := h
    rw [h2]
    exact Nat.mod_eq_of_lt hr
  have hor : (c <<< 8) ||| r = c * 256 + r := by
    have h := Nat.mul_add_lt_is_or (i := 8) (b := r) hr c
    rw [Nat.shiftLeft_eq]
    have h3 : 2 ^ 8 * c + r = 2 ^ 8 * c ||| r := h
    have h4 : c * 2 ^ 8 = 2 ^ 8 * c := Nat.mul_comm _ _
    rw [h4, ← h3]
    omega
  refine ⟨?_, hor⟩
  unfold key_id
  rw [hand, hor]
  omega

theorem key_id_fields (c r : Nat) (hc : c < 256) (hr : r < 256) :
    key_id c r < 65536 ∧ key_id c r &&& 0xFF = r ∧ key_id c r >>> 8 = c := by
  have h := (key_id_eq c r hc hr).1
  have hand : key_id c r &&& 255 = key_id c r % 256 := Nat.and_pow_two_sub_one_eq_mod _ 8
  have hshr : key_id c r >>> 8 = key_id c r / 256 := Nat.shiftRight_eq_div_pow _ 8
  refine ⟨by omega, ?_, ?_⟩
  · rw [hand, h]; omega
  · rw [hshr, h]; omega

/-- Every event of the change-detection loops carries key_id c r for a
position (c, r) of the matrix. -/
theorem diff_events_key_id (cur old : List Nat) :
    ∀ e ∈ diff_events cur old (List.range col_pin.length),
      ∃ c, c < 4 ∧ ∃ r, r < 4 ∧ ∃ p, e = Event.button_event (key_id c r) p := by
  intro e he
  unfold diff_events at he
  rw [List.mem_flatMap] at he
  obtain ⟨c, hc, hce⟩ := he
  unfold row_events at hce
  rw [List.mem_filterMap] at hce
  obtain ⟨r, hr, hre⟩ := hce
  split at hre
  · cases hre
    exact ⟨c, List.mem_range.mp hc, r, List.mem_range.mp hr, _, rfl⟩
  · cases hre

/-! ## Initialisation -/

theorem init_fn_unbound (env : Env) (w : World) (hb : env.binding = false) :
    init_fn env w = { w with gpio_dev := false } := by
  simp [init_fn, hb]

theorem init_world_pre (env : Env) (hok : AllOk env) :
    init_world env = matrix_scan_fn env (init_pre env) :=
  init_world_eq env hok

theorem init_rows_loop_frame_ok (env : Env) (hok : ∀ n, env.fault n = 0) (g : Gpio) (m : Nat) :
    (init_rows_loop env (List.range row_pin.length) g m).2.2.cfg = g.cfg := by
  have hr : List.range row_pin.length = [0, 1, 2, 3] := rfl
  rw [hr]
  simp [init_rows_loop, gpio_pin_disable_callback, hok, row_pin]

theorem init_pre_facts (env : Env) (hok : ∀ n, env.fault n = 0) :
    rows_disarmed (init_pre env) ∧
    (∀ p ∈ row_pin, (init_pre env).gpio.cfg p = some (row_flags GpioFlag.GPIO_INT_EDGE)) := by
  constructor
  · intro p hp
    exact (init_rows_loop_ok env hok _ 0).2 p hp
  · intro p hp
    show (init_rows_loop env (List.range row_pin.length) _ 0).2.2.cfg p = _
    rw [init_rows_loop_frame_ok env hok]
    exact (set_trig_mode_ok env hok GpioFlag.GPIO_INT_EDGE _).2.2.1 p hp

theorem snapBit_zero (c r : Nat) : snapBit [0, 0, 0, 0] c r = false := by
  unfold snapBit
  have h : ([0, 0, 0, 0] : List Nat).getD c 0 = 0 := by
    rcases c with _ | _ | _ | _ | _ | c <;> rfl
  rw [h]
  exact Nat.zero_testBit r

/-- From the all-released snapshot every event of a scan is a press. -/
theorem spec_scan_events_from_zero (cur : List Nat) :
    ∀ e ∈ spec_scan_events [0, 0, 0, 0] cur, e.2 = true := by
  intro e he
  unfold spec_scan_events at he
  rw [List.mem_flatMap] at he
  obtain ⟨c, _, hce⟩ := he
  rw [List.mem_filterMap] at hce
  obtain ⟨r, _, hre⟩ := hce
  rw [snapBit_zero] at hre
  split at hre
  · rename_i hne
    cases hre
    cases hb : snapBit cur c r
    · exact absurd hb hne
    · rfl
  · cases hre

/-! ## Pin controller calls, whatever they answer -/

theorem gpio_pin_write_facts (env : Env) (g : Gpio) (pin val : Nat) :
    (gpio_pin_write env g pin val).1 = env.fault g.log.length ∧
    (gpio_pin_write env g pin val).2.log = g.log ++ [GpioCall.pin_write pin val] ∧
    (gpio_pin_write env g pin val).2.cb = g.cb ∧
    (gpio_pin_write env g pin val).2.cfg = g.cfg := by
  unfold gpio_pin_write
  dsimp only
  split
  · rename_i h
    exact ⟨h.symm, rfl, rfl, rfl⟩
  · exact ⟨rfl, rfl, rfl, rfl⟩

theorem gpio_pin_read_facts (env : Env) (g : Gpio) (pin : Nat) :
    (gpio_pin_read env g pin).1 = env.fault g.log.length ∧
    (gpio_pin_read env g pin).2.2.log = g.log ++ [GpioCall.pin_read pin] ∧
    (gpio_pin_read env g pin).2.2.cb = g.cb ∧
    (gpio_pin_read env g pin).2.2.cfg = g.cfg := by
  unfold gpio_pin_read
  dsimp only
  split
  · rename_i h
    exact ⟨h.symm, rfl, rfl, rfl⟩
  · exact ⟨rfl, rfl, rfl, rfl⟩

theorem gpio_pin_configure_facts (env : Env) (g : Gpio) (pin : Nat) (flags : List GpioFlag) :
    (gpio_pin_configure env g pin flags).1 = env.fault g.log.length ∧
    (gpio_pin_configure env g pin flags).2.log = g.log ++ [GpioCall.pin_configure pin flags] ∧
    (gpio_pin_configure env g pin flags).2.cb = g.cb := by
  unfold gpio_pin_configure
  dsimp only
  split
  · rename_i h
    exact ⟨h.symm, rfl, rfl⟩
  · exact ⟨rfl, rfl, rfl⟩

theorem gpio_pin_enable_callback_facts (env : Env) (g : Gpio) (pin : Nat) :
    (gpio_pin_enable_callback env g pin).1 = env.fault g.log.length ∧
    (gpio_pin_enable_callback env g pin).2.log = g.log ++ [GpioCall.pin_enable_callback pin] := by
  unfold gpio_pin_enable_callback
  dsimp only
  split
  · rename_i h
    exact ⟨h.symm, rfl⟩
  · exact ⟨rfl, rfl⟩

theorem gpio_pin_disable_callback_facts (env : Env) (g : Gpio) (pin : Nat) :
    (gpio_pin_disable_callback env g pin).1 = env.fault g.log.length ∧
    (gpio_pin_disable_callback env g pin).2.log =
      g.log ++ [GpioCall.pin_disable_callback pin] := by
  unfold gpio_pin_disable_callback
  dsimp only
  split
  · rename_i h
    exact ⟨h.symm, rfl⟩
  · exact ⟨rfl, rfl⟩

theorem callsOk_refl (env : Env) (a : Nat) : CallsOk env a a := by
  intro n h1 h2
  omega

theorem callsOk_trans (env : Env) (a b c : Nat) (h1 : CallsOk env a b) (h2 : CallsOk env b c) :
    CallsOk env a c := by
  intro n ha hc
  by_cases hb : n < b
  · exact h1 n ha hb
  · exact h2 n (by omega) hc

theorem callsOk_step (env : Env) (a c : Nat) (h0 : env.fault a = 0)
    (h : CallsOk env (a + 1) c) : CallsOk env a c := by
  intro n ha hc
  by_cases hn : n = a
  · rw [hn]; exact h0
  · exact h n (by omega) hc

/-- The column writes of set_cols: the log only grows, callbacks and
configuration are untouched, and a zero result means every call it made
succeeded. -/
theorem set_cols_loop_calls (env : Env) (mask : Nat) (is : List Nat) :
    ∀ g : Gpio,
      g.log.length ≤ (set_cols_loop env mask is g).2.log.length ∧
      (set_cols_loop env mask is g).2.cb = g.cb ∧
      ((set_cols_loop env mask is g).1 = 0 →
        CallsOk env g.log.length (set_cols_loop env mask is g).2.log.length) := by
  induction is with
  | nil => intro g; exact ⟨Nat.le_refl _, rfl, fun _ => callsOk_refl env _⟩
  | cons i rest ih =>
    intro g
    have hne : (-EFAULT : Int) ≠ 0 := by decide
    unfold set_cols_loop
    dsimp only
    generalize (if mask &&& (1 <<< i) ≠ 0 then 1 else 0) = v
    have hw := gpio_pin_write_facts env g (col_pin.getD i 0) v
    have hi := ih (gpio_pin_write env g (col_pin.getD i 0) v).2
    have hlen : (gpio_pin_write env g (col_pin.getD i 0) v).2.log.length =
        g.log.length + 1 := by
      rw [hw.2.1]; simp
    rw [hlen] at hi
    split
    · refine ⟨by rw [hlen]; omega, hw.2.2.1, fun h => ?_⟩
      exact absurd h hne
    · rename_i hz
      have h0 : env.fault g.log.length = 0 := by
        rw [← hw.1]
        exact Decidable.not_not.mp hz
      exact ⟨by omega, by rw [hi.2.1, hw.2.2.1], fun h => callsOk_step env _ _ h0 (hi.2.2 h)⟩

theorem set_cols_calls (env : Env) (mask : Nat) (g : Gpio) :
    g.log.length ≤ (set_cols env mask g).2.log.length ∧
    (set_cols env mask g).2.cb = g.cb ∧
    ((set_cols env mask g).1 = 0 →
      CallsOk env g.log.length (set_cols env mask g).2.log.length) :=
  set_cols_loop_calls env mask _ g

theorem get_rows_loop_calls (env : Env) (is : List Nat) :
    ∀ (g : Gpio) (m : Nat),
      g.log.length ≤ (get_rows_loop env is g m).2.2.log.length ∧
      (get_rows_loop env is g m).2.2.cb = g.cb ∧
      ((get_rows_loop env is g m).1 = 0 →
        CallsOk env g.log.length (get_rows_loop env is g m).2.2.log.length) := by
  induction is with
  | nil => intro g m; exact ⟨Nat.le_refl _, rfl, fun _ => callsOk_refl env _⟩
  | cons i rest ih =>
    intro g m
    have hw := gpio_pin_read_facts env g (row_pin.getD i 0)
    have hi := ih (gpio_pin_read env g (row_pin.getD i 0)).2.2
      (m ||| ((gpio_pin_read env g (row_pin.getD i 0)).2.1 <<< i))
    have hlen : (gpio_pin_read env g (row_pin.getD i 0)).2.2.log.length = g.log.length + 1 := by
      rw [hw.2.1]; simp
    rw [hlen] at hi
    have hne : (-EFAULT : Int) ≠ 0 := by decide
    unfold get_rows_loop
    dsimp only
    split
    · refine ⟨by rw [hlen]; omega, hw.2.2.1, fun h => ?_⟩
      exact absurd h hne
    · rename_i hz
      have h0 : env.fault g.log.length = 0 := by
        rw [← hw.1]
        exact Decidable.not_not.mp hz
      exact ⟨by omega, by rw [hi.2.1, hw.2.2.1], fun h => callsOk_step env _ _ h0 (hi.2.2 h)⟩

theorem get_rows_calls (env : Env) (g : Gpio) (m : Nat) :
    g.log.length ≤ (get_rows env g m).2.2.log.length ∧
    (get_rows env g m).2.2.cb = g.cb ∧
    ((get_rows env g m).1 = 0 →
      CallsOk env g.log.length (get_rows env g m).2.2.log.length) :=
  get_rows_loop_calls env _ g m

theorem sample_loop_calls (env : Env) (is : List Nat) :
    ∀ (g : Gpio) (cur : List Nat),
      g.log.length ≤ (sample_loop env is g cur).2.2.log.length ∧
      (sample_loop env is g cur).2.2.cb = g.cb ∧
      ((sample_loop env is g cur).1 = 0 →
        CallsOk env g.log.length (sample_loop env is g cur).2.2.log.length) := by
  induction is with
  | nil => intro g cur; exact ⟨Nat.le_refl _, rfl, fun _ => callsOk_refl env _⟩
  | cons i rest ih =>
    intro g cur
    have hs := set_cols_calls env (1 <<< i) g
    have hg := get_rows_calls env (set_cols env (1 <<< i) g).2 (cur.getD i 0)
    have hi := ih (get_rows env (set_cols env (1 <<< i) g).2 (cur.getD i 0)).2.2
      (cur.set i (get_rows env (set_cols env (1 <<< i) g).2 (cur.getD i 0)).2.1)
    unfold sample_loop
    dsimp only
    split
    · rename_i hs0
      split
      · rename_i hg0
        exact ⟨Nat.le_trans hs.1 hg.1, hg.2.1.trans hs.2.1, fun h => absurd h hg0⟩
      · rename_i hg0
        have hg0' := Decidable.not_not.mp hg0
        refine ⟨Nat.le_trans hs.1 (Nat.le_trans hg.1 hi.1),
          hi.2.1.trans (hg.2.1.trans hs.2.1), fun h => ?_⟩
        exact callsOk_trans env _ _ _ (hs.2.2 hs0)
          (callsOk_trans env _ _ _ (hg.2.2 hg0') (hi.2.2 h))
    · rename_i hs0
      exact ⟨hs.1, hs.2.1, fun h => absurd h hs0⟩

theorem sample_calls (env : Env) (g : Gpio) :
    g.log.length ≤ (sample env g).2.2.log.length ∧
    (sample env g).2.2.cb = g.cb ∧
    ((sample env g).1 = 0 → CallsOk env g.log.length (sample env g).2.2.log.length) :=
  sample_loop_calls env _ g _

/-! ## Scans that end on the error path -/

theorem scan_fail_sample (env : Env) (w : World) (h : (sample env w.gpio).1 ≠ 0) :
    matrix_scan_fn env w =
      module_set_state ModuleState.MODULE_STATE_ERROR
        { w with
          scan_entries := w.scan_entries ++ [ScanEntry.mk w.state (row_pin.any w.gpio.cb)]
          gpio := (sample env w.gpio).2.2 } := by
  unfold matrix_scan_fn
  simp [h]

theorem scan_fail_neutral (env : Env) (w : World) (h : (sample env w.gpio).1 = 0)
    (hc : (set_cols env
      (if any_set (sample env w.gpio).2.1 (List.range col_pin.length) then 0x00 else 0xFF)
      (sample env w.gpio).2.2).1 ≠ 0) :
    matrix_scan_fn env w =
      module_set_state ModuleState.MODULE_STATE_ERROR
        { scan_commit env w with
          gpio := (set_cols env
            (if any_set (sample env w.gpio).2.1 (List.range col_pin.length) then 0x00 else 0xFF)
            (sample env w.gpio).2.2).2 } := by
  rw [matrix_scan_fn_eq env w h]
  unfold scan_finish
  cases hany : any_set (sample env w.gpio).2.1 (List.range col_pin.length)
  · rw [hany] at hc
    have hc2 : (set_cols env 0xFF (scan_commit env w).gpio).1 ≠ 0 := hc
    simp [hc2]
    rfl
  · rw [hany] at hc
    have hc2 : (set_cols env 0x00 (scan_commit env w).gpio).1 ≠ 0 := hc
    simp [hc2]
    rfl

/-- A wedged driver ignores every input: nothing is published, no scan runs
and it stays wedged. -/
theorem wedged_step (env : Env) (w w2 : World) (i : Input) (hw : Wedged w)
    (h : step env w i = some w2) :
    Wedged w2 ∧ w2.scan_entries = w.scan_entries ∧ w2.published = w.published := by
  obtain ⟨hst, hd, hp⟩ := hw
  cases i with
  | row_irq =>
    simp only [step, any_cb_false_of_disarmed w hd] at h
    cases h
  | scan_work =>
    simp only [step, hp] at h
    cases h
  | power_down =>
    simp only [step] at h
    unfold event_handler at h
    rcases hst with hs | hs
    · rw [suspend_scanning env w hs] at h
      cases h
      exact ⟨⟨Or.inr rfl, hd, hp⟩, rfl, rfl⟩
    · rw [suspend_suspending env w hs] at h
      cases h
      exact ⟨⟨Or.inr hs, hd, hp⟩, rfl, rfl⟩
  | wake_up =>
    simp only [step] at h
    unfold event_handler at h
    have hne : w.state ≠ State.STATE_IDLE := by
      rcases hst with hs | hs <;> rw [hs] <;> decide
    rw [resume_not_idle env w hne] at h
    cases h
    exact ⟨⟨hst, hd, hp⟩, rfl, rfl⟩

theorem wedged_run (env : Env) (inputs : List Input) :
    ∀ w w2 : World, Wedged w → run env w inputs = some w2 →
      Wedged w2 ∧ w2.scan_entries = w.scan_entries ∧ w2.published = w.published := by
  induction inputs with
  | nil => intro w w2 hw h; cases h; exact ⟨hw, rfl, rfl⟩
  | cons i rest ih =>
    intro w w2 hw h
    unfold run at h
    split at h
    · rename_i w1 hst
      have h1 := wedged_step env w w1 i hw hst
      have h2 := ih w1 w2 h1.1 h
      exact ⟨h2.1, h2.2.1.trans h1.2.1, h2.2.2.trans h1.2.2⟩
    · cases h

/-- A scan entered in Scanning or Suspending with the callbacks disabled and
nothing pending, and stopped by a failed sampling or a failed neutral column
write, leaves the driver wedged. -/
theorem scan_fail_wedged (env : Env) (w : World)
    (hst : w.state = State.STATE_SCANNING ∨ w.state = State.STATE_SUSPENDING)
    (hd : rows_disarmed w) (hp : w.pending = none)
    (hf : (sample env w.gpio).1 ≠ 0 ∨ ((sample env w.gpio).1 = 0 ∧
      (set_cols env
        (if any_set (sample env w.gpio).2.1 (List.range col_pin.length) then 0x00 else 0xFF)
        (sample env w.gpio).2.2).1 ≠ 0)) :
    Wedged (matrix_scan_fn env w) := by
  have hsc := (sample_calls env w.gpio).2.1
  rcases hf with h | ⟨h, hc⟩
  · rw [scan_fail_sample env w h]
    refine ⟨hst, ?_, hp⟩
    intro p hpin
    show (sample env w.gpio).2.2.cb p = false
    rw [hsc]
    exact hd p hpin
  · rw [scan_fail_neutral env w h hc]
    refine ⟨hst, ?_, hp⟩
    intro p hpin
    show (set_cols env _ (sample env w.gpio).2.2).2.cb p = false
    rw [(set_cols_calls env _ _).2.1, hsc]
    exact hd p hpin

theorem set_trig_mode_loop_calls (env : Env) (flags : List GpioFlag) (is : List Nat) :
    ∀ g : Gpio,
      g.log.length ≤ (set_trig_mode_loop env flags is g).2.log.length ∧
      ((set_trig_mode_loop env flags is g).1 = 0 →
        CallsOk env g.log.length (set_trig_mode_loop env flags is g).2.log.length) := by
  induction is with
  | nil => intro g; exact ⟨Nat.le_refl _, fun _ => callsOk_refl env _⟩
  | cons i rest ih =>
    intro g
    have hw := gpio_pin_configure_facts env g (row_pin.getD i 0) flags
    have hi := ih (gpio_pin_configure env g (row_pin.getD i 0) flags).2
    have hlen : (gpio_pin_configure env g (row_pin.getD i 0) flags).2.log.length =
        g.log.length + 1 := by
      rw [hw.2.1]; simp
    rw [hlen] at hi
    unfold set_trig_mode_loop
    dsimp only
    split
    · rename_i hz
      exact ⟨by rw [hlen]; omega, fun h => absurd h hz⟩
    · rename_i hz
      have h0 : env.fault g.log.length = 0 := by
        rw [← hw.1]
        exact Decidable.not_not.mp hz
      exact ⟨by omega, fun h => callsOk_step env _ _ h0 (hi.2 h)⟩

theorem set_trig_mode_calls (env : Env) (t : GpioFlag) (g : Gpio) :
    g.log.length ≤ (set_trig_mode env t g).2.log.length ∧
    ((set_trig_mode env t g).1 = 0 →
      CallsOk env g.log.length (set_trig_mode env t g).2.log.length) :=
  set_trig_mode_loop_calls env _ _ g

theorem callback_ctrl_loop_calls (env : Env) (enable : Bool) (is : List Nat) :
    ∀ g : Gpio,
      g.log.length ≤ (callback_ctrl_loop env enable is g).2.log.length ∧
      ((callback_ctrl_loop env enable is g).1 = 0 →
        CallsOk env g.log.length (callback_ctrl_loop env enable is g).2.log.length) := by
  induction is with
  | nil => intro g; exact ⟨Nat.le_refl _, fun _ => callsOk_refl env _⟩
  | cons i rest ih =>
    intro g
    have hw : (if enable then gpio_pin_enable_callback env g (row_pin.getD i 0)
        else gpio_pin_disable_callback env g (row_pin.getD i 0)).1 = env.fault g.log.length ∧
        (if enable then gpio_pin_enable_callback env g (row_pin.getD i 0)
        else gpio_pin_disable_callback env g (row_pin.getD i 0)).2.log.length =
          g.log.length + 1 := by
      cases enable
      · have h := gpio_pin_disable_callback_facts env g (row_pin.getD i 0)
        refine ⟨h.1, ?_⟩
        show (gpio_pin_disable_callback env g (row_pin.getD i 0)).2.log.length = _
        rw [h.2]; simp
      · have h := gpio_pin_enable_callback_facts env g (row_pin.getD i 0)
        refine ⟨h.1, ?_⟩
        show (gpio_pin_enable_callback env g (row_pin.getD i 0)).2.log.length = _
        rw [h.2]; simp
    have hi := ih (if enable then gpio_pin_enable_callback env g (row_pin.getD i 0)
        else gpio_pin_disable_callback env g (row_pin.getD i 0)).2
    rw [hw.2] at hi
    unfold callback_ctrl_loop
    dsimp only
    generalize (if enable = true then gpio_pin_enable_callback env g (row_pin.getD i 0)
        else gpio_pin_disable_callback env g (row_pin.getD i 0)) = r at hw hi ⊢
    split
    · rename_i hz
      exact ⟨by rw [hw.2]; omega, fun h => absurd h hz⟩
    · rename_i hz
      have h0 : env.fault g.log.length = 0 := by
        rw [← hw.1]
        exact Decidable.not_not.mp hz
      exact ⟨by omega, fun h => callsOk_step env _ _ h0 (hi.2 h)⟩

theorem callback_ctrl_calls (env : Env) (enable : Bool) (g : Gpio) :
    g.log.length ≤ (callback_ctrl env enable g).2.log.length ∧
    ((callback_ctrl env enable g).1 = 0 →
      CallsOk env g.log.length (callback_ctrl env enable g).2.log.length) :=
  callback_ctrl_loop_calls env enable _ g

theorem init_cols_loop_calls (env : Env) (is : List Nat) :
    ∀ g : Gpio,
      g.log.length ≤ (init_cols_loop env is g).2.log.length ∧
      ((init_cols_loop env is g).1 = 0 →
        CallsOk env g.log.length (init_cols_loop env is g).2.log.length) := by
  induction is with
  | nil => intro g; exact ⟨Nat.le_refl _, fun _ => callsOk_refl env _⟩
  | cons i rest ih =>
    intro g
    have hw := gpio_pin_configure_facts env g (col_pin.getD i 0) [GpioFlag.GPIO_DIR_OUT]
    have hi := ih (gpio_pin_configure env g (col_pin.getD i 0) [GpioFlag.GPIO_DIR_OUT]).2
    have hlen : (gpio_pin_configure env g (col_pin.getD i 0)
        [GpioFlag.GPIO_DIR_OUT]).2.log.length = g.log.length + 1 := by
      rw [hw.2.1]; simp
    rw [hlen] at hi
    unfold init_cols_loop
    dsimp only
    split
    · rename_i hz
      exact ⟨by rw [hlen]; omega, fun h => absurd h hz⟩
    · rename_i hz
      have h0 : env.fault g.log.length = 0 := by
        rw [← hw.1]
        exact Decidable.not_not.mp hz
      exact ⟨by omega, fun h => callsOk_step env _ _ h0 (hi.2 h)⟩

theorem init_rows_loop_calls (env : Env) (is : List Nat) :
    ∀ (g : Gpio) (m : Nat),
      g.log.length ≤ (init_rows_loop env is g m).2.2.log.length ∧
      ((init_rows_loop env is g m).1 = 0 →
        CallsOk env g.log.length (init_rows_loop env is g m).2.2.log.length) := by
  induction is with
  | nil => intro g m; exact ⟨Nat.le_refl _, fun _ => callsOk_refl env _⟩
  | cons i rest ih =>
    intro g m
    have hw := gpio_pin_disable_callback_facts env g (row_pin.getD i 0)
    have hi := ih (gpio_pin_disable_callback env g (row_pin.getD i 0)).2
      (m ||| (1 <<< (row_pin.getD i 0)))
    have hlen : (gpio_pin_disable_callback env g (row_pin.getD i 0)).2.log.length =
        g.log.length + 1 := by
      rw [hw.2]; simp
    rw [hlen] at hi
    unfold init_rows_loop
    dsimp only
    split
    · rename_i hz
      exact ⟨by rw [hlen]; omega, fun h => absurd h hz⟩
    · rename_i hz
      have h0 : env.fault g.log.length = 0 := by
        rw [← hw.1]
        exact Decidable.not_not.mp hz
      exact ⟨by omega, fun h => callsOk_step env _ _ h0 (hi.2 h)⟩

theorem gpio_add_callback_calls (env : Env) (g : Gpio) (m : Nat) :
    g.log.length ≤ (gpio_add_callback env g m).2.log.length ∧
    ((gpio_add_callback env g m).1 = 0 →
      CallsOk env g.log.length (gpio_add_callback env g m).2.log.length) := by
  unfold gpio_add_callback
  dsimp only
  refine ⟨by simp, fun h => ?_⟩
  intro n h1 h2
  have hl : (g.log ++ [GpioCall.add_callback m]).length = g.log.length + 1 := by simp
  rw [hl] at h2
  have : n = g.log.length := by omega
  rw [this]
  exact h

/-! ## Outcome of one driver operation -/

theorem errorOnce_single :
    ErrorOnce [Event.module_state_event ModuleState.MODULE_STATE_ERROR] :=
  ⟨[], [], rfl, rfl, rfl, rfl⟩

theorem errorOnce_append_left (pre evs : List Event)
    (h0 : pre.count (Event.module_state_event ModuleState.MODULE_STATE_ERROR) = 0)
    (h : ErrorOnce evs) : ErrorOnce (pre ++ evs) := by
  obtain ⟨a, b, he, ha, hb, hbe⟩ := h
  refine ⟨pre ++ a, b, by rw [he, List.append_assoc], ?_, hb, hbe⟩
  rw [List.count_append, h0, ha]

theorem errorOnce_append_right (evs post : List Event)
    (h0 : post.count (Event.module_state_event ModuleState.MODULE_STATE_ERROR) = 0)
    (hbp : buttonEvents post = []) (h : ErrorOnce evs) : ErrorOnce (evs ++ post) := by
  obtain ⟨a, b, he, ha, hb, hbe⟩ := h
  refine ⟨a, b ++ post, by rw [he]; simp, ha, ?_, ?_⟩
  · rw [List.count_append, h0, hb]
  · rw [buttonEvents_append, hbe, hbp]
    rfl

theorem errorOnce_diff (cur old cs : List Nat) :
    ErrorOnce (diff_events cur old cs ++
      [Event.module_state_event ModuleState.MODULE_STATE_ERROR]) :=
  errorOnce_append_left _ _ (count_status_diff_events _ _ _ _) errorOnce_single

theorem not_callsOk_of_failed (env : Env) (a b : Nat) (hf : CallFailed env a b) :
    ¬ CallsOk env a b := by
  obtain ⟨n, h1, h2, h3⟩ := hf
  exact fun h => h3 (h n h1 h2)

theorem opOutcome_failed (env : Env) (w w2 : World) (h : OpOutcome env w w2)
    (hf : CallFailed env w.gpio.log.length w2.gpio.log.length) :
    ErrorOnce (published_since w.published.length w2) := by
  obtain ⟨_, new, hp, hor⟩ := h
  rw [published_since_of_append _ _ _ hp]
  rcases hor with h1 | ⟨_, h2⟩
  · exact h1
  · exact absurd h2 (not_callsOk_of_failed env _ _ hf)

theorem opOutcome_refl (env : Env) (w : World) : OpOutcome env w w :=
  ⟨Nat.le_refl _, [], by simp, Or.inr ⟨rfl, callsOk_refl env _⟩⟩

theorem suspend_nolock_outcome (env : Env) (w : World) :
    w.gpio.log.length ≤ (suspend_nolock env w).2.gpio.log.length ∧
    (suspend_nolock env w).2.published = w.published ∧
    ((suspend_nolock env w).1 = 0 →
      CallsOk env w.gpio.log.length (suspend_nolock env w).2.gpio.log.length) := by
  have ht := set_trig_mode_calls env GpioFlag.GPIO_INT_LEVEL w.gpio
  have hc := callback_ctrl_calls env true (set_trig_mode env GpioFlag.GPIO_INT_LEVEL w.gpio).2
  unfold suspend_nolock
  cases hs : w.state
  · exact ⟨Nat.le_refl _, rfl, fun _ => callsOk_refl env _⟩
  · dsimp only
    split
    · rename_i h0
      exact ⟨Nat.le_trans ht.1 hc.1, rfl,
        fun h => callsOk_trans env _ _ _ (ht.2 h0) (hc.2 h)⟩
    · rename_i h0
      exact ⟨ht.1, rfl, fun h => absurd h h0⟩
  · exact ⟨Nat.le_refl _, rfl, fun _ => callsOk_refl env _⟩
  · exact ⟨Nat.le_refl _, rfl, fun _ => callsOk_refl env _⟩

theorem settle_idle_outcome (env : Env) (w : World) :
    w.gpio.log.length ≤ (settle_idle env w).2.gpio.log.length ∧
    (((settle_idle env w).1 ≠ 0 ∧ (settle_idle env w).2.published = w.published) ∨
     ((settle_idle env w).1 = 0 ∧
      ((settle_idle env w).2.published = w.published ∨
        (settle_idle env w).2.published =
          w.published ++ [Event.module_state_event ModuleState.MODULE_STATE_STANDBY]) ∧
      CallsOk env w.gpio.log.length (settle_idle env w).2.gpio.log.length)) := by
  have hc := callback_ctrl_calls env true w.gpio
  have hsn := suspend_nolock_outcome env { w with state := State.STATE_ACTIVE }
  unfold settle_idle
  cases hs : w.state
  · exact ⟨Nat.le_refl _, Or.inr ⟨rfl, Or.inl rfl, callsOk_refl env _⟩⟩
  · exact ⟨Nat.le_refl _, Or.inr ⟨rfl, Or.inl rfl, callsOk_refl env _⟩⟩
  · dsimp only
    refine ⟨hc.1, ?_⟩
    by_cases h0 : (callback_ctrl env true w.gpio).1 = 0
    · exact Or.inr ⟨h0, Or.inl rfl, hc.2 h0⟩
    · exact Or.inl ⟨h0, rfl⟩
  · dsimp only
    split
    · rename_i h0
      refine ⟨hsn.1, Or.inr ⟨h0, Or.inr ?_, hsn.2.2 h0⟩⟩
      show (suspend_nolock env _).2.published ++ _ = _
      rw [hsn.2.1]
    · rename_i h0
      exact ⟨hsn.1, Or.inl ⟨h0, hsn.2.1⟩⟩

theorem scan_finish_outcome (env : Env) (w : World) (b : Bool) :
    OpOutcome env w (scan_finish env w b) := by
  have hc0 := set_cols_calls env 0x00 w.gpio
  have hc1 := set_cols_calls env 0xFF w.gpio
  have hst := settle_idle_outcome env { w with gpio := (set_cols env 0xFF w.gpio).2 }
  unfold scan_finish
  dsimp only
  split
  · split
    · exact ⟨hc0.1, _, rfl, Or.inl errorOnce_single⟩
    · rename_i h0
      exact ⟨hc0.1, [], by simp [k_delayed_work_submit],
        Or.inr ⟨rfl, hc0.2.2 (Decidable.not_not.mp h0)⟩⟩
  · split
    · exact ⟨hc1.1, _, rfl, Or.inl errorOnce_single⟩
    · rename_i h0
      have h0' := Decidable.not_not.mp h0
      split
      · rename_i hr
        rcases hst.2 with ⟨_, hp⟩ | ⟨hz, _, _⟩
        · refine ⟨Nat.le_trans hc1.1 hst.1, _, ?_, Or.inl errorOnce_single⟩
          show (settle_idle env _).2.published ++ _ = _
          rw [hp]
        · exact absurd hz hr
      · rename_i hr
        rcases hst.2 with ⟨hnz, _⟩ | ⟨_, hp, hok⟩
        · exact absurd hnz hr
        · have hcalls := callsOk_trans env _ _ _ (hc1.2.2 h0') hok
          rcases hp with hp | hp
          · exact ⟨Nat.le_trans hc1.1 hst.1, [], by rw [hp]; simp, Or.inr ⟨rfl, hcalls⟩⟩
          · exact ⟨Nat.le_trans hc1.1 hst.1, _, hp, Or.inr ⟨rfl, hcalls⟩⟩

theorem scan_outcome (env : Env) (w : World) : OpOutcome env w (matrix_scan_fn env w) := by
  have hs := sample_calls env w.gpio
  by_cases h : (sample env w.gpio).1 = 0
  · rw [matrix_scan_fn_eq env w h]
    obtain ⟨hl, new, hp, hor⟩ := scan_finish_outcome env (scan_commit env w)
      (any_set (sample env w.gpio).2.1 (List.range col_pin.length))
    refine ⟨Nat.le_trans hs.1 hl, diff_events (sample env w.gpio).2.1 w.old_state
      (List.range col_pin.length) ++ new, ?_, ?_⟩
    · rw [hp, ← List.append_assoc]
      rfl
    · rcases hor with h1 | ⟨h1, h2⟩
      · exact Or.inl (errorOnce_append_left _ _ (count_status_diff_events _ _ _ _) h1)
      · refine Or.inr ⟨?_, callsOk_trans env _ _ _ (hs.2.2 h) h2⟩
        rw [List.count_append, count_status_diff_events, h1]
  · rw [scan_fail_sample env w h]
    exact ⟨hs.1, _, rfl, Or.inl errorOnce_single⟩

theorem resume_outcome (env : Env) (w : World) : OpOutcome env w (resume env w) := by
  have hc := callback_ctrl_calls env false w.gpio
  have ht := set_trig_mode_calls env GpioFlag.GPIO_INT_EDGE (callback_ctrl env false w.gpio).2
  have hsc := scan_outcome env (resume_pre env w)
  unfold resume
  dsimp only
  split
  · exact opOutcome_refl env w
  · split
    · exact ⟨hc.1, _, rfl, Or.inl errorOnce_single⟩
    · rename_i h0
      have h0' := Decidable.not_not.mp h0
      split
      · exact ⟨Nat.le_trans hc.1 ht.1, _, rfl, Or.inl errorOnce_single⟩
      · rename_i h1
        have h1' := Decidable.not_not.mp h1
        obtain ⟨hl, new, hp, hor⟩ := hsc
        have hl2 : (resume_pre env w).gpio.log.length ≤
            (matrix_scan_fn env (resume_pre env w)).gpio.log.length := hl
        have hp2 : (matrix_scan_fn env (resume_pre env w)).published = w.published ++ new := hp
        refine ⟨Nat.le_trans hc.1 (Nat.le_trans ht.1 hl2),
          new ++ [Event.module_state_event ModuleState.MODULE_STATE_READY], ?_, ?_⟩
        · show (matrix_scan_fn env (resume_pre env w)).published ++ _ = _
          rw [hp2, List.append_assoc]
        · rcases hor with h2 | ⟨h2, h3⟩
          · exact Or.inl (errorOnce_append_right _ _ rfl rfl h2)
          · refine Or.inr ⟨?_, ?_⟩
            · rw [List.count_append, h2]
              rfl
            · exact callsOk_trans env _ _ _ (hc.2 h0')
                (callsOk_trans env _ _ _ (ht.2 h1') h3)

theorem power_down_outcome (env : Env) (w : World)
    (h1 : (suspend env w).1 ≠ -EBUSY) (h2 : (suspend env w).1 ≠ -EALREADY) :
    OpOutcome env w (event_handler env w Incoming.power_down_event).2 := by
  have hsn := suspend_nolock_outcome env w
  have hpub : (suspend env w).2.published = w.published := hsn.2.1
  unfold event_handler
  dsimp only
  split
  · rename_i h0
    refine ⟨hsn.1, [Event.module_state_event ModuleState.MODULE_STATE_STANDBY], ?_,
      Or.inr ⟨rfl, hsn.2.2 h0⟩⟩
    show (suspend env w).2.published ++ _ = _
    rw [hpub]
  · refine ⟨hsn.1, [Event.module_state_event ModuleState.MODULE_STATE_ERROR], ?_,
      Or.inl errorOnce_single⟩
    show (suspend env w).2.published ++ _ = _
    rw [hpub]

theorem init_fn_outcome (env : Env) (w : World) (hb : env.binding = true) :
    OpOutcome env w (init_fn env w) := by
  have hc := init_cols_loop_calls env (List.range col_pin.length) w.gpio
  have ht := set_trig_mode_calls env GpioFlag.GPIO_INT_EDGE
    (init_cols_loop env (List.range col_pin.length) w.gpio).2
  have hd := init_rows_loop_calls env (List.range row_pin.length)
    (set_trig_mode env GpioFlag.GPIO_INT_EDGE
      (init_cols_loop env (List.range col_pin.length) w.gpio).2).2 0
  have ha := gpio_add_callback_calls env
    (init_rows_loop env (List.range row_pin.length)
      (set_trig_mode env GpioFlag.GPIO_INT_EDGE
        (init_cols_loop env (List.range col_pin.length) w.gpio).2).2 0).2.2
    (init_rows_loop env (List.range row_pin.length)
      (set_trig_mode env GpioFlag.GPIO_INT_EDGE
        (init_cols_loop env (List.range col_pin.length) w.gpio).2).2 0).2.1
  unfold init_fn
  dsimp only
  split
  · rename_i hf
    rw [hb] at hf
    cases hf
  · split
    · exact ⟨hc.1, _, rfl, Or.inl errorOnce_single⟩
    · rename_i h0
      have h0' := Decidable.not_not.mp h0
      split
      · exact ⟨Nat.le_trans hc.1 ht.1, _, rfl, Or.inl errorOnce_single⟩
      · rename_i h1
        have h1' := Decidable.not_not.mp h1
        split
        · exact ⟨Nat.le_trans hc.1 (Nat.le_trans ht.1 hd.1), _, rfl, Or.inl errorOnce_single⟩
        · rename_i h2
          have h2' := Decidable.not_not.mp h2
          split
          · exact ⟨Nat.le_trans hc.1 (Nat.le_trans ht.1 (Nat.le_trans hd.1 ha.1)), _, rfl,
              Or.inl errorOnce_single⟩
          · rename_i h3
            have h3' := Decidable.not_not.mp h3
            have hcalls := callsOk_trans env _ _ _ (hc.2 h0')
              (callsOk_trans env _ _ _ (ht.2 h1')
                (callsOk_trans env _ _ _ (hd.2 h2') (ha.2 h3')))
            have hlen := Nat.le_trans hc.1 (Nat.le_trans ht.1 (Nat.le_trans hd.1 ha.1))
            generalize (gpio_add_callback env
              (init_rows_loop env (List.range row_pin.length)
                (set_trig_mode env GpioFlag.GPIO_INT_EDGE
                  (init_cols_loop env (List.range col_pin.length) w.gpio).2).2 0).2.2
              (init_rows_loop env (List.range row_pin.length)
                (set_trig_mode env GpioFlag.GPIO_INT_EDGE
                  (init_cols_loop env (List.range col_pin.length) w.gpio).2).2 0).2.1).2 = G
              at hcalls hlen ⊢
            obtain ⟨hl, new, hp, hor⟩ := scan_outcome env
              { module_set_state ModuleState.MODULE_STATE_READY
                  { w with gpio_dev := env.binding, gpio := G } with
                state := State.STATE_SCANNING }
            refine ⟨Nat.le_trans hlen hl,
              Event.module_state_event ModuleState.MODULE_STATE_READY :: new, ?_, ?_⟩
            · rw [hp]
              simp [module_set_state, EVENT_SUBMIT]
            · rcases hor with h4 | ⟨h4, h5⟩
              · exact Or.inl (errorOnce_append_left
                  [Event.module_state_event ModuleState.MODULE_STATE_READY] new rfl h4)
              · refine Or.inr ⟨?_, callsOk_trans env _ _ _ hcalls h5⟩
                rw [List.count_cons, h4]
                rfl

/-! ## Column levels and the order of the calls of a scan -/

theorem set_cols_loop_log (env : Env) (hok : ∀ n, env.fault n = 0) (mask : Nat)
    (is : List Nat) :
    ∀ g : Gpio, (set_cols_loop env mask is g).2.log =
      g.log ++ is.map fun k =>
        GpioCall.pin_write (col_pin.getD k 0) (if mask &&& (1 <<< k) ≠ 0 then 1 else 0) := by
  induction is with
  | nil => intro g; simp [set_cols_loop]
  | cons i rest ih =>
    intro g
    simp only [set_cols_loop, gpio_pin_write, hok, if_true, ne_eq, not_true_eq_false, if_false]
    rw [ih]
    simp

theorem set_cols_log (env : Env) (hok : ∀ n, env.fault n = 0) (mask : Nat) (g : Gpio) :
    (set_cols env mask g).2.log = g.log ++ col_writes mask :=
  set_cols_loop_log env hok mask _ g

theorem get_rows_loop_log (env : Env) (hok : ∀ n, env.fault n = 0) (is : List Nat) :
    ∀ (g : Gpio) (m : Nat), (get_rows_loop env is g m).2.2.log =
      g.log ++ is.map fun k => GpioCall.pin_read (row_pin.getD k 0) := by
  induction is with
  | nil => intro g m; simp [get_rows_loop]
  | cons i rest ih =>
    intro g m
    simp only [get_rows_loop, gpio_pin_read, hok, if_true, ne_eq, not_true_eq_false, if_false]
    rw [ih]
    simp

theorem get_rows_log (env : Env) (hok : ∀ n, env.fault n = 0) (g : Gpio) (m : Nat) :
    (get_rows env g m).2.2.log = g.log ++ row_reads :=
  get_rows_loop_log env hok _ g m

theorem sample_loop_log (env : Env) (hok : ∀ n, env.fault n = 0) (is : List Nat) :
    ∀ (g : Gpio) (cur : List Nat), (sample_loop env is g cur).2.2.log =
      g.log ++ is.flatMap fun c => col_writes (1 <<< c) ++ row_reads := by
  induction is with
  | nil => intro g cur; simp [sample_loop]
  | cons i rest ih =>
    intro g cur
    have hs := set_cols_ok env hok (1 <<< i) g
    have hg := get_rows_loop_ok env hok (List.range col_pin.length)
      (set_cols env (1 <<< i) g).2 (cur.getD i 0)
    simp only [sample_loop, hs.1, if_true]
    simp only [get_rows, hg.1, ne_eq, not_true_eq_false, if_false]
    rw [ih]
    have hl := get_rows_log env hok (set_cols env (1 <<< i) g).2 (cur.getD i 0)
    simp only [get_rows] at hl
    rw [hl, set_cols_log env hok]
    simp [List.flatMap_cons, List.append_assoc]

theorem col_writes_onehot : ∀ c < 4, col_writes (1 <<< c) =
    (List.range 4).map fun k => GpioCall.pin_write (col_pin.getD k 0) (if k = c then 1 else 0) := by
  decide

theorem col_writes_low : col_writes 0x00 = col_pin.map fun p => GpioCall.pin_write p 0 := by
  decide

theorem col_writes_high : col_writes 0xFF = col_pin.map fun p => GpioCall.pin_write p 1 := by
  decide

theorem row_reads_eq : row_reads = row_pin.map GpioCall.pin_read := by
  decide

/-- The calls of the sampling phase, in order: for each column, drive exactly
that column high, then read the four rows. -/
theorem sample_log (env : Env) (hok : ∀ n, env.fault n = 0) (g : Gpio) :
    (sample env g).2.2.log =
      g.log ++ (List.range 4).flatMap fun c =>
        ((List.range 4).map fun k =>
          GpioCall.pin_write (col_pin.getD k 0) (if k = c then 1 else 0)) ++
        row_pin.map GpioCall.pin_read := by
  unfold sample
  rw [sample_loop_log env hok]
  congr 1

theorem set_cols_out (env : Env) (hok : ∀ n, env.fault n = 0) (g : Gpio) :
    (∀ p ∈ col_pin, (set_cols env 0x00 g).2.out p = 0) ∧
    (∀ p ∈ col_pin, (set_cols env 0xFF g).2.out p = 1) := by
  have hr : List.range col_pin.length = [0, 1, 2, 3] := rfl
  have e0 : (255 : Nat) &&& (1 <<< 0) ≠ 0 := by decide
  have e1 : (255 : Nat) &&& (1 <<< 1) ≠ 0 := by decide
  have e2 : (255 : Nat) &&& (1 <<< 2) ≠ 0 := by decide
  have e3 : (255 : Nat) &&& (1 <<< 3) ≠ 0 := by decide
  unfold set_cols
  rw [hr]
  constructor
  · intro p hp
    simp only [col_pin, List.mem_cons, List.mem_singleton, List.not_mem_nil, or_false] at hp
    rcases hp with h | h | h | h <;> subst h <;>
      simp [set_cols_loop, gpio_pin_write, hok, col_pin]
  · intro p hp
    simp only [col_pin, List.mem_cons, List.mem_singleton, List.not_mem_nil, or_false] at hp
    rcases hp with h | h | h | h <;> subst h <;>
      simp [set_cols_loop, gpio_pin_write, hok, col_pin, e0, e1, e2, e3]

theorem word_zero_of_bits : ∀ x < 16, (∀ r, r < 4 → x.testBit r = false) → x = 0 := by
  decide

/-- A sampled snapshot has no bit set exactly when it is the zero snapshot. -/
theorem wellFormed_zero_iff (snap : List Nat) (h : WellFormed snap) :
    snap = [0, 0, 0, 0] ↔ ∀ c, c < 4 → ∀ r, r < 4 → snapBit snap c r = false := by
  obtain ⟨a0, a1, a2, a3, rfl, h0, h1, h2, h3⟩ := wellFormed_cases snap h
  constructor
  · intro he c _ r _
    rw [he]
    exact snapBit_zero c r
  · intro hb
    have z0 := word_zero_of_bits a0 h0 (fun r hr => hb 0 (by decide) r hr)
    have z1 := word_zero_of_bits a1 h1 (fun r hr => hb 1 (by decide) r hr)
    have z2 := word_zero_of_bits a2 h2 (fun r hr => hb 2 (by decide) r hr)
    have z3 := word_zero_of_bits a3 h3 (fun r hr => hb 3 (by decide) r hr)
    rw [z0, z1, z2, z3]

theorem set_cols_fst (env : Env) (hok : ∀ n, env.fault n = 0) (mask : Nat) (g : Gpio) :
    (set_cols env mask g).1 = 0 :=
  (set_cols_ok env hok mask g).1

theorem get_rows_fst (env : Env) (hok : ∀ n, env.fault n = 0) (g : Gpio) (m : Nat) :
    (get_rows env g m).1 = 0 :=
  (get_rows_loop_ok env hok _ g m).1

theorem bits_of_reads : ∀ b0 b1 b2 b3 : Bool, ∀ r < 4,
    ((((0 ||| ((if b0 = true then 1 else 0) <<< 0)) ||| ((if b1 = true then 1 else 0) <<< 1)) |||
      ((if b2 = true then 1 else 0) <<< 2)) ||| ((if b3 = true then 1 else 0) <<< 3)).testBit r =
      [b0, b1, b2, b3].getD r false := by
  decide

/-- With every call succeeding, bit r of the word get_rows builds from zero is
the level seen by its read number r. -/
theorem get_rows_bits (env : Env) (hok : ∀ n, env.fault n = 0) (g : Gpio) (r : Nat)
    (hr : r < 4) :
    ((get_rows env g 0).2.1).testBit r = env.level (g.log.length + r) (row_pin.getD r 0) := by
  have hrg : List.range col_pin.length = [0, 1, 2, 3] := rfl
  have hv : (get_rows env g 0).2.1 =
      (((0 ||| ((if env.level g.log.length 29 = true then 1 else 0) <<< 0)) |||
        ((if env.level (g.log.length + 1) 31 = true then 1 else 0) <<< 1)) |||
        ((if env.level (g.log.length + 2) 22 = true then 1 else 0) <<< 2)) |||
        ((if env.level (g.log.length + 3) 24 = true then 1 else 0) <<< 3) := by
    unfold get_rows
    rw [hrg]
    simp [get_rows_loop, gpio_pin_read, hok, row_pin]
  rw [hv, bits_of_reads _ _ _ _ r hr]
  interval_cases r <;> rfl

theorem sample_loop_cons_ok (env : Env) (hok : ∀ n, env.fault n = 0) (i : Nat)
    (rest : List Nat) (g : Gpio) (cur : List Nat) :
    sample_loop env (i :: rest) g cur =
      sample_loop env rest (get_rows env (set_cols env (1 <<< i) g).2 (cur.getD i 0)).2.2
        (cur.set i (get_rows env (set_cols env (1 <<< i) g).2 (cur.getD i 0)).2.1) := by
  simp only [sample_loop, set_cols_fst env hok, get_rows_fst env hok, if_true, ne_eq,
    not_true_eq_false, if_false]

theorem set_cols_log_length (env : Env) (hok : ∀ n, env.fault n = 0) (mask : Nat) (g : Gpio) :
    (set_cols env mask g).2.log.length = g.log.length + 4 := by
  rw [set_cols_log env hok]
  simp [col_writes, col_pin]

theorem get_rows_log_length (env : Env) (hok : ∀ n, env.fault n = 0) (g : Gpio) (m : Nat) :
    (get_rows env g m).2.2.log.length = g.log.length + 4 := by
  rw [get_rows_log env hok]
  simp [row_reads, col_pin]

/-- With every call succeeding, bit (c, r) of the sampled snapshot is the level
seen by the read of row r made after column c alone was driven high: call
number 8c + 4 + r of the scan. -/
theorem sample_bits (env : Env) (hok : ∀ n, env.fault n = 0) (g : Gpio) (c r : Nat)
    (hc : c < 4) (hr : r < 4) :
    snapBit (sample env g).2.1 c r =
      env.level (g.log.length + 8 * c + 4 + r) (row_pin.getD r 0) := by
  have hrg : List.range col_pin.length = [0, 1, 2, 3] := rfl
  have hrep : List.replicate col_pin.length 0 = [0, 0, 0, 0] := rfl
  unfold sample snapBit
  rw [hrg, hrep, sample_loop_cons_ok env hok, sample_loop_cons_ok env hok,
    sample_loop_cons_ok env hok, sample_loop_cons_ok env hok]
  simp only [sample_loop, List.set_cons_zero, List.set_cons_succ, List.getD_cons_zero,
    List.getD_cons_succ]
  interval_cases c
  · simp only [List.getD_cons_zero]
    rw [get_rows_bits env hok _ r hr, set_cols_log_length env hok]
  · simp only [List.getD_cons_succ, List.getD_cons_zero]
    rw [get_rows_bits env hok _ r hr, set_cols_log_length env hok,
      get_rows_log_length env hok, set_cols_log_length env hok]
  · simp only [List.getD_cons_succ, List.getD_cons_zero]
    rw [get_rows_bits env hok _ r hr, set_cols_log_length env hok,
      get_rows_log_length env hok, set_cols_log_length env hok,
      get_rows_log_length env hok, set_cols_log_length env hok]
  · simp only [List.getD_cons_succ, List.getD_cons_zero]
    rw [get_rows_bits env hok _ r hr, set_cols_log_length env hok,
      get_rows_log_length env hok, set_cols_log_length env hok,
      get_rows_log_length env hok, set_cols_log_length env hok,
      get_rows_log_length env hok, set_cols_log_length env hok]

/-! ## The key identifier in the loops of the scan -/

/-- Membership in the list of events the specification asks of one scan. -/
theorem mem_spec_scan_events (prev cur : List Nat) (k : Nat) (p : Bool) :
    (k, p) ∈ spec_scan_events prev cur ↔
      ∃ c, c < 4 ∧ ∃ r, r < 4 ∧ snapBit cur c r ≠ snapBit prev c r ∧
        k = (c <<< 8) ||| r ∧ p = snapBit cur c r := by
  unfold spec_scan_events
  simp only [List.mem_flatMap, List.mem_filterMap, List.mem_range]
  constructor
  · rintro ⟨c, hc, r, hr, h⟩
    split at h
    · rename_i hne
      cases h
      exact ⟨c, hc, r, hr, hne, rfl, rfl⟩
    · cases h
  · rintro ⟨c, hc, r, hr, hne, hk, hp⟩
    refine ⟨c, hc, r, hr, ?_⟩
    rw [if_pos hne, hk, hp]

/-! ## Row callbacks in Idle -/

theorem module_set_state_state (s : ModuleState) (w : World) :
    (module_set_state s w).state = w.state := rfl

/-- With every call succeeding resume never ends in Idle. -/
theorem resume_state_not_idle (env : Env) (hok : ∀ n, env.fault n = 0) (w : World) :
    (resume env w).state ≠ State.STATE_IDLE := by
  by_cases hw : w.state = State.STATE_IDLE
  · have heq : resume env w =
        module_set_state ModuleState.MODULE_STATE_READY
          (matrix_scan_fn env (resume_pre env w)) :=
      resume_idle env hok w hw
    rw [heq, module_set_state_state]
    intro h3
    cases hany : any_set (sample env (resume_pre env w).gpio).2.1 (List.range col_pin.length)
    · rw [scan_ok_scanning env hok (resume_pre env w) hany rfl] at h3
      cases h3
    · rw [scan_ok_pressed env hok (resume_pre env w) hany] at h3
      cases h3
  · rw [resume_not_idle env w hw]
    exact hw

/-- With every call succeeding, a step that ends in Idle leaves the row
callbacks enabled exactly when it entered Idle from another state, or they
were enabled before and the step was not a row interrupt. -/
theorem idle_armed_step (env : Env) (hok : ∀ n, env.fault n = 0) (w w2 : World) (i : Input)
    (h : DriverInv w) (hs : step env w i = some w2) (h2 : w2.state = State.STATE_IDLE) :
    rows_armed w2 ↔ (w.state ≠ State.STATE_IDLE ∨ (rows_armed w ∧ i ≠ Input.row_irq)) := by
  have hinv2 := step_inv env hok w w2 i hs h
  cases i with
  | row_irq =>
    simp only [step] at hs
    split at hs
    · cases hs
      cases hw : w.state
      · have hd : rows_disarmed (button_pressed env w) := by
          rw [button_pressed_idle env w hw]
          intro p hp
          exact (button_pressed_loop_ok env hok w.gpio).1 p hp
        constructor
        · intro ha
          exact absurd hd (fun hd => not_armed_and_disarmed _ ha hd)
        · rintro (h3 | h3)
          · exact absurd rfl h3
          · exact absurd rfl h3.2
      · rw [button_pressed_active env w hw] at h2
        cases h2
      · simp [button_pressed, hw] at h2
      · simp [button_pressed, hw] at h2
    · cases hs
  | scan_work =>
    simp only [step] at hs
    split at hs
    · rename_i d hp
      cases hs
      have hst : w.state = State.STATE_SCANNING ∨ w.state = State.STATE_SUSPENDING := by
        cases hw : w.state
        · have := (h.2.2.1 hw).1
          rw [hp] at this
          cases this
        · have := (h.2.1 hw).2
          rw [hp] at this
          cases this
        · exact Or.inl rfl
        · exact Or.inr rfl
      have ha := (matrix_scan_fn_inv env hok { w with pending := none } hst
        (h.2.2.2 hst).1 rfl h.1).2 h2
      constructor
      · intro _
        left
        intro hi
        rcases hst with h3 | h3 <;> rw [hi] at h3 <;> cases h3
      · intro _
        exact ha
    · cases hs
  | power_down =>
    simp only [step] at hs
    cases hs
    cases hw : w.state
    · unfold event_handler
      rw [suspend_idle env w hw]
      have hne : (-EALREADY : Int) ≠ 0 := by decide
      simp only [if_neg hne, if_true]
      constructor
      · intro ha
        exact Or.inr ⟨ha, by decide⟩
      · rintro (h3 | h3)
        · exact absurd rfl h3
        · exact h3.1
    · constructor
      · intro _
        left
        simp
      · intro _
        unfold event_handler
        rw [suspend_active env hok w hw]
        simp only [if_true]
        intro p hp
        exact (callback_ctrl_ok env hok true _).2.1 p hp
    · unfold event_handler at h2
      rw [suspend_scanning env w hw] at h2
      have hne : (-EBUSY : Int) ≠ 0 := by decide
      have hne2 : (-EBUSY : Int) ≠ -EALREADY := by decide
      simp only [if_neg hne, if_neg hne2, if_true] at h2
      cases h2
    · unfold event_handler at h2
      rw [suspend_suspending env w hw] at h2
      have hne : (-EBUSY : Int) ≠ 0 := by decide
      have hne2 : (-EBUSY : Int) ≠ -EALREADY := by decide
      simp only [if_neg hne, if_neg hne2, if_true] at h2
      rw [hw] at h2
      cases h2
  | wake_up =>
    simp only [step] at hs
    cases hs
    have he : (event_handler env w Incoming.wake_up_event).2 = resume env w := rfl
    rw [he] at h2
    exact absurd h2 (resume_state_not_idle env hok w)

/-- The history observation tracks the row callbacks along every run. -/
theorem run_irq_since_idle (env : Env) (hok : ∀ n, env.fault n = 0) (inputs : List Input) :
    ∀ (w : World) (b : Bool) (w2 : World), run env w inputs = some w2 → DriverInv w →
      (w.state = State.STATE_IDLE → (rows_armed w ↔ b = false)) →
      (w2.state = State.STATE_IDLE →
        (rows_armed w2 ↔ irq_since_idle env w b inputs = false)) := by
  induction inputs with
  | nil =>
    intro w b w2 hr _ hb
    cases hr
    exact hb
  | cons i rest ih =>
    intro w b w2 hr h hb
    unfold run at hr
    unfold irq_since_idle
    split at hr
    · rename_i w1 hs
      refine ih w1 _ w2 hr (step_inv env hok w w1 i hs h) ?_
      intro h1
      rw [idle_armed_step env hok w w1 i h hs h1]
      by_cases hw : w.state = State.STATE_IDLE
      · have hb2 := hb hw
        simp only [hw, h1, decide_True, Bool.true_and, ne_eq, not_true_eq_false, false_or,
          Bool.or_eq_false_iff, decide_eq_false_iff_not]
        rw [hb2]
      · simp [hw]
    · cases hr

/-- A successful init does not end in Idle. -/
theorem init_world_not_idle (env : Env) (hok : AllOk env) :
    (init_world env).state ≠ State.STATE_IDLE := by
  rw [init_world_pre env hok]
  intro h
  cases hany : any_set (sample env (init_pre env).gpio).2.1 (List.range col_pin.length)
  · rw [scan_ok_scanning env hok.2 (init_pre env) hany rfl] at h
    cases h
  · rw [scan_ok_pressed env hok.2 (init_pre env) hany] at h
    cases h

/-- A row interrupt taken between the return of suspend and the STANDBY
publication of the power-down handler: the state is Idle, the row callbacks
are disabled, and the publications end with the wake-up and then STANDBY. -/
theorem suspend_then_irq (env : Env) (hok : ∀ n, env.fault n = 0) (w : World)
    (hs : w.state = State.STATE_ACTIVE) :
    (suspend env w).1 = 0 ∧
    rows_armed (suspend env w).2 ∧
    (module_set_state ModuleState.MODULE_STATE_STANDBY
      (button_pressed env (suspend env w).2)).state = State.STATE_IDLE ∧
    rows_disarmed (module_set_state ModuleState.MODULE_STATE_STANDBY
      (button_pressed env (suspend env w).2)) ∧
    (module_set_state ModuleState.MODULE_STATE_STANDBY
      (button_pressed env (suspend env w).2)).published =
        w.published ++ [Event.wake_up_event,
          Event.module_state_event ModuleState.MODULE_STATE_STANDBY] := by
  have hsu := suspend_active env hok w hs
  have hi : (suspend env w).2.state = State.STATE_IDLE := by rw [hsu]
  have hp : (suspend env w).2.published = w.published := by rw [hsu]
  refine ⟨by rw [hsu], ?_, ?_, ?_, ?_⟩
  · rw [hsu]
    intro p hp
    exact (callback_ctrl_ok env hok true _).2.1 p hp
  · rw [module_set_state_state, button_pressed_idle env _ hi]
    exact hi
  · rw [button_pressed_idle env _ hi]
    intro p hp
    exact (button_pressed_loop_ok env hok _).1 p hp
  · rw [button_pressed_idle env _ hi]
    simp [module_set_state, EVENT_SUBMIT, hp]

/-! ## C1 -/

/-- C1: for every previous snapshot (the stored old_state of any world) and
every successfully sampled current snapshot, the publications of one run of
matrix_scan_fn extend what was on the bus, and the button events among the
added publications are exactly the list, in column-major, row-minor order over
c and r in [0,4), of the positions whose current bit differs from the previous
bit, each with key_id = (c<<8)|r and pressed = the current bit. -/
theorem C1_scan_emits_exactly_the_changes (env : Env) (w : World)
    (h : (sample env w.gpio).1 = 0) :
    (matrix_scan_fn env w).published.take w.published.length = w.published ∧
    buttonEvents (published_since w.published.length (matrix_scan_fn env w)) =
      spec_scan_events w.old_state (sample env w.gpio).2.1 :=
  scan_button_events env w h

/-- C1 at a concrete input: from reset, with the key at column 0, row 1 held. -/
theorem C1_scan_emits_exactly_the_changes_witness :
    (sample (env_key 5) boot.gpio).1 = 0 ∧
    buttonEvents (published_since boot.published.length (matrix_scan_fn (env_key 5) boot)) =
      spec_scan_events boot.old_state (sample (env_key 5) boot.gpio).2.1 :=
  ⟨by decide, (C1_scan_emits_exactly_the_changes (env_key 5) boot (by decide)).2⟩

/-! ## C2 -/

/-- C2: (1) in a sequence of consecutive scans whose samplings all succeed with
one and the same snapshot, every scan after the first publishes no button
event; (2) if key (c, r) is stored as released, is then sampled pressed by p
consecutive scans (p at least 1) and released by the next q scans (q at least
1), the events published for its key_id over these p + q scans are exactly one
pressed event followed by one released event, the pressed one coming from the
first scan that samples it pressed and the released one from the first scan
that samples it released. -/
theorem C2_no_repeated_events (env : Env) (w : World) :
    (∀ cur n, (∀ k ≤ n, (sample env (scans env w k).gpio).1 = 0 ∧
        (sample env (scans env w k).gpio).2.1 = cur) →
      ∀ k, 1 ≤ k → k ≤ n →
        buttonEvents (published_since (scans env w k).published.length
          (scans env w (k + 1))) = []) ∧
    (∀ c r p q, c < 4 → r < 4 → 1 ≤ p → 1 ≤ q → snapBit w.old_state c r = false →
      (∀ k < p + q, (sample env (scans env w k).gpio).1 = 0 ∧
        snapBit (sample env (scans env w k).gpio).2.1 c r = decide (k < p)) →
      key_events ((c <<< 8) ||| r)
          (buttonEvents (published_since w.published.length (scans env w (p + q)))) =
        [((c <<< 8) ||| r, true), ((c <<< 8) ||| r, false)] ∧
      key_events ((c <<< 8) ||| r)
          (buttonEvents (published_since w.published.length (scans env w 1))) =
        [((c <<< 8) ||| r, true)] ∧
      key_events ((c <<< 8) ||| r)
          (buttonEvents (published_since (scans env w p).published.length
            (scans env w (p + 1)))) =
        [((c <<< 8) ||| r, false)]) := by
  constructor
  · intro cur n h k hk1 hkn
    obtain ⟨j, rfl⟩ : ∃ j, k = j + 1 := ⟨k - 1, by omega⟩
    have hj := h j (by omega)
    have hk := h (j + 1) hkn
    have hold : (scans env w (j + 1)).old_state = cur := by
      show (matrix_scan_fn env (scans env w j)).old_state = cur
      rw [(matrix_scan_fn_ok env (scans env w j) hj.1).1, hj.2]
    have hs := (scan_button_events env (scans env w (j + 1)) hk.1).2
    rw [hold, hk.2, spec_scan_events_self] at hs
    exact hs
  · intro c r p q hc hr hp hq hw h
    have hP := key_events_uniform env w c r hc hr true p (fun k hk => by
      have := h k (by omega)
      simpa [hk] using this)
    have hQ := key_events_uniform env (scans env w p) c r hc hr false q (fun k hk => by
      have := h (p + k) (by omega)
      rw [scans_add] at this
      simpa using this)
    have hbit : snapBit (scans env w p).old_state c r = true := hP.2 (by omega)
    have h1 := key_events_uniform env w c r hc hr true 1 (fun k hk => by
      have := h k (by omega)
      have hkp : k < p := by omega
      simpa [hkp] using this)
    have hQ1 := key_events_uniform env (scans env w p) c r hc hr false 1 (fun k hk => by
      have := h (p + k) (by omega)
      rw [scans_add] at this
      simpa using this)
    refine ⟨?_, ?_, ?_⟩
    · have hsplit : published_since w.published.length (scans env w (p + q)) =
          published_since w.published.length (scans env w p) ++
            published_since (scans env w p).published.length (scans env (scans env w p) q) := by
        have e1 := scans_published_split env (scans env w p) q
        rw [scans_published_split env w p, List.append_assoc, ← scans_add] at e1
        rw [published_since_of_append _ _ _ e1, ← scans_published_split env w p, scans_add]
      rw [hsplit, buttonEvents_append, key_events_append, hP.1, hQ.1, hw, hbit]
      have hp0 : 0 < p := by omega
      have hq0 : 0 < q := by omega
      simp [hp0, hq0]
    · rw [h1.1, hw]
      simp
    · have e := hQ1.1
      rw [hbit] at e
      rw [scans_add]
      simpa using e

set_option maxRecDepth 100000

/-- C2 at concrete inputs: two quiet scans from reset, and the key at column 0,
row 1 held for one scan and released for the next. -/
theorem C2_no_repeated_events_witness :
    buttonEvents (published_since (scans env_quiet boot 1).published.length
      (scans env_quiet boot (1 + 1))) = [] ∧
    key_events ((0 <<< 8) ||| 1)
        (buttonEvents (published_since boot.published.length (scans (env_key 5) boot (1 + 1)))) =
      [((0 <<< 8) ||| 1, true), ((0 <<< 8) ||| 1, false)] :=
  ⟨(C2_no_repeated_events env_quiet boot).1 [0, 0, 0, 0] 1 (by decide) 1 (by decide) (by decide),
   ((C2_no_repeated_events (env_key 5) boot).2 0 1 1 1 (by decide) (by decide) (by decide)
      (by decide) (by decide) (by decide)).1⟩

/-! ## C3 -/

/-- C3: (1) in every world reached from power-on by the initialisation and any
sequence of driver steps, whatever the pin controller answers (failed calls and
aborted scans included), replaying all published button events in order on the
all-released snapshot gives exactly the stored previous snapshot; the same
holds after any number of scans run directly from power-on; (2) a scan whose
sampling succeeded leaves the sampled snapshot as the stored one; (3) a scan
whose sampling failed leaves the stored snapshot alone and publishes no button
event; (4) of two successive scans whose samplings succeed, the second
publishes exactly the transitions from the first sampled snapshot to the
second. -/
theorem C3_previous_tracks_published (env : Env) :
    (∀ inputs w, run env (init_world env) inputs = some w →
      replay [0, 0, 0, 0] (buttonEvents w.published) = w.old_state) ∧
    (∀ n, replay [0, 0, 0, 0] (buttonEvents (scans env boot n).published) =
      (scans env boot n).old_state) ∧
    (∀ w, (sample env w.gpio).1 = 0 →
      (matrix_scan_fn env w).old_state = (sample env w.gpio).2.1) ∧
    (∀ w, (sample env w.gpio).1 ≠ 0 →
      (matrix_scan_fn env w).old_state = w.old_state ∧
      buttonEvents (published_since w.published.length (matrix_scan_fn env w)) = []) ∧
    (∀ w, (sample env w.gpio).1 = 0 → (sample env (matrix_scan_fn env w).gpio).1 = 0 →
      buttonEvents (published_since (matrix_scan_fn env w).published.length
          (matrix_scan_fn env (matrix_scan_fn env w))) =
        spec_scan_events (sample env w.gpio).2.1 (sample env (matrix_scan_fn env w).gpio).2.1) := by
  refine ⟨?_, ?_, ?_, ?_, ?_⟩
  · intro inputs w hr
    exact (run_snapshotInv env inputs _ w hr (init_world_snapshotInv env)).2
  · intro n
    have h : SnapshotInv (scans env boot n) := by
      induction n with
      | zero =>
        have hb : SnapshotInv boot := ⟨⟨rfl, by decide⟩, rfl⟩
        exact hb
      | succ n ih => exact matrix_scan_fn_snapshotInv env _ ih
    exact h.2
  · intro w h
    exact (matrix_scan_fn_ok env w h).1
  · intro w h
    obtain ⟨ho, hp⟩ := matrix_scan_fn_fail env w h
    refine ⟨ho, ?_⟩
    rw [published_since_of_append _ _ _ hp]
    rfl
  · intro w h h2
    have e := (scan_button_events env (matrix_scan_fn env w) h2).2
    rw [(matrix_scan_fn_ok env w h).1] at e
    exact e

/-- C3 at a concrete run: the key at column 0, row 1 is held during the
initial scan and released at the next scheduled scan. -/
theorem C3_previous_tracks_published_witness :
    run (env_key 18) (init_world (env_key 18)) [Input.scan_work] =
      some (matrix_scan_fn (env_key 18) { init_world (env_key 18) with pending := none }) ∧
    replay [0, 0, 0, 0] (buttonEvents
        (matrix_scan_fn (env_key 18) { init_world (env_key 18) with pending := none }).published) =
      (matrix_scan_fn (env_key 18) { init_world (env_key 18) with pending := none }).old_state :=
  ⟨rfl, (C3_previous_tracks_published (env_key 18)).1 [Input.scan_work] _ rfl⟩

/-! ## C4 -/

/-- C4: every call of matrix_scan_fn records the state and the row callbacks
it finds on entry; in every world reached after a successful init by any
sequence of driver steps, with every pin controller call succeeding, each scan
that has run was entered with every row pin callback disabled and in state
Scanning or Suspending; and whenever a scan is pending (the only way the worker
enters matrix_scan_fn) every row callback is disabled and the state is
Scanning or Suspending. -/
theorem C4_scan_never_runs_with_armed_rows (env : Env) (hok : AllOk env) (w : World)
    (hr : Reachable env w) :
    (∀ w0, (matrix_scan_fn env w0).scan_entries =
      w0.scan_entries ++ [ScanEntry.mk w0.state (row_pin.any w0.gpio.cb)]) ∧
    (∀ e ∈ w.scan_entries, e.armed = false ∧
      (e.st = State.STATE_SCANNING ∨ e.st = State.STATE_SUSPENDING)) ∧
    (w.pending ≠ none → rows_disarmed w ∧
      (w.state = State.STATE_SCANNING ∨ w.state = State.STATE_SUSPENDING)) := by
  obtain ⟨he, hact, hidle, hscan⟩ := reachable_inv env hok w hr
  refine ⟨matrix_scan_fn_entries env, he, ?_⟩
  intro hp
  cases hs : w.state
  · exact absurd (hidle hs).1 hp
  · exact absurd (hact hs).2 hp
  · exact ⟨(hscan (Or.inl hs)).1, Or.inl rfl⟩
  · exact ⟨(hscan (Or.inr hs)).1, Or.inr rfl⟩

/-- C4 at a concrete run: init with a key held, a power-down request during
scanning, then two scheduled scans. -/
theorem C4_scan_never_runs_with_armed_rows_witness :
    AllOk (env_key 18) ∧
    Reachable (env_key 18)
      (world_after (env_key 18) [Input.power_down, Input.scan_work]) ∧
    (world_after (env_key 18) [Input.power_down, Input.scan_work]).scan_entries =
      [ScanEntry.mk State.STATE_SCANNING false, ScanEntry.mk State.STATE_SUSPENDING false] ∧
    EntriesOk (world_after (env_key 18) [Input.power_down, Input.scan_work]) :=
  ⟨⟨rfl, fun _ => rfl⟩, ⟨[Input.power_down, Input.scan_work], rfl⟩, rfl,
    (C4_scan_never_runs_with_armed_rows (env_key 18) ⟨rfl, fun _ => rfl⟩ _
      ⟨[Input.power_down, Input.scan_work], rfl⟩).2.1⟩

/-! ## C5 -/

/-- C5, counterexample to the claim as stated: after a successful init with no
key held, a power-down request and then a row interrupt, the state is Idle
while every row pin callback is disabled. -/
theorem C5_idle_with_disarmed_rows :
    AllOk env_quiet ∧
    Reachable env_quiet (world_after env_quiet [Input.power_down, Input.row_irq]) ∧
    (world_after env_quiet [Input.power_down, Input.row_irq]).state = State.STATE_IDLE ∧
    rows_disarmed (world_after env_quiet [Input.power_down, Input.row_irq]) ∧
    ¬ (rows_armed (world_after env_quiet [Input.power_down, Input.row_irq]) ↔
      ((world_after env_quiet [Input.power_down, Input.row_irq]).state = State.STATE_IDLE ∨
       (world_after env_quiet [Input.power_down, Input.row_irq]).state =
        State.STATE_ACTIVE)) := by
  have hd : rows_disarmed (world_after env_quiet [Input.power_down, Input.row_irq]) := by
    intro p hp
    simp only [row_pin, List.mem_cons, List.mem_singleton, List.not_mem_nil, or_false] at hp
    rcases hp with h | h | h | h <;> subst h <;> rfl
  refine ⟨⟨rfl, fun _ => rfl⟩, ⟨[Input.power_down, Input.row_irq], rfl⟩, rfl, hd, fun h => ?_⟩
  exact not_armed_and_disarmed _ (h.mpr (Or.inl rfl)) hd

/-- C5, amended: in every world reached after a successful init by any sequence
of driver steps, with every pin controller call succeeding, the row pin
callbacks are all enabled or all disabled; they are enabled exactly when the
state is Active, or the state is Idle and no row interrupt has been taken
since the state last became Idle; so they are enabled only in Idle or Active,
always in Active and never in Scanning or Suspending.  Step by step: a step
that ends in Idle leaves them enabled exactly when it entered Idle from
another state, or they were enabled before and the step was not a row
interrupt.  The statement reads only the state and the callbacks, which the
source changes only while it holds the lock; it does not depend on the order
of the publications: when a row interrupt is taken after suspend has returned
and before the power-down handler publishes STANDBY, the state is Idle with
the callbacks disabled while the publications end with the wake-up and then
STANDBY. -/
theorem C5_rows_armed_iff (env : Env) (hok : AllOk env) (inputs : List Input) (w : World)
    (hr : run env (init_world env) inputs = some w) :
    (rows_armed w ∨ rows_disarmed w) ∧
    (rows_armed w ↔ (w.state = State.STATE_ACTIVE ∨
      (w.state = State.STATE_IDLE ∧
        irq_since_idle env (init_world env) false inputs = false))) ∧
    (rows_armed w → w.state = State.STATE_IDLE ∨ w.state = State.STATE_ACTIVE) ∧
    (w.state = State.STATE_ACTIVE → rows_armed w) ∧
    (w.state = State.STATE_SCANNING ∨ w.state = State.STATE_SUSPENDING → rows_disarmed w) ∧
    (∀ i w2, step env w i = some w2 → w2.state = State.STATE_IDLE →
      (rows_armed w2 ↔
        (w.state ≠ State.STATE_IDLE ∨ (rows_armed w ∧ i ≠ Input.row_irq)))) ∧
    (w.state = State.STATE_ACTIVE →
      (suspend env w).1 = 0 ∧
      rows_armed (suspend env w).2 ∧
      (module_set_state ModuleState.MODULE_STATE_STANDBY
        (button_pressed env (suspend env w).2)).state = State.STATE_IDLE ∧
      rows_disarmed (module_set_state ModuleState.MODULE_STATE_STANDBY
        (button_pressed env (suspend env w).2)) ∧
      (module_set_state ModuleState.MODULE_STATE_STANDBY
        (button_pressed env (suspend env w).2)).published =
          w.published ++ [Event.wake_up_event,
            Event.module_state_event ModuleState.MODULE_STATE_STANDBY]) := by
  have hinv := reachable_inv env hok w ⟨inputs, hr⟩
  obtain ⟨he, hact, hidle, hscan⟩ := hinv
  have hg := run_irq_since_idle env hok.2 inputs (init_world env) false w hr
    (init_world_inv env hok) (fun h0 => absurd h0 (init_world_not_idle env hok))
  have key : rows_armed w ↔ (w.state = State.STATE_ACTIVE ∨
      (w.state = State.STATE_IDLE ∧
        irq_since_idle env (init_world env) false inputs = false)) := by
    constructor
    · intro ha
      cases hs : w.state
      · exact Or.inr ⟨rfl, (hg hs).mp ha⟩
      · exact Or.inl rfl
      · exact absurd (hscan (Or.inl hs)).1 (fun hd => not_armed_and_disarmed w ha hd)
      · exact absurd (hscan (Or.inr hs)).1 (fun hd => not_armed_and_disarmed w ha hd)
    · intro h
      rcases h with h | ⟨h, hl⟩
      · exact (hact h).1
      · exact (hg h).mpr hl
  refine ⟨?_, key, ?_, fun h => (hact h).1, fun h => (hscan h).1, ?_,
    suspend_then_irq env hok.2 w⟩
  · cases hs : w.state
    · rcases (hidle hs).2 with h | h
      · exact Or.inl h.1
      · exact Or.inr h.1
    · exact Or.inl (hact hs).1
    · exact Or.inr (hscan (Or.inl hs)).1
    · exact Or.inr (hscan (Or.inr hs)).1
  · intro ha
    rcases key.mp ha with h | h
    · exact Or.inr h
    · exact Or.inl h.1
  · intro i w2 hs h2
    exact idle_armed_step env hok.2 w w2 i ⟨he, hact, hidle, hscan⟩ hs h2

/-- C5 amended, at the run of the counterexample: after a power-down request
and a row interrupt the state is Idle and a row interrupt has been taken since
the state became Idle, which was not so before the row interrupt; and with the
row interrupt taken before the power-down handler publishes STANDBY the
publications are READY, wake-up, STANDBY. -/
theorem C5_rows_armed_iff_witness :
    AllOk env_quiet ∧
    run env_quiet (init_world env_quiet) [Input.power_down, Input.row_irq] =
      some (world_after env_quiet [Input.power_down, Input.row_irq]) ∧
    (world_after env_quiet [Input.power_down, Input.row_irq]).state = State.STATE_IDLE ∧
    irq_since_idle env_quiet (init_world env_quiet) false
      [Input.power_down, Input.row_irq] = true ∧
    irq_since_idle env_quiet (init_world env_quiet) false [Input.power_down] = false ∧
    (rows_armed (world_after env_quiet [Input.power_down, Input.row_irq]) ↔
      ((world_after env_quiet [Input.power_down, Input.row_irq]).state = State.STATE_ACTIVE ∨
       ((world_after env_quiet [Input.power_down, Input.row_irq]).state = State.STATE_IDLE ∧
        irq_since_idle env_quiet (init_world env_quiet) false
          [Input.power_down, Input.row_irq] = false))) ∧
    (module_set_state ModuleState.MODULE_STATE_STANDBY
      (button_pressed env_quiet (suspend env_quiet (init_world env_quiet)).2)).published =
        [Event.module_state_event ModuleState.MODULE_STATE_READY, Event.wake_up_event,
          Event.module_state_event ModuleState.MODULE_STATE_STANDBY] :=
  ⟨⟨rfl, fun _ => rfl⟩, rfl, rfl, rfl, rfl,
    (C5_rows_armed_iff env_quiet ⟨rfl, fun _ => rfl⟩ [Input.power_down, Input.row_irq] _
      rfl).2.1,
    ((C5_rows_armed_iff env_quiet ⟨rfl, fun _ => rfl⟩ [] (init_world env_quiet)
      rfl).2.2.2.2.2.2 rfl).2.2.2.2.trans rfl⟩

/-! ## C6 -/

/-- C6: in every world reached after a successful init by any sequence of
driver steps, with every pin controller call succeeding, observed between
steps, a delayed scan is pending if and only if the state is Scanning or
Suspending. -/
theorem C6_pending_iff_scanning (env : Env) (hok : AllOk env) (w : World)
    (hr : Reachable env w) :
    w.pending ≠ none ↔
      (w.state = State.STATE_SCANNING ∨ w.state = State.STATE_SUSPENDING) := by
  obtain ⟨he, hact, hidle, hscan⟩ := reachable_inv env hok w hr
  constructor
  · intro hp
    cases hs : w.state
    · exact absurd (hidle hs).1 hp
    · exact absurd (hact hs).2 hp
    · exact Or.inl rfl
    · exact Or.inr rfl
  · intro h
    exact (hscan h).2

/-- C6 at a concrete run: a key held during init, then a power-down request. -/
theorem C6_pending_iff_scanning_witness :
    AllOk (env_key 18) ∧
    Reachable (env_key 18) (world_after (env_key 18) [Input.power_down]) ∧
    ((world_after (env_key 18) [Input.power_down]).pending ≠ none ↔
      ((world_after (env_key 18) [Input.power_down]).state = State.STATE_SCANNING ∨
       (world_after (env_key 18) [Input.power_down]).state = State.STATE_SUSPENDING)) :=
  ⟨⟨rfl, fun _ => rfl⟩, ⟨[Input.power_down], rfl⟩,
    C6_pending_iff_scanning (env_key 18) ⟨rfl, fun _ => rfl⟩ _ ⟨[Input.power_down], rfl⟩⟩

/-! ## C7 -/

/-- C7: suspend called while the state is Idle returns -EALREADY (a nonzero
code) and leaves the whole world untouched: driver state, pin controller
(configuration, callbacks, outputs, call log), pending scan and publications;
the power-down handler then returns false and changes nothing either. -/
theorem C7_suspend_in_idle_is_noop (env : Env) (w : World) (hs : w.state = State.STATE_IDLE) :
    suspend env w = (-EALREADY, w) ∧ -EALREADY ≠ 0 ∧
    (suspend env w).2.state = State.STATE_IDLE ∧
    (suspend env w).2.gpio.log = w.gpio.log ∧
    (suspend env w).2.pending = w.pending ∧
    (suspend env w).2.published = w.published ∧
    event_handler env w Incoming.power_down_event = (false, w) := by
  have h := suspend_idle env w hs
  refine ⟨h, by decide, ?_, ?_, ?_, ?_, ?_⟩
  · rw [h]; exact hs
  · rw [h]
  · rw [h]
  · rw [h]
  · unfold event_handler
    rw [h]
    rfl

/-- C7 at a concrete world: the driver suspended from Active, asked again. -/
theorem C7_suspend_in_idle_is_noop_witness :
    (world_after env_quiet [Input.power_down]).state = State.STATE_IDLE ∧
    suspend env_quiet (world_after env_quiet [Input.power_down]) =
      (-EALREADY, world_after env_quiet [Input.power_down]) :=
  ⟨rfl, (C7_suspend_in_idle_is_noop env_quiet (world_after env_quiet [Input.power_down]) rfl).1⟩

/-! ## C8 -/

/-- C8: suspend in Scanning returns -EBUSY and only moves the state to
Suspending; suspend in Suspending returns -EBUSY and changes nothing.  With
every pin controller call succeeding, a scheduled scan run in Suspending: if
some key is sampled pressed, keeps the state Suspending, reschedules after
SCAN_INTERVAL and publishes only its change events (no STANDBY); if no key is
sampled pressed, publishes its change events followed by exactly one STANDBY
and ends in Idle with every row pin configured level-triggered, every row
callback enabled and no scan pending. -/
theorem C8_deferred_suspend (env : Env) (hok : ∀ n, env.fault n = 0) (w : World) :
    (w.state = State.STATE_SCANNING →
      suspend env w = (-EBUSY, { w with state := State.STATE_SUSPENDING })) ∧
    (w.state = State.STATE_SUSPENDING → suspend env w = (-EBUSY, w)) ∧
    (w.state = State.STATE_SUSPENDING → ∀ d, w.pending = some d →
      step env w Input.scan_work = some (matrix_scan_fn env { w with pending := none }) ∧
      ((∃ c, c < 4 ∧ ∃ r, r < 4 ∧ snapBit (sample env w.gpio).2.1 c r = true) →
        (matrix_scan_fn env { w with pending := none }).state = State.STATE_SUSPENDING ∧
        (matrix_scan_fn env { w with pending := none }).pending = some env.scan_interval ∧
        published_since w.published.length (matrix_scan_fn env { w with pending := none }) =
          diff_events (sample env w.gpio).2.1 w.old_state (List.range col_pin.length) ∧
        (published_since w.published.length
          (matrix_scan_fn env { w with pending := none })).count
            (Event.module_state_event ModuleState.MODULE_STATE_STANDBY) = 0) ∧
      ((∀ c, c < 4 → ∀ r, r < 4 → snapBit (sample env w.gpio).2.1 c r = false) →
        published_since w.published.length (matrix_scan_fn env { w with pending := none }) =
          diff_events (sample env w.gpio).2.1 w.old_state (List.range col_pin.length) ++
            [Event.module_state_event ModuleState.MODULE_STATE_STANDBY] ∧
        (published_since w.published.length
          (matrix_scan_fn env { w with pending := none })).count
            (Event.module_state_event ModuleState.MODULE_STATE_STANDBY) = 1 ∧
        (matrix_scan_fn env { w with pending := none }).state = State.STATE_IDLE ∧
        (∀ p ∈ row_pin, (matrix_scan_fn env { w with pending := none }).gpio.cfg p =
          some (row_flags GpioFlag.GPIO_INT_LEVEL)) ∧
        rows_armed (matrix_scan_fn env { w with pending := none }) ∧
        (matrix_scan_fn env { w with pending := none }).pending = none)) := by
  refine ⟨suspend_scanning env w, suspend_suspending env w, ?_⟩
  intro hs d hd
  have hsm := sample_ok env hok w.gpio
  have heq := matrix_scan_fn_eq env { w with pending := none } hsm.1
  refine ⟨by simp [step, hd], ?_, ?_⟩
  · intro hk
    have hany := (any_set_iff (sample env w.gpio).2.1).mpr hk
    rw [heq]
    have hany2 : any_set (sample env { w with pending := none }.gpio).2.1
        (List.range col_pin.length) = true := hany
    rw [hany2, scan_finish_pressed env hok]
    have hp : published_since w.published.length
        { scan_commit env { w with pending := none } with
          gpio := (set_cols env 0x00 (scan_commit env { w with pending := none }).gpio).2
          pending := some env.scan_interval } =
        diff_events (sample env w.gpio).2.1 w.old_state (List.range col_pin.length) :=
      published_since_of_append _ _ _ rfl
    refine ⟨hs, rfl, hp, ?_⟩
    rw [hp]
    exact count_status_diff_events _ _ _ _
  · intro hk
    have hany := (any_set_false_iff (sample env w.gpio).2.1).mpr hk
    rw [heq]
    have hany2 : any_set (sample env { w with pending := none }.gpio).2.1
        (List.range col_pin.length) = false := hany
    rw [hany2, scan_finish_suspending env hok (scan_commit env { w with pending := none }) hs]
    have hp : published_since w.published.length
        { scan_commit env { w with pending := none } with
          gpio := (callback_ctrl env true (set_trig_mode env GpioFlag.GPIO_INT_LEVEL
            (set_cols env 0xFF (scan_commit env { w with pending := none }).gpio).2).2).2
          state := State.STATE_IDLE
          published := (scan_commit env { w with pending := none }).published ++
            [Event.module_state_event ModuleState.MODULE_STATE_STANDBY] } =
        diff_events (sample env w.gpio).2.1 w.old_state (List.range col_pin.length) ++
          [Event.module_state_event ModuleState.MODULE_STATE_STANDBY] :=
      published_since_of_append _ _ _ (by simp [scan_commit])
    refine ⟨hp, ?_, rfl, ?_, ?_, rfl⟩
    · rw [hp, List.count_append, count_status_diff_events]
      rfl
    · intro p hpin
      show (callback_ctrl env true _).2.cfg p = _
      rw [(callback_ctrl_ok env hok true _).2.2.1]
      exact (set_trig_mode_ok env hok GpioFlag.GPIO_INT_LEVEL _).2.2.1 p hpin
    · exact (callback_ctrl_ok env hok true _).2.1

/-- C8 at a concrete run: a key is held during init, power-down arrives while
scanning, and the next scheduled scan sees the key released. -/
theorem C8_deferred_suspend_witness :
    (world_after (env_key 18) [Input.power_down]).state = State.STATE_SUSPENDING ∧
    (world_after (env_key 18) [Input.power_down]).pending = some 10 ∧
    (matrix_scan_fn (env_key 18)
      { world_after (env_key 18) [Input.power_down] with pending := none }).state =
        State.STATE_IDLE ∧
    (published_since (world_after (env_key 18) [Input.power_down]).published.length
      (matrix_scan_fn (env_key 18)
        { world_after (env_key 18) [Input.power_down] with pending := none })).count
          (Event.module_state_event ModuleState.MODULE_STATE_STANDBY) = 1 :=
  have h := ((C8_deferred_suspend (env_key 18) (fun _ => rfl)
    (world_after (env_key 18) [Input.power_down])).2.2 rfl 10 rfl).2.2 (by decide)
  ⟨rfl, rfl, h.2.2.1, h.2.1⟩

/-! ## C9 -/

/-- C9: suspend called while the state is Active, with every pin controller
call succeeding, returns 0 and sets the state to Idle; the calls it makes are
exactly: configure each row pin, in the order of row_pin, as pull-down input
with active-high level-triggered interrupt, then enable the callback of each
row pin in the same order.  Afterwards every row pin has that configuration
and its callback enabled; no scan is scheduled, nothing is published, no
output level changes and no column pin is reconfigured. -/
theorem C9_suspend_in_active (env : Env) (hok : ∀ n, env.fault n = 0) (w : World)
    (hs : w.state = State.STATE_ACTIVE) :
    (suspend env w).1 = 0 ∧
    (suspend env w).2.state = State.STATE_IDLE ∧
    (suspend env w).2.gpio.log =
      w.gpio.log ++
        row_pin.map (fun p => GpioCall.pin_configure p
          [GpioFlag.GPIO_PUD_PULL_DOWN, GpioFlag.GPIO_DIR_IN, GpioFlag.GPIO_INT,
            GpioFlag.GPIO_INT_ACTIVE_HIGH, GpioFlag.GPIO_INT_LEVEL]) ++
        row_pin.map GpioCall.pin_enable_callback ∧
    (∀ p ∈ row_pin, (suspend env w).2.gpio.cfg p = some (row_flags GpioFlag.GPIO_INT_LEVEL)) ∧
    rows_armed (suspend env w).2 ∧
    (suspend env w).2.pending = w.pending ∧
    (suspend env w).2.published = w.published ∧
    (suspend env w).2.gpio.out = w.gpio.out ∧
    (∀ p ∈ col_pin, (suspend env w).2.gpio.cfg p = w.gpio.cfg p) := by
  have ht := set_trig_mode_ok env hok GpioFlag.GPIO_INT_LEVEL w.gpio
  have hc := callback_ctrl_ok env hok true (set_trig_mode env GpioFlag.GPIO_INT_LEVEL w.gpio).2
  rw [suspend_active env hok w hs]
  refine ⟨rfl, rfl, ?_, ?_, hc.2.1, rfl, rfl, ?_, ?_⟩
  · show (callback_ctrl env true _).2.log = _
    rw [hc.2.2.2.2, ht.2.2.2.2]
    simp
  · intro p hp
    show (callback_ctrl env true _).2.cfg p = _
    rw [hc.2.2.1]
    exact ht.2.2.1 p hp
  · show (callback_ctrl env true _).2.out = _
    rw [hc.2.2.2.1, ht.2.2.2.1]
  · intro p hp
    have hnr : p ∉ row_pin := by
      simp only [col_pin, List.mem_cons, List.mem_singleton, List.not_mem_nil, or_false] at hp
      rcases hp with h | h | h | h <;> subst h <;> decide
    show (callback_ctrl env true _).2.cfg p = _
    rw [hc.2.2.1]
    exact (row_calls_frame env hok GpioFlag.GPIO_INT_LEVEL true w.gpio p hnr).1

/-- C9 at a concrete world: the driver settled in Active after a quiet init. -/
theorem C9_suspend_in_active_witness :
    (init_world env_quiet).state = State.STATE_ACTIVE ∧
    (suspend env_quiet (init_world env_quiet)).1 = 0 ∧
    (suspend env_quiet (init_world env_quiet)).2.state = State.STATE_IDLE ∧
    rows_armed (suspend env_quiet (init_world env_quiet)).2 :=
  have h := C9_suspend_in_active env_quiet (fun _ => rfl) (init_world env_quiet) rfl
  ⟨rfl, h.1, h.2.1, h.2.2.2.2.1⟩

/-! ## C10 -/

/-- C10: on a power-down event the handler calls suspend and answers by its
result: 0 gives one STANDBY and nothing else (handler returns false);
-EALREADY gives no publication (returns false); -EBUSY gives no publication
and returns true; any other code gives one ERROR and no STANDBY.  In all cases
the world is the one suspend left, plus the publication.  Hence, with every pin
controller call succeeding: a power-down in Active publishes exactly one
STANDBY at once; a power-down in Scanning publishes nothing and moves to
Suspending, after which a scan publishes one STANDBY if it samples no key
pressed and none otherwise; and a scan run in Scanning never publishes
STANDBY. -/
theorem C10_power_down_response (env : Env) (w : World) :
    ((suspend env w).1 = 0 →
      event_handler env w Incoming.power_down_event =
        (false, module_set_state ModuleState.MODULE_STATE_STANDBY (suspend env w).2) ∧
      published_since w.published.length (event_handler env w Incoming.power_down_event).2 =
        [Event.module_state_event ModuleState.MODULE_STATE_STANDBY]) ∧
    ((suspend env w).1 = -EALREADY →
      event_handler env w Incoming.power_down_event = (false, (suspend env w).2) ∧
      published_since w.published.length (event_handler env w Incoming.power_down_event).2 =
        []) ∧
    ((suspend env w).1 = -EBUSY →
      event_handler env w Incoming.power_down_event = (true, (suspend env w).2) ∧
      published_since w.published.length (event_handler env w Incoming.power_down_event).2 =
        []) ∧
    ((suspend env w).1 ≠ 0 → (suspend env w).1 ≠ -EALREADY → (suspend env w).1 ≠ -EBUSY →
      (event_handler env w Incoming.power_down_event).2 =
        module_set_state ModuleState.MODULE_STATE_ERROR (suspend env w).2 ∧
      published_since w.published.length (event_handler env w Incoming.power_down_event).2 =
        [Event.module_state_event ModuleState.MODULE_STATE_ERROR]) ∧
    ((∀ n, env.fault n = 0) → w.state = State.STATE_ACTIVE →
      (event_handler env w Incoming.power_down_event).1 = false ∧
      (event_handler env w Incoming.power_down_event).2.state = State.STATE_IDLE ∧
      published_since w.published.length (event_handler env w Incoming.power_down_event).2 =
        [Event.module_state_event ModuleState.MODULE_STATE_STANDBY]) ∧
    (w.state = State.STATE_SCANNING →
      (event_handler env w Incoming.power_down_event).1 = true ∧
      (event_handler env w Incoming.power_down_event).2.state = State.STATE_SUSPENDING ∧
      published_since w.published.length (event_handler env w Incoming.power_down_event).2 =
        []) ∧
    ((∀ n, env.fault n = 0) → w.state = State.STATE_SUSPENDING →
      (published_since w.published.length (matrix_scan_fn env w)).count
          (Event.module_state_event ModuleState.MODULE_STATE_STANDBY) =
        if any_set (sample env w.gpio).2.1 (List.range col_pin.length) then 0 else 1) ∧
    ((∀ n, env.fault n = 0) → w.state = State.STATE_SCANNING →
      (published_since w.published.length (matrix_scan_fn env w)).count
          (Event.module_state_event ModuleState.MODULE_STATE_STANDBY) = 0) := by
  have hf := suspend_nolock_frame env w
  have hpub : (suspend env w).2.published = w.published := hf.1
  have hnone : published_since w.published.length (suspend env w).2 = [] :=
    published_since_of_append _ _ _ (by rw [hpub, List.append_nil])
  have hone : ∀ s, published_since w.published.length
      (module_set_state s (suspend env w).2) = [Event.module_state_event s] := fun s =>
    published_since_of_append _ _ _ (by simp [module_set_state, EVENT_SUBMIT, hpub])
  have h0 : (suspend env w).1 = 0 →
      event_handler env w Incoming.power_down_event =
        (false, module_set_state ModuleState.MODULE_STATE_STANDBY (suspend env w).2) := by
    intro h
    simp [event_handler, h]
  have hbusy : (suspend env w).1 = -EBUSY →
      event_handler env w Incoming.power_down_event = (true, (suspend env w).2) := by
    intro h
    simp [event_handler, h, EBUSY, EALREADY]
  have hal : (suspend env w).1 = -EALREADY →
      event_handler env w Incoming.power_down_event = (false, (suspend env w).2) := by
    intro h
    simp [event_handler, h, EALREADY]
  refine ⟨?_, ?_, ?_, ?_, ?_, ?_, ?_, ?_⟩
  · intro h
    rw [h0 h]
    exact ⟨rfl, hone _⟩
  · intro h
    rw [hal h]
    exact ⟨rfl, hnone⟩
  · intro h
    rw [hbusy h]
    exact ⟨rfl, hnone⟩
  · intro h1 h2 h3
    have he : event_handler env w Incoming.power_down_event =
        (true, module_set_state ModuleState.MODULE_STATE_ERROR (suspend env w).2) := by
      simp [event_handler, h1, h2, h3]
    rw [he]
    exact ⟨rfl, hone _⟩
  · intro hok hs
    have hz : (suspend env w).1 = 0 := by rw [suspend_active env hok w hs]
    rw [h0 hz]
    refine ⟨rfl, ?_, hone _⟩
    rw [suspend_active env hok w hs]
    rfl
  · intro hs
    have hz : (suspend env w).1 = -EBUSY := by rw [suspend_scanning env w hs]
    rw [hbusy hz]
    refine ⟨rfl, ?_, hnone⟩
    rw [suspend_scanning env w hs]
  · intro hok hs
    exact scan_standby_count_suspending env hok w hs
  · intro hok hs
    exact scan_standby_count_scanning env hok w hs

/-- C10 at concrete worlds: a power-down accepted in Active, and one that fails
because the first pin configuration call of suspend (call number 53 after a
quiet init) returns -5. -/
theorem C10_power_down_response_witness :
    (suspend env_quiet (init_world env_quiet)).1 = 0 ∧
    published_since (init_world env_quiet).published.length
        (event_handler env_quiet (init_world env_quiet) Incoming.power_down_event).2 =
      [Event.module_state_event ModuleState.MODULE_STATE_STANDBY] ∧
    (suspend (env_fault 53 (-5)) (init_world (env_fault 53 (-5)))).1 = -5 ∧
    published_since (init_world (env_fault 53 (-5))).published.length
        (event_handler (env_fault 53 (-5)) (init_world (env_fault 53 (-5)))
          Incoming.power_down_event).2 =
      [Event.module_state_event ModuleState.MODULE_STATE_ERROR] :=
  ⟨by decide,
   ((C10_power_down_response env_quiet (init_world env_quiet)).1 (by decide)).2,
   by decide,
   ((C10_power_down_response (env_fault 53 (-5)) (init_world (env_fault 53 (-5)))).2.2.2.1
      (by decide) (by decide) (by decide)).2⟩

/-! ## C11 -/

/-- C11: resume called in a state other than Idle returns the world unchanged
(state, pin controller, pending scan, publications).  Called in Idle with every
pin controller call succeeding, it disables the callback of each row pin,
configures each row pin edge-triggered, sets the state to Scanning, runs
matrix_scan_fn exactly once (one new entry record, taken in Scanning with the
callbacks disabled) and publishes READY last, after the change events of that
scan; if that scan samples no key pressed the driver ends in Active with every
row pin configured edge-triggered, every row callback enabled and the pending
scan untouched. -/
theorem C11_resume (env : Env) (w : World) :
    (w.state ≠ State.STATE_IDLE → resume env w = w) ∧
    ((∀ n, env.fault n = 0) → w.state = State.STATE_IDLE →
      resume env w =
        module_set_state ModuleState.MODULE_STATE_READY (matrix_scan_fn env (resume_pre env w)) ∧
      (resume_pre env w).state = State.STATE_SCANNING ∧
      (resume_pre env w).gpio.log =
        w.gpio.log ++ row_pin.map GpioCall.pin_disable_callback ++
          row_pin.map (fun p => GpioCall.pin_configure p (row_flags GpioFlag.GPIO_INT_EDGE)) ∧
      rows_disarmed (resume_pre env w) ∧
      (resume env w).scan_entries =
        w.scan_entries ++ [ScanEntry.mk State.STATE_SCANNING false] ∧
      (resume env w).published =
        w.published ++
          diff_events (sample env (resume_pre env w).gpio).2.1 w.old_state
            (List.range col_pin.length) ++
          [Event.module_state_event ModuleState.MODULE_STATE_READY] ∧
      ((∀ c, c < 4 → ∀ r, r < 4 →
          snapBit (sample env (resume_pre env w).gpio).2.1 c r = false) →
        (resume env w).state = State.STATE_ACTIVE ∧
        rows_armed (resume env w) ∧
        (∀ p ∈ row_pin, (resume env w).gpio.cfg p = some (row_flags GpioFlag.GPIO_INT_EDGE)) ∧
        (resume env w).pending = w.pending)) := by
  refine ⟨resume_not_idle env w, ?_⟩
  intro hok hs
  have hpre := resume_pre_facts env hok w
  have heq : resume env w =
      module_set_state ModuleState.MODULE_STATE_READY (matrix_scan_fn env (resume_pre env w)) :=
    resume_idle env hok w hs
  refine ⟨heq, rfl, hpre.1, hpre.2.1, ?_, ?_, ?_⟩
  · rw [heq]
    show (matrix_scan_fn env (resume_pre env w)).scan_entries = _
    rw [matrix_scan_fn_entries, any_cb_false_of_disarmed _ hpre.2.1]
    rfl
  · rw [heq]
    show (matrix_scan_fn env (resume_pre env w)).published ++ _ = _
    rw [scan_scanning_published env hok (resume_pre env w) rfl]
    rfl
  · intro hk
    have hany := (any_set_false_iff _).mpr hk
    rw [heq, scan_ok_scanning env hok (resume_pre env w) hany rfl]
    have hcb := callback_ctrl_ok env hok true
      (set_cols env 0xFF (scan_commit env (resume_pre env w)).gpio).2
    refine ⟨rfl, hcb.2.1, ?_, rfl⟩
    intro p hp
    show (callback_ctrl env true _).2.cfg p = _
    rw [hcb.2.2.1, (set_cols_ok env hok 0xFF _).2.2]
    show (sample env (resume_pre env w).gpio).2.2.cfg p = _
    rw [(sample_ok env hok _).2.2]
    exact hpre.2.2 p hp

/-- C11 at concrete worlds: a wake-up in Active changes nothing; a wake-up in
Idle (after a power-down) with no key held ends in Active. -/
theorem C11_resume_witness :
    resume env_quiet (init_world env_quiet) = init_world env_quiet ∧
    (world_after env_quiet [Input.power_down]).state = State.STATE_IDLE ∧
    (resume env_quiet (world_after env_quiet [Input.power_down])).state = State.STATE_ACTIVE ∧
    rows_armed (resume env_quiet (world_after env_quiet [Input.power_down])) :=
  have h := ((C11_resume env_quiet (world_after env_quiet [Input.power_down])).2
    (fun _ => rfl) rfl).2.2.2.2.2.2 (by decide)
  ⟨(C11_resume env_quiet (init_world env_quiet)).1 (by decide), rfl, h.1, h.2.1⟩

/-! ## C12 -/

/-- C12: a row interrupt delivered while the state is Idle publishes exactly
one wake-up event and nothing else (so no button event), leaves the state
Idle, leaves the pending scan, the stored snapshot and the scan records
untouched, and makes exactly one disable-callback call per row pin; with these
calls succeeding every row callback is then disabled.  From there, with no scan
pending, every sequence of inputs that contains no wake-up (so resume is not
invoked) leaves the world as it is, callbacks disabled; in particular a
further suspend returns -EALREADY and changes nothing. -/
theorem C12_row_irq_in_idle (env : Env) (w : World) (hs : w.state = State.STATE_IDLE) :
    (button_pressed env w).published = w.published ++ [Event.wake_up_event] ∧
    buttonEvents (button_pressed env w).published = buttonEvents w.published ∧
    (button_pressed env w).state = State.STATE_IDLE ∧
    (button_pressed env w).pending = w.pending ∧
    (button_pressed env w).old_state = w.old_state ∧
    (button_pressed env w).scan_entries = w.scan_entries ∧
    (button_pressed env w).gpio.log =
      w.gpio.log ++ row_pin.map GpioCall.pin_disable_callback ∧
    ((∀ n, env.fault n = 0) → rows_disarmed (button_pressed env w)) ∧
    (rows_disarmed (button_pressed env w) → w.pending = none →
      suspend env (button_pressed env w) = (-EALREADY, button_pressed env w) ∧
      ∀ inputs w2, Input.wake_up ∉ inputs →
        run env (button_pressed env w) inputs = some w2 →
        w2 = button_pressed env w ∧ rows_disarmed w2) := by
  have hl := button_pressed_log env w
  have hb := button_pressed_idle env w hs
  have hst : (button_pressed env w).state = State.STATE_IDLE := by rw [hb]; exact hs
  have hpd : (button_pressed env w).pending = w.pending := by rw [hb]; rfl
  refine ⟨by rw [hb]; rfl, ?_, hst, hpd, hl.2.2.2.1, hl.2.2.2.2, hl.1, ?_, ?_⟩
  · rw [hb]
    simp [EVENT_SUBMIT, buttonEvents_append, buttonEvents]
  · intro hok
    rw [hb]
    exact (button_pressed_loop_ok env hok w.gpio).1
  · intro hd hp
    refine ⟨suspend_idle env _ hst, ?_⟩
    intro inputs w2 hni hr
    have h := idle_disarmed_run env inputs _ w2 hst hd (hpd.trans hp) hni hr
    rw [h]
    exact ⟨rfl, hd⟩

/-- C12 at a concrete world: the driver sent to Idle by a power-down, then a
row interrupt, then two more power-down requests. -/
theorem C12_row_irq_in_idle_witness :
    (world_after env_quiet [Input.power_down]).state = State.STATE_IDLE ∧
    (button_pressed env_quiet (world_after env_quiet [Input.power_down])).published =
      (world_after env_quiet [Input.power_down]).published ++ [Event.wake_up_event] ∧
    rows_disarmed (button_pressed env_quiet (world_after env_quiet [Input.power_down])) ∧
    rows_disarmed (world_after env_quiet
      [Input.power_down, Input.row_irq, Input.power_down, Input.power_down]) :=
  have h := C12_row_irq_in_idle env_quiet (world_after env_quiet [Input.power_down]) rfl
  have hd := h.2.2.2.2.2.2.2.1 (fun _ => rfl)
  ⟨rfl, h.1, hd,
    ((h.2.2.2.2.2.2.2.2 hd rfl).2 [Input.power_down, Input.power_down]
      (world_after env_quiet
        [Input.power_down, Input.row_irq, Input.power_down, Input.power_down])
      (by decide) rfl).2⟩

/-! ## C13 -/

/-- C13: the key identifier the scan computes.  One iteration of the inner
change-detection loop of the scan at column c and row r submits, when bit
(c, r) changed, exactly one button event whose key identifier is key_id c r,
the expression of the source truncated to the 16 bit field, and nothing
otherwise.  For every c and r below 256 (in particular below 4) that value
equals (c << 8) | r, is below 2^16, has the row in its low byte
(key_id & 0xFF = r) and the column above it (key_id >> 8 = c); hence two
distinct positions never share a key_id.  For a whole scan whose sampling
succeeded, (k, p) is among the button events the scan publishes exactly when
k = (c << 8) | r for a position (c, r) of the 4x4 matrix whose sampled bit
differs from the stored one, with k & 0xFF = r, k >> 8 = c and p the sampled
bit. -/
theorem C13_key_id (env : Env) (w : World) (cur : List Nat) (s : World × Bool) :
    (∀ c r, (diff_row cur c [r] s).1.published =
      s.1.published ++
        (if snapBit cur c r ≠ snapBit s.1.old_state c r then
          [Event.button_event (key_id c r) (snapBit cur c r)] else [])) ∧
    (∀ c r, c < 256 → r < 256 →
      key_id c r = (c <<< 8) ||| r ∧ key_id c r < 65536 ∧
      key_id c r &&& 0xFF = r ∧ key_id c r >>> 8 = c) ∧
    (∀ c r c2 r2, c < 256 → r < 256 → c2 < 256 → r2 < 256 →
      key_id c r = key_id c2 r2 → c = c2 ∧ r = r2) ∧
    ((sample env w.gpio).1 = 0 →
      ∀ k p, (k, p) ∈ buttonEvents
          (published_since w.published.length (matrix_scan_fn env w)) ↔
        ∃ c, c < 4 ∧ ∃ r, r < 4 ∧ k = key_id c r ∧ k = (c <<< 8) ||| r ∧
          k &&& 0xFF = r ∧ k >>> 8 = c ∧
          p = snapBit (sample env w.gpio).2.1 c r ∧
          snapBit (sample env w.gpio).2.1 c r ≠ snapBit w.old_state c r) := by
  have hfacts : ∀ c r, c < 256 → r < 256 →
      key_id c r = (c <<< 8) ||| r ∧ key_id c r < 65536 ∧
      key_id c r &&& 0xFF = r ∧ key_id c r >>> 8 = c := by
    intro c r hc hr
    have h1 := key_id_eq c r hc hr
    have h2 := key_id_fields c r hc hr
    exact ⟨h1.1.trans h1.2.symm, h2.1, h2.2.1, h2.2.2⟩
  refine ⟨?_, hfacts, ?_, ?_⟩
  · intro c r
    simp only [diff_row, land_one_shiftLeft_ne_zero, snapBit, key_id]
    by_cases h : (cur.getD c 0).testBit r ≠ (s.1.old_state.getD c 0).testBit r
    · simp only [if_pos h, EVENT_SUBMIT]
    · simp only [if_neg h, List.append_nil]
  · intro c r c2 r2 hc hr hc2 hr2 h
    have h1 := (key_id_eq c r hc hr).1
    have h2 := (key_id_eq c2 r2 hc2 hr2).1
    rw [h1, h2] at h
    omega
  · intro hs k p
    rw [(scan_button_events env w hs).2, mem_spec_scan_events]
    constructor
    · rintro ⟨c, hc, r, hr, hne, hk, hp⟩
      have hf := hfacts c r (by omega) (by omega)
      have hk2 : k = key_id c r := hk.trans hf.1.symm
      refine ⟨c, hc, r, hr, hk2, hk, ?_, ?_, hp, hne⟩
      · rw [hk2]; exact hf.2.2.1
      · rw [hk2]; exact hf.2.2.2
    · rintro ⟨c, hc, r, hr, _, hk, _, _, hp, hne⟩
      exact ⟨c, hc, r, hr, hne, hk, hp⟩

/-- C13 at concrete inputs: the loop iteration at (3, 2) with that bit newly
set submits key 0x0302 = 770, which has the row in the low byte and the column
above it; and a scan that reads row 1 of column 0 high publishes key 1 as
pressed. -/
theorem C13_key_id_witness :
    (diff_row [0, 0, 0, 4] 3 [2] (boot, false)).1.published =
      [Event.button_event 770 true] ∧
    (key_id 3 2 = (3 <<< 8) ||| 2 ∧ key_id 3 2 < 65536 ∧
      key_id 3 2 &&& 0xFF = 2 ∧ key_id 3 2 >>> 8 = 3) ∧
    (sample (env_key 5) boot.gpio).1 = 0 ∧
    (1, true) ∈ buttonEvents
      (published_since boot.published.length (matrix_scan_fn (env_key 5) boot)) :=
  ⟨((C13_key_id env_quiet boot [0, 0, 0, 4] (boot, false)).1 3 2).trans rfl,
    (C13_key_id env_quiet boot [] (boot, false)).2.1 3 2 (by decide) (by decide),
    rfl,
    ((C13_key_id (env_key 5) boot [] (boot, false)).2.2.2 rfl 1 true).mpr
      ⟨0, by decide, 1, by decide, rfl, rfl, rfl, rfl, rfl, by decide⟩⟩

/-! ## C14 -/

/-- C14, the code at the failing input: when device_get_binding does not find
the device, init_fn returns at once and the world after the initialisation
has no publication at all (no ERROR), no pin controller call, no scan record
and state Idle; whereas when the device is found and the first configuration
call fails (the sibling error path), ERROR is published. -/
theorem C14_unbound_init_publishes_nothing :
    env_unbound.binding = false ∧
    (init_world env_unbound).published = [] ∧
    (init_world env_unbound).gpio.log = [] ∧
    (init_world env_unbound).scan_entries = [] ∧
    (init_world env_unbound).state = State.STATE_IDLE ∧
    (init_world (env_fault 0 (-5))).published =
      [Event.module_state_event ModuleState.MODULE_STATE_ERROR] :=
  ⟨rfl, rfl, rfl, rfl, rfl, by decide⟩

/-! ## C15 -/

/-- C15: for an init in which the device is found and every pin controller
call succeeds, with s the snapshot the first scan samples: the world after init
is the result of exactly one scan (one entry record, taken in Scanning with the
callbacks disabled); the publications are READY, once, followed by the change
events of that scan; the button events are the transitions from all released
to s, every one of them a press, and for each position (c, r) there is exactly
one pressed event if bit (c, r) of s is set and no event otherwise; when s is
all released no button event is published and the driver is in Active with
every row pin configured edge-triggered, every row callback enabled and no scan
pending. -/
theorem C15_init (env : Env) (hok : AllOk env) :
    init_world env = matrix_scan_fn env (init_pre env) ∧
    (init_world env).scan_entries = [ScanEntry.mk State.STATE_SCANNING false] ∧
    (init_world env).published =
      Event.module_state_event ModuleState.MODULE_STATE_READY ::
        diff_events (sample env (init_pre env).gpio).2.1 [0, 0, 0, 0]
          (List.range col_pin.length) ∧
    (init_world env).published.count
      (Event.module_state_event ModuleState.MODULE_STATE_READY) = 1 ∧
    buttonEvents (init_world env).published =
      spec_scan_events [0, 0, 0, 0] (sample env (init_pre env).gpio).2.1 ∧
    (∀ e ∈ buttonEvents (init_world env).published, e.2 = true) ∧
    (∀ c, c < 4 → ∀ r, r < 4 →
      key_events ((c <<< 8) ||| r) (buttonEvents (init_world env).published) =
        if snapBit (sample env (init_pre env).gpio).2.1 c r = true
        then [((c <<< 8) ||| r, true)] else []) ∧
    ((∀ c, c < 4 → ∀ r, r < 4 → snapBit (sample env (init_pre env).gpio).2.1 c r = false) →
      buttonEvents (init_world env).published = [] ∧
      (init_world env).state = State.STATE_ACTIVE ∧
      (∀ p ∈ row_pin, (init_world env).gpio.cfg p = some (row_flags GpioFlag.GPIO_INT_EDGE)) ∧
      rows_armed (init_world env) ∧
      (init_world env).pending = none) := by
  have hf := hok.2
  have hpre := init_pre_facts env hf
  have heq := init_world_pre env hok
  have hpub : (init_world env).published =
      Event.module_state_event ModuleState.MODULE_STATE_READY ::
        diff_events (sample env (init_pre env).gpio).2.1 [0, 0, 0, 0]
          (List.range col_pin.length) := by
    rw [heq, scan_scanning_published env hf (init_pre env) rfl]
    rfl
  have hbe : buttonEvents (init_world env).published =
      spec_scan_events [0, 0, 0, 0] (sample env (init_pre env).gpio).2.1 := by
    rw [hpub]
    show buttonEvents (diff_events _ _ _) = _
    exact diff_events_spec _ _
  refine ⟨heq, ?_, hpub, ?_, hbe, ?_, ?_, ?_⟩
  · rw [heq, matrix_scan_fn_entries, any_cb_false_of_disarmed _ hpre.1]
    rfl
  · rw [hpub, List.count_cons_self, count_status_diff_events]
  · rw [hbe]
    exact spec_scan_events_from_zero _
  · intro c hc r hr
    rw [hbe, key_events_spec _ _ c r hc hr, snapBit_zero]
    cases hb : snapBit (sample env (init_pre env).gpio).2.1 c r <;> simp
  · intro hk
    have hany := (any_set_false_iff _).mpr hk
    have hcb := callback_ctrl_ok env hf true
      (set_cols env 0xFF (scan_commit env (init_pre env)).gpio).2
    refine ⟨?_, ?_, ?_, ?_, ?_⟩
    · rw [hbe]
      unfold spec_scan_events
      rw [List.flatMap_eq_nil_iff]
      intro c hc
      rw [List.filterMap_eq_nil_iff]
      intro r hr
      rw [hk c (List.mem_range.mp hc) r (List.mem_range.mp hr), snapBit_zero]
      simp
    · rw [heq, scan_ok_scanning env hf (init_pre env) hany rfl]
    · intro p hp
      rw [heq, scan_ok_scanning env hf (init_pre env) hany rfl]
      show (callback_ctrl env true _).2.cfg p = _
      rw [hcb.2.2.1, (set_cols_ok env hf 0xFF _).2.2]
      show (sample env (init_pre env).gpio).2.2.cfg p = _
      rw [(sample_ok env hf _).2.2]
      exact hpre.2 p hp
    · rw [heq, scan_ok_scanning env hf (init_pre env) hany rfl]
      exact hcb.2.1
    · rw [heq, scan_ok_scanning env hf (init_pre env) hany rfl]
      rfl

/-- C15 at concrete environments: an init with the key at column 0, row 1 held
publishes READY and one press of key 1; a quiet init settles in Active. -/
theorem C15_init_witness :
    AllOk (env_key 18) ∧
    (init_world (env_key 18)).published =
      [Event.module_state_event ModuleState.MODULE_STATE_READY, Event.button_event 1 true] ∧
    key_events ((0 <<< 8) ||| 1) (buttonEvents (init_world (env_key 18)).published) =
      (if snapBit (sample (env_key 18) (init_pre (env_key 18)).gpio).2.1 0 1 = true
       then [((0 <<< 8) ||| 1, true)] else []) ∧
    buttonEvents (init_world env_quiet).published = [] ∧
    (init_world env_quiet).state = State.STATE_ACTIVE ∧
    rows_armed (init_world env_quiet) :=
  have h := ((C15_init env_quiet ⟨rfl, fun _ => rfl⟩).2.2.2.2.2.2.2) (by decide)
  ⟨⟨rfl, fun _ => rfl⟩, by decide,
    (C15_init (env_key 18) ⟨rfl, fun _ => rfl⟩).2.2.2.2.2.2.1 0 (by decide) 1 (by decide),
    h.1, h.2.1, h.2.2.2.1⟩

/-! ## C16 -/

/-- C17, counterexample to the claim as stated: after a quiet init and a
power-down, the first pin call of resume (call number 61) fails once and ERROR
is published; a second wake-up then resumes normally, samples the key at
column 0, row 1 pressed and publishes its button event after the ERROR.  When
the pin controller keeps failing from call 61 on, the second wake-up publishes
a second ERROR. -/
theorem C17_events_after_error :
    (env_fault_key 61 (-5) 75).fault 61 = -5 ∧
    (run (env_fault_key 61 (-5) 75) (init_world (env_fault_key 61 (-5) 75))
      [Input.power_down, Input.wake_up, Input.wake_up]).isSome = true ∧
    (world_after (env_fault_key 61 (-5) 75) [Input.power_down, Input.wake_up]).published =
      [Event.module_state_event ModuleState.MODULE_STATE_READY,
       Event.module_state_event ModuleState.MODULE_STATE_STANDBY,
       Event.module_state_event ModuleState.MODULE_STATE_ERROR] ∧
    (world_after (env_fault_key 61 (-5) 75)
        [Input.power_down, Input.wake_up, Input.wake_up]).published =
      [Event.module_state_event ModuleState.MODULE_STATE_READY,
       Event.module_state_event ModuleState.MODULE_STATE_STANDBY,
       Event.module_state_event ModuleState.MODULE_STATE_ERROR,
       Event.button_event 1 true,
       Event.module_state_event ModuleState.MODULE_STATE_READY] ∧
    (world_after (env_fault_from 61 (-5))
        [Input.power_down, Input.wake_up, Input.wake_up]).published =
      [Event.module_state_event ModuleState.MODULE_STATE_READY,
       Event.module_state_event ModuleState.MODULE_STATE_STANDBY,
       Event.module_state_event ModuleState.MODULE_STATE_ERROR,
       Event.module_state_event ModuleState.MODULE_STATE_ERROR] := by
  refine ⟨by decide, by decide, by decide, by decide, by decide⟩

/-- C17, amended: when a pin controller call made by a scan, by resume, by the
power-down handler (suspend returning a code other than -EBUSY and -EALREADY)
or by init_fn (with the device found) fails, the publications of that one
operation contain ERROR exactly once and no button event after it.  If moreover
the failure is a failed sampling or a failed neutral column write of a scan
entered in Scanning or Suspending with the row callbacks disabled and nothing
pending, then no later input publishes anything: ERROR stays the only one.
Nothing is claimed about later operations otherwise. -/
theorem C17_error_once_per_operation (env : Env) (w : World) :
    (CallFailed env w.gpio.log.length (matrix_scan_fn env w).gpio.log.length →
      ErrorOnce (published_since w.published.length (matrix_scan_fn env w))) ∧
    (CallFailed env w.gpio.log.length (resume env w).gpio.log.length →
      ErrorOnce (published_since w.published.length (resume env w))) ∧
    ((suspend env w).1 ≠ -EBUSY → (suspend env w).1 ≠ -EALREADY →
      CallFailed env w.gpio.log.length
        (event_handler env w Incoming.power_down_event).2.gpio.log.length →
      ErrorOnce (published_since w.published.length
        (event_handler env w Incoming.power_down_event).2)) ∧
    (env.binding = true →
      CallFailed env w.gpio.log.length (init_fn env w).gpio.log.length →
      ErrorOnce (published_since w.published.length (init_fn env w))) ∧
    ((w.state = State.STATE_SCANNING ∨ w.state = State.STATE_SUSPENDING) →
      rows_disarmed w → w.pending = none →
      ((sample env w.gpio).1 ≠ 0 ∨ ((sample env w.gpio).1 = 0 ∧
        (set_cols env
          (if any_set (sample env w.gpio).2.1 (List.range col_pin.length) then 0x00 else 0xFF)
          (sample env w.gpio).2.2).1 ≠ 0)) →
      ∀ inputs w2, run env (matrix_scan_fn env w) inputs = some w2 →
        w2.published = (matrix_scan_fn env w).published) := by
  refine ⟨opOutcome_failed env w _ (scan_outcome env w),
    opOutcome_failed env w _ (resume_outcome env w), ?_, ?_, ?_⟩
  · intro h1 h2
    exact opOutcome_failed env w _ (power_down_outcome env w h1 h2)
  · intro hb
    exact opOutcome_failed env w _ (init_fn_outcome env w hb)
  · intro hst hd hp hf inputs w2 hr
    exact (wedged_run env inputs _ w2 (scan_fail_wedged env w hst hd hp hf) hr).2.2

/-- C17 amended, at the failing resume of the counterexample. -/
theorem C17_error_once_per_operation_witness :
    CallFailed (env_fault_key 61 (-5) 75)
      (world_after (env_fault_key 61 (-5) 75) [Input.power_down]).gpio.log.length
      (resume (env_fault_key 61 (-5) 75)
        (world_after (env_fault_key 61 (-5) 75) [Input.power_down])).gpio.log.length ∧
    ErrorOnce (published_since
      (world_after (env_fault_key 61 (-5) 75) [Input.power_down]).published.length
      (resume (env_fault_key 61 (-5) 75)
        (world_after (env_fault_key 61 (-5) 75) [Input.power_down]))) :=
  have hf : CallFailed (env_fault_key 61 (-5) 75)
      (world_after (env_fault_key 61 (-5) 75) [Input.power_down]).gpio.log.length
      (resume (env_fault_key 61 (-5) 75)
        (world_after (env_fault_key 61 (-5) 75) [Input.power_down])).gpio.log.length :=
    ⟨61, by decide, by decide, by decide⟩
  ⟨hf, (C17_error_once_per_operation (env_fault_key 61 (-5) 75)
    (world_after (env_fault_key 61 (-5) 75) [Input.power_down])).2.1 hf⟩

/-! ## C18 -/

/-- C18: for a scan in which every pin controller call succeeds.  Sampling
makes, for each column c in turn, one write per column pin driving exactly
column c high and the others low, followed by one read per row pin; bit (c, r)
of the sampled snapshot is the level seen by the read of row r that follows the
writes for column c; the snapshot has only bits (c, r) with c, r below 4, so it
has a bit set exactly when it is not the zero snapshot.  At the end: if some
bit is set, the last calls are writes of 0 to every column pin, every column
output is low, a scan is pending with delay SCAN_INTERVAL and the state is
unchanged; otherwise the calls after sampling start with writes of 1 to every
column pin, every column output is high, the pending scan is untouched (none
is scheduled) and the state goes from Scanning to Active and from Suspending
to Idle. -/
theorem C18_scan_column_levels (env : Env) (hok : ∀ n, env.fault n = 0) (w : World) :
    (sample env w.gpio).2.2.log =
      w.gpio.log ++ (List.range 4).flatMap (fun c =>
        ((List.range 4).map fun k =>
          GpioCall.pin_write (col_pin.getD k 0) (if k = c then 1 else 0)) ++
        row_pin.map GpioCall.pin_read) ∧
    (∀ c, c < 4 → ∀ r, r < 4 →
      snapBit (sample env w.gpio).2.1 c r =
        env.level (w.gpio.log.length + 8 * c + 4 + r) (row_pin.getD r 0)) ∧
    ((sample env w.gpio).2.1 = [0, 0, 0, 0] ↔
      ∀ c, c < 4 → ∀ r, r < 4 → snapBit (sample env w.gpio).2.1 c r = false) ∧
    ((∃ c, c < 4 ∧ ∃ r, r < 4 ∧ snapBit (sample env w.gpio).2.1 c r = true) →
      (matrix_scan_fn env w).gpio.log =
        (sample env w.gpio).2.2.log ++ col_pin.map (fun p => GpioCall.pin_write p 0) ∧
      (∀ p ∈ col_pin, (matrix_scan_fn env w).gpio.out p = 0) ∧
      (matrix_scan_fn env w).pending = some env.scan_interval ∧
      (matrix_scan_fn env w).state = w.state) ∧
    ((∀ c, c < 4 → ∀ r, r < 4 → snapBit (sample env w.gpio).2.1 c r = false) →
      (∃ rest, (matrix_scan_fn env w).gpio.log =
        (sample env w.gpio).2.2.log ++ col_pin.map (fun p => GpioCall.pin_write p 1) ++ rest) ∧
      (∀ p ∈ col_pin, (matrix_scan_fn env w).gpio.out p = 1) ∧
      (matrix_scan_fn env w).pending = w.pending ∧
      (w.state = State.STATE_SCANNING → (matrix_scan_fn env w).state = State.STATE_ACTIVE) ∧
      (w.state = State.STATE_SUSPENDING → (matrix_scan_fn env w).state = State.STATE_IDLE)) := by
  have hso := set_cols_out env hok (sample env w.gpio).2.2
  refine ⟨sample_log env hok w.gpio, fun c hc r hr => sample_bits env hok w.gpio c r hc hr,
    wellFormed_zero_iff _ (sample_wellFormed env w.gpio), ?_, ?_⟩
  · intro hk
    have hany := (any_set_iff _).mpr hk
    rw [scan_ok_pressed env hok w hany]
    refine ⟨?_, hso.1, rfl, rfl⟩
    show (set_cols env 0x00 (sample env w.gpio).2.2).2.log = _
    rw [set_cols_log env hok, col_writes_low]
  · intro hk
    have hany := (any_set_false_iff _).mpr hk
    have hlog : (set_cols env 0xFF (sample env w.gpio).2.2).2.log =
        (sample env w.gpio).2.2.log ++ col_pin.map (fun p => GpioCall.pin_write p 1) := by
      rw [set_cols_log env hok, col_writes_high]
    cases hs : w.state
    · have he : matrix_scan_fn env w =
          { scan_commit env w with gpio := (set_cols env 0xFF (scan_commit env w).gpio).2 } := by
        rw [matrix_scan_fn_eq env w (sample_ok env hok w.gpio).1, hany]
        unfold scan_finish
        simp [set_cols_fst env hok, settle_idle, scan_commit, hs]
      rw [he]
      refine ⟨⟨[], ?_⟩, hso.2, rfl, (fun h => by cases h), (fun h => by cases h)⟩
      show (set_cols env 0xFF (sample env w.gpio).2.2).2.log = _
      rw [hlog, List.append_nil]
    · have he : matrix_scan_fn env w =
          { scan_commit env w with gpio := (set_cols env 0xFF (scan_commit env w).gpio).2 } := by
        rw [matrix_scan_fn_eq env w (sample_ok env hok w.gpio).1, hany]
        unfold scan_finish
        simp [set_cols_fst env hok, settle_idle, scan_commit, hs]
      rw [he]
      refine ⟨⟨[], ?_⟩, hso.2, rfl, (fun h => by cases h), (fun h => by cases h)⟩
      show (set_cols env 0xFF (sample env w.gpio).2.2).2.log = _
      rw [hlog, List.append_nil]
    · rw [scan_ok_scanning env hok w hany hs]
      have hcb := callback_ctrl_ok env hok true
        (set_cols env 0xFF (sample env w.gpio).2.2).2
      refine ⟨⟨row_pin.map GpioCall.pin_enable_callback, ?_⟩, ?_, rfl, (fun _ => rfl),
        (fun h => by cases h)⟩
      · show (callback_ctrl env true (set_cols env 0xFF (sample env w.gpio).2.2).2).2.log = _
        rw [hcb.2.2.2.2, hlog]
        simp
      · intro p hp
        show (callback_ctrl env true (set_cols env 0xFF (sample env w.gpio).2.2).2).2.out p = _
        rw [hcb.2.2.2.1]
        exact hso.2 p hp
    · rw [scan_ok_suspending env hok w hany hs]
      have ht := set_trig_mode_ok env hok GpioFlag.GPIO_INT_LEVEL
        (set_cols env 0xFF (sample env w.gpio).2.2).2
      have hcb := callback_ctrl_ok env hok true
        (set_trig_mode env GpioFlag.GPIO_INT_LEVEL
          (set_cols env 0xFF (sample env w.gpio).2.2).2).2
      refine ⟨⟨row_pin.map (fun p => GpioCall.pin_configure p
          (row_flags GpioFlag.GPIO_INT_LEVEL)) ++ row_pin.map GpioCall.pin_enable_callback, ?_⟩,
        ?_, rfl, (fun h => by cases h), (fun _ => rfl)⟩
      · show (callback_ctrl env true (set_trig_mode env GpioFlag.GPIO_INT_LEVEL
          (set_cols env 0xFF (sample env w.gpio).2.2).2).2).2.log = _
        rw [hcb.2.2.2.2, ht.2.2.2.2, hlog]
        simp [row_flags]
      · intro p hp
        show (callback_ctrl env true (set_trig_mode env GpioFlag.GPIO_INT_LEVEL
          (set_cols env 0xFF (sample env w.gpio).2.2).2).2).2.out p = _
        rw [hcb.2.2.2.1, ht.2.2.2.1]
        exact hso.2 p hp

/-- C18 at concrete scans: from reset with the key at column 0, row 1 held the
scan ends with the columns low and a scan pending; the scheduled scan after an
init with that key held, now released, ends with the columns high in Active. -/
theorem C18_scan_column_levels_witness :
    snapBit (sample (env_key 5) boot.gpio).2.1 0 1 = true ∧
    (matrix_scan_fn (env_key 5) boot).pending = some 10 ∧
    (matrix_scan_fn (env_key 5) boot).gpio.out 21 = 0 ∧
    (matrix_scan_fn (env_key 18) { init_world (env_key 18) with pending := none }).state =
      State.STATE_ACTIVE ∧
    (matrix_scan_fn (env_key 18) { init_world (env_key 18) with pending := none }).gpio.out 21 =
      1 :=
  have h1 := (C18_scan_column_levels (env_key 5) (fun _ => rfl) boot).2.2.2.1
    ⟨0, by decide, 1, by decide, by decide⟩
  have h2 := (C18_scan_column_levels (env_key 18) (fun _ => rfl)
    { init_world (env_key 18) with pending := none }).2.2.2.2 (by decide)
  ⟨by decide, h1.2.2.1, h1.2.1 21 (by decide), h2.2.2.2.1 rfl, h2.2.1 21 (by decide)⟩

/-! ## C19 -/

/-- C19: in every state, and whatever the pin controller answers, the calls the
interrupt handler makes are exactly one disable-callback call per row pin (so
no pin read and no pin write), outputs and configuration are unchanged, the
stored snapshot and the scan records are unchanged and no button event is
published.  In Active the handler result is: callbacks disabled first, then
state Scanning and the scan submitted with delay 0, with nothing published
(so no wake-up event).  With the disable calls succeeding every row callback
is disabled afterwards. -/
theorem C19_row_irq_handler (env : Env) (w : World) :
    (button_pressed env w).gpio.log =
      w.gpio.log ++ row_pin.map GpioCall.pin_disable_callback ∧
    (button_pressed env w).gpio.out = w.gpio.out ∧
    (button_pressed env w).gpio.cfg = w.gpio.cfg ∧
    (button_pressed env w).old_state = w.old_state ∧
    (button_pressed env w).scan_entries = w.scan_entries ∧
    buttonEvents (button_pressed env w).published = buttonEvents w.published ∧
    (w.state = State.STATE_ACTIVE →
      button_pressed env w =
        k_delayed_work_submit 0
          { w with
            gpio := button_pressed_loop env (List.range row_pin.length) w.gpio
            state := State.STATE_SCANNING } ∧
      (button_pressed env w).state = State.STATE_SCANNING ∧
      (button_pressed env w).pending = some 0 ∧
      (button_pressed env w).published = w.published) ∧
    ((∀ n, env.fault n = 0) → rows_disarmed (button_pressed env w)) := by
  have hl := button_pressed_log env w
  refine ⟨hl.1, hl.2.2.1, hl.2.1, hl.2.2.2.1, hl.2.2.2.2, ?_, ?_, ?_⟩
  · unfold button_pressed
    dsimp only
    cases w.state
    · simp [EVENT_SUBMIT, buttonEvents_append, buttonEvents]
    · rfl
    · rfl
    · rfl
  · intro hs
    have hb := button_pressed_active env w hs
    rw [hb]
    exact ⟨rfl, rfl, rfl, rfl⟩
  · intro hok
    have hcb := (button_pressed_loop_ok env hok w.gpio).1
    unfold button_pressed
    dsimp only
    cases w.state <;> exact hcb

/-- C19 at a concrete world: a row interrupt in Active after a quiet init. -/
theorem C19_row_irq_handler_witness :
    (init_world env_quiet).state = State.STATE_ACTIVE ∧
    (button_pressed env_quiet (init_world env_quiet)).state = State.STATE_SCANNING ∧
    (button_pressed env_quiet (init_world env_quiet)).pending = some 0 ∧
    (button_pressed env_quiet (init_world env_quiet)).published =
      (init_world env_quiet).published ∧
    rows_disarmed (button_pressed env_quiet (init_world env_quiet)) :=
  have h := C19_row_irq_handler env_quiet (init_world env_quiet)
  have ha := h.2.2.2.2.2.2.1 rfl
  ⟨rfl, ha.2.1, ha.2.2.1, ha.2.2.2, h.2.2.2.2.2.2.2 (fun _ => rfl)⟩

/-! ## C20 -/

/-- C20: a scan running in Suspending whose sampling succeeds with no key
pressed, whose neutral column write succeeds, and whose re-invoked suspend
transition fails (the trigger mode configuration fails, or it succeeds and the
callback enabling fails) publishes its change events followed by ERROR: ERROR
exactly once, no STANDBY, and the pending scan is left as it was (none is
scheduled).  The state is then Idle. -/
theorem C20_suspend_failure_in_scan (env : Env) (w : World)
    (hs : w.state = State.STATE_SUSPENDING)
    (hsam : (sample env w.gpio).1 = 0)
    (hk : ∀ c, c < 4 → ∀ r, r < 4 → snapBit (sample env w.gpio).2.1 c r = false)
    (hcols : (set_cols env 0xFF (sample env w.gpio).2.2).1 = 0)
    (hfail : (set_trig_mode env GpioFlag.GPIO_INT_LEVEL
        (set_cols env 0xFF (sample env w.gpio).2.2).2).1 ≠ 0 ∨
      ((set_trig_mode env GpioFlag.GPIO_INT_LEVEL
        (set_cols env 0xFF (sample env w.gpio).2.2).2).1 = 0 ∧
       (callback_ctrl env true (set_trig_mode env GpioFlag.GPIO_INT_LEVEL
        (set_cols env 0xFF (sample env w.gpio).2.2).2).2).1 ≠ 0)) :
    published_since w.published.length (matrix_scan_fn env w) =
      diff_events (sample env w.gpio).2.1 w.old_state (List.range col_pin.length) ++
        [Event.module_state_event ModuleState.MODULE_STATE_ERROR] ∧
    (published_since w.published.length (matrix_scan_fn env w)).count
      (Event.module_state_event ModuleState.MODULE_STATE_ERROR) = 1 ∧
    (published_since w.published.length (matrix_scan_fn env w)).count
      (Event.module_state_event ModuleState.MODULE_STATE_STANDBY) = 0 ∧
    (matrix_scan_fn env w).pending = w.pending ∧
    (matrix_scan_fn env w).state = State.STATE_IDLE := by
  have hany := (any_set_false_iff _).mpr hk
  have he : (matrix_scan_fn env w).published =
      w.published ++ (diff_events (sample env w.gpio).2.1 w.old_state
        (List.range col_pin.length) ++
        [Event.module_state_event ModuleState.MODULE_STATE_ERROR]) ∧
      (matrix_scan_fn env w).pending = w.pending ∧
      (matrix_scan_fn env w).state = State.STATE_IDLE := by
    rw [matrix_scan_fn_eq env w hsam, hany]
    unfold scan_finish
    rcases hfail with h | ⟨h1, h2⟩
    · simp [scan_commit, hcols, settle_idle, hs, suspend_nolock, h, module_set_state,
        EVENT_SUBMIT]
    · simp [scan_commit, hcols, settle_idle, hs, suspend_nolock, h1, h2, module_set_state,
        EVENT_SUBMIT]
  have hp := published_since_of_append _ _ _ he.1
  refine ⟨hp, ?_, ?_, he.2.1, he.2.2⟩
  · rw [hp, List.count_append, count_status_diff_events]
    rfl
  · rw [hp, List.count_append, count_status_diff_events]
    rfl

/-- C20 at a concrete run: a key is held during init, power-down arrives while
scanning, the next scheduled scan sees the key released and the first trigger
mode configuration call of the suspend transition (call number 85) fails. -/
theorem C20_suspend_failure_in_scan_witness :
    (world_after (env_fault_key 85 (-5) 18) [Input.power_down]).state =
      State.STATE_SUSPENDING ∧
    published_since
        { world_after (env_fault_key 85 (-5) 18) [Input.power_down] with
          pending := none }.published.length
        (matrix_scan_fn (env_fault_key 85 (-5) 18)
          { world_after (env_fault_key 85 (-5) 18) [Input.power_down] with pending := none }) =
      [Event.button_event 1 false, Event.module_state_event ModuleState.MODULE_STATE_ERROR] ∧
    (matrix_scan_fn (env_fault_key 85 (-5) 18)
      { world_after (env_fault_key 85 (-5) 18) [Input.power_down] with pending := none }).pending =
      none :=
  have h := C20_suspend_failure_in_scan (env_fault_key 85 (-5) 18)
    { world_after (env_fault_key 85 (-5) 18) [Input.power_down] with pending := none }
    (by decide) (by decide) (by decide) (by decide) (Or.inl (by decide))
  ⟨by decide, h.1.trans (by decide), h.2.2.2.1⟩

end ButtonsMatrix
